import Mathlib

/-!
# Ray tracing: bounding boxes, triangles and the recursive renderer

A shallow embedding of `Bounds3.hpp` and `Triangle.hpp` (`hw6`), of the recursive renderer
of `hw5/Renderer.cpp`, of the band assembly of `Renderer::Render` (`hw5`, `hw6`, `hw7`),
and of `sampleLight` and `castRay` of the path tracer `hw7/Scene.cpp`, where the calls of
`get_random_float` read successive elements of an arbitrary sequence of draws.

C++ `float`/`double` values are embedded as `Flt`: a rational number, or one of the IEEE
special values `+inf`, `-inf`, `NaN`.  The special values follow the IEEE rules (`x/0`,
`0*inf`, `inf-inf`, comparisons with `NaN` are false).  Signed zeros are not
distinguished: a zero divisor behaves like `+0`.

Two arithmetics are defined on `Flt`.  The operators `+`, `-`, `*`, `/` are exact (no
rounding, no overflow).  The operations `add32`, `sub32`, `mul32`, `div32`, `sqrt32`
(binary32) and `add64`, `mul64`, `div64` (binary64) round the exact result to nearest, ties
to even, with gradual underflow and overflow to an infinity, as IEEE 754 prescribes.  Every
C++ operation on `float` or `double` operands is taken to round once (no fused
multiply-add, no excess precision) and `sqrtf` to be correctly rounded.

The functions whose result depends on rounding come in two versions.  The version with the
arithmetic of the source carries the suffix `32` (or `64` for the `double` overload):
`IntersectP32`, `rayTriangleIntersect32`, `rayTriangleIntersect64`, `getIntersection32`,
`refract32`, `fresnel32`.  The version without suffix evaluates the same expressions in
exact arithmetic: it describes the source wherever no operation rounds.
-/

namespace RayTracing

/-- An IEEE-style scalar: an exact rational or a special value. -/
inductive Flt where
  | fin (q : ℚ)
  | pinf
  | ninf
  | nan
  deriving DecidableEq

namespace Flt

/-- The infinity carrying the sign of `q`; `NaN` when `q = 0` (as in `0 * inf`). -/
def infOfSign (q : ℚ) : Flt :=
  if q = 0 then nan else if 0 < q then pinf else ninf

/-- Unary minus. -/
def neg : Flt → Flt
  | fin a => fin (-a)
  | pinf => ninf
  | ninf => pinf
  | nan => nan

/-- Addition, with `inf + (-inf) = NaN`. -/
def add : Flt → Flt → Flt
  | fin a, fin b => fin (a + b)
  | fin _, pinf => pinf
  | fin _, ninf => ninf
  | pinf, fin _ => pinf
  | pinf, pinf => pinf
  | ninf, fin _ => ninf
  | ninf, ninf => ninf
  | _, _ => nan

/-- Subtraction, with `inf - inf = NaN`. -/
def sub (a b : Flt) : Flt := add a (neg b)

/-- Multiplication, with `0 * inf = NaN`. -/
def mul : Flt → Flt → Flt
  | fin a, fin b => fin (a * b)
  | fin a, pinf => infOfSign a
  | fin a, ninf => infOfSign (-a)
  | pinf, fin b => infOfSign b
  | ninf, fin b => infOfSign (-b)
  | pinf, pinf => pinf
  | pinf, ninf => ninf
  | ninf, pinf => ninf
  | ninf, ninf => pinf
  | _, _ => nan

/-- Division, with `x / 0 = ±inf` for `x ≠ 0`, `0 / 0 = NaN`, `inf / inf = NaN`. -/
def div : Flt → Flt → Flt
  | fin a, fin b => if b = 0 then infOfSign a else fin (a / b)
  | fin _, pinf => fin 0
  | fin _, ninf => fin 0
  | pinf, fin b => if 0 ≤ b then pinf else ninf
  | ninf, fin b => if 0 ≤ b then ninf else pinf
  | _, _ => nan

instance : Neg Flt := ⟨neg⟩
instance : Add Flt := ⟨add⟩
instance : Sub Flt := ⟨sub⟩
instance : Mul Flt := ⟨mul⟩
instance : Div Flt := ⟨div⟩

/-- C++ `a < b`; false when either side is `NaN`. -/
def lt : Flt → Flt → Bool
  | fin a, fin b => decide (a < b)
  | fin _, pinf => true
  | ninf, fin _ => true
  | ninf, pinf => true
  | _, _ => false

/-- C++ `a <= b`; false when either side is `NaN`. -/
def le : Flt → Flt → Bool
  | fin a, fin b => decide (a ≤ b)
  | fin _, pinf => true
  | ninf, fin _ => true
  | ninf, pinf => true
  | pinf, pinf => true
  | ninf, ninf => true
  | _, _ => false

/-- C++ `a > b`. -/
def gt (a b : Flt) : Bool := lt b a

/-- C++ `a >= b`. -/
def ge (a b : Flt) : Bool := le b a

/-- C++ `a == b`; false when either side is `NaN`. -/
def eq : Flt → Flt → Bool
  | fin a, fin b => decide (a = b)
  | pinf, pinf => true
  | ninf, ninf => true
  | _, _ => false

/-- The function `std::isinf`. -/
def isinf : Flt → Bool
  | pinf => true
  | ninf => true
  | _ => false

/-- The function `fabs`. -/
def fabs : Flt → Flt
  | fin a => fin |a|
  | pinf => pinf
  | ninf => pinf
  | nan => nan

/-- The value is an ordinary (finite) number. -/
def isFinite : Flt → Bool
  | fin _ => true
  | _ => false

/-- The value is a number, finite or infinite (not `NaN`). -/
def isNum : Flt → Bool
  | nan => false
  | _ => true

/-- The two-element `std::min(a, b)`: `(b < a) ? b : a`. -/
def stdMin (a b : Flt) : Flt := if lt b a then b else a

/-- The two-element `std::max(a, b)`: `(a < b) ? b : a`. -/
def stdMax (a b : Flt) : Flt := if lt a b then b else a

/-- The function `fmin`: the smaller argument, ignoring a `NaN` argument. -/
def fmin : Flt → Flt → Flt
  | nan, b => b
  | a, nan => a
  | a, b => if lt b a then b else a

/-- The function `fmax`: the larger argument, ignoring a `NaN` argument. -/
def fmax : Flt → Flt → Flt
  | nan, b => b
  | a, nan => a
  | a, b => if lt a b then b else a

/-- The list form `std::max({a, b})`, i.e. `*std::max_element`: keep the first element and
replace it whenever `largest < next`. -/
def maxList2 (a b : Flt) : Flt := if lt a b then b else a

/-- The list form `std::max({a, b, c})`. -/
def maxList3 (a b c : Flt) : Flt := maxList2 (maxList2 a b) c

/-- The list form `std::min({a, b})`, i.e. `*std::min_element`: keep the first element and
replace it whenever `next < smallest`. -/
def minList2 (a b : Flt) : Flt := if lt b a then b else a

/-- The list form `std::min({a, b, c})`. -/
def minList3 (a b c : Flt) : Flt := minList2 (minList2 a b) c

end Flt

/-- Modelled from the spec: `Vector.hpp` is not part of the sources; a 3-component float
vector with the usual componentwise arithmetic. -/
structure Vector3f where
  x : Flt
  y : Flt
  z : Flt
  deriving DecidableEq

namespace Vector3f

/-- Modelled from the spec: componentwise sum (`operator+`). -/
def add (a b : Vector3f) : Vector3f := ⟨a.x + b.x, a.y + b.y, a.z + b.z⟩

/-- Modelled from the spec: componentwise difference (`operator-`). -/
def sub (a b : Vector3f) : Vector3f := ⟨a.x - b.x, a.y - b.y, a.z - b.z⟩

/-- Modelled from the spec: scaling by a scalar (`operator*(float)`). -/
def scale (a : Vector3f) (r : Flt) : Vector3f := ⟨a.x * r, a.y * r, a.z * r⟩

instance : Add Vector3f := ⟨add⟩
instance : Sub Vector3f := ⟨sub⟩

/-- Modelled from the spec: the componentwise minimum `Vector3f::Min`, taken with
`std::min`. -/
def Min (p1 p2 : Vector3f) : Vector3f :=
  ⟨Flt.stdMin p1.x p2.x, Flt.stdMin p1.y p2.y, Flt.stdMin p1.z p2.z⟩

/-- Modelled from the spec: the componentwise maximum `Vector3f::Max`, taken with
`std::max`. -/
def Max (p1 p2 : Vector3f) : Vector3f :=
  ⟨Flt.stdMax p1.x p2.x, Flt.stdMax p1.y p2.y, Flt.stdMax p1.z p2.z⟩

/-- All three components are finite numbers. -/
def isFinite (v : Vector3f) : Bool := v.x.isFinite && v.y.isFinite && v.z.isFinite

/-- No component is `NaN`. -/
def isNum (v : Vector3f) : Bool := v.x.isNum && v.y.isNum && v.z.isNum

/-- Componentwise `a ≤ b` on vectors. -/
def le (a b : Vector3f) : Bool := Flt.le a.x b.x && Flt.le a.y b.y && Flt.le a.z b.z

/-- The vector with finite rational components. -/
def ofRat (a b c : ℚ) : Vector3f := ⟨Flt.fin a, Flt.fin b, Flt.fin c⟩

end Vector3f

/-- Modelled from the spec: the dot product `dotProduct` of `Vector.hpp`. -/
def dotProduct (a b : Vector3f) : Flt := a.x * b.x + a.y * b.y + a.z * b.z

/-- Modelled from the spec: the cross product `crossProduct` of `Vector.hpp`. -/
def crossProduct (a b : Vector3f) : Vector3f :=
  ⟨a.y * b.z - a.z * b.y, a.z * b.x - a.x * b.z, a.x * b.y - a.y * b.x⟩

/-- Modelled from the spec: `Ray.hpp` is not part of the sources; a ray is an origin and a
direction, evaluated as `origin + t·direction`. -/
structure Ray where
  origin : Vector3f
  direction : Vector3f
  deriving DecidableEq

/-- Modelled from the spec: the call `ray(t)`, the point `origin + direction * t`. -/
def Ray.at (r : Ray) (t : Flt) : Vector3f := r.origin + r.direction.scale t

/-- The argument `std::array<int, 3> dirIsNeg` of `IntersectP`. -/
structure DirFlags where
  d0 : Int
  d1 : Int
  d2 : Int
  deriving DecidableEq

/-- The class `Bounds3`: two points specifying the bounding box. -/
structure Bounds3 where
  pMin : Vector3f
  pMax : Vector3f
  deriving DecidableEq

namespace Bounds3

/-- The default constructor `Bounds3()`: `pMin` is built from the largest and `pMax` from
the lowest `double`; these exceed the range of the `float` components, so the stored
values are `+inf` and `-inf` (the empty box of the spec). -/
def empty : Bounds3 :=
  ⟨⟨Flt.pinf, Flt.pinf, Flt.pinf⟩, ⟨Flt.ninf, Flt.ninf, Flt.ninf⟩⟩

/-- The constructor `Bounds3(p)`. -/
def ofPoint (p : Vector3f) : Bounds3 := ⟨p, p⟩

/-- The constructor `Bounds3(p1, p2)`. -/
def ofPoints (p1 p2 : Vector3f) : Bounds3 :=
  ⟨⟨Flt.fmin p1.x p2.x, Flt.fmin p1.y p2.y, Flt.fmin p1.z p2.z⟩,
   ⟨Flt.fmax p1.x p2.x, Flt.fmax p1.y p2.y, Flt.fmax p1.z p2.z⟩⟩

/-- The method `Diagonal`. -/
def Diagonal (b : Bounds3) : Vector3f := b.pMax - b.pMin

/-- The method `SurfaceArea`. -/
def SurfaceArea (b : Bounds3) : Flt :=
  let d := b.Diagonal
  Flt.fin 2 * (d.x * d.y + d.x * d.z + d.y * d.z)

/-- The method `Inside(p, b)`; it does not depend on the receiver. -/
def Inside (p : Vector3f) (b : Bounds3) : Bool :=
  Flt.ge p.x b.pMin.x && Flt.le p.x b.pMax.x && Flt.ge p.y b.pMin.y &&
    Flt.le p.y b.pMax.y && Flt.ge p.z b.pMin.z && Flt.le p.z b.pMax.z

/-- The method `IntersectP`, evaluated in exact arithmetic; `Bounds3.IntersectP32` is the
method with the `float` rounding of the source. -/
def IntersectP (b : Bounds3) (ray : Ray) (invDir : Vector3f) (dirIsNeg : DirFlags) : Bool :=
  if Inside ray.origin b then true
  else
    let tx_far := if dirIsNeg.d0 ≠ 0 then (b.pMax.x - ray.origin.x) * invDir.x
      else (b.pMin.x - ray.origin.x) * invDir.x
    let ty_far := if dirIsNeg.d1 ≠ 0 then (b.pMax.y - ray.origin.y) * invDir.y
      else (b.pMin.y - ray.origin.y) * invDir.y
    let tz_far := if dirIsNeg.d2 ≠ 0 then (b.pMax.z - ray.origin.z) * invDir.z
      else (b.pMin.z - ray.origin.z) * invDir.z
    let tx_near := if dirIsNeg.d0 ≠ 0 then (b.pMin.x - ray.origin.x) * invDir.x
      else (b.pMax.x - ray.origin.x) * invDir.x
    let ty_near := if dirIsNeg.d1 ≠ 0 then (b.pMin.y - ray.origin.y) * invDir.y
      else (b.pMax.y - ray.origin.y) * invDir.y
    let tz_near := if dirIsNeg.d2 ≠ 0 then (b.pMin.z - ray.origin.z) * invDir.z
      else (b.pMax.z - ray.origin.z) * invDir.z
    if Flt.eq ray.direction.x (Flt.fin 0) && Flt.eq ray.direction.y (Flt.fin 0) then
      let t_enter := tz_near
      let t_exit := tz_far
      if Inside (ray.at ((t_enter + t_exit) / Flt.fin 2)) b then true else false
    else
      let t_enter :=
        if Flt.isinf tx_far then Flt.maxList2 ty_near tz_near
        else if Flt.isinf ty_far then Flt.maxList2 tx_near tz_near
        else if Flt.isinf tz_far then Flt.maxList2 ty_near tx_near
        else Flt.maxList3 tx_near ty_near tz_near
      let t_exit :=
        if Flt.isinf tx_far then Flt.minList2 ty_far tz_far
        else if Flt.isinf ty_far then Flt.minList2 tx_far tz_far
        else if Flt.isinf tz_far then Flt.minList2 ty_far tx_far
        else Flt.minList3 tx_far ty_far tz_far
      Flt.le t_enter t_exit && Flt.ge t_exit (Flt.fin 0)

end Bounds3

/-- The free function `Union(b1, b2)`. -/
def Union (b1 b2 : Bounds3) : Bounds3 :=
  ⟨Vector3f.Min b1.pMin b2.pMin, Vector3f.Max b1.pMax b2.pMax⟩

/-- The free function `Union(b, p)`. -/
def UnionPoint (b : Bounds3) (p : Vector3f) : Bounds3 :=
  ⟨Vector3f.Min b.pMin p, Vector3f.Max b.pMax p⟩

/-- The reciprocal direction the caller passes: `invDir = (1.0/x, 1.0/y, 1.0/z)`. -/
def invDirOf (d : Vector3f) : Vector3f :=
  ⟨Flt.fin 1 / d.x, Flt.fin 1 / d.y, Flt.fin 1 / d.z⟩

/-- The flags the caller passes: `dirIsNeg = [int(x>0), int(y>0), int(z>0)]`. -/
def dirIsNegOf (d : Vector3f) : DirFlags :=
  ⟨if Flt.gt d.x (Flt.fin 0) then 1 else 0,
   if Flt.gt d.y (Flt.fin 0) then 1 else 0,
   if Flt.gt d.z (Flt.fin 0) then 1 else 0⟩

/-- Componentwise `pMin ≤ pMax`. -/
def Bounds3.WellFormed (b : Bounds3) : Bool :=
  Flt.le b.pMin.x b.pMax.x && Flt.le b.pMin.y b.pMax.y && Flt.le b.pMin.z b.pMax.z

/-- All six coordinates of the box are finite. -/
def Bounds3.isFinite (b : Bounds3) : Bool := b.pMin.isFinite && b.pMax.isFinite

/-- No coordinate of the box is `NaN`. -/
def Bounds3.isNum (b : Bounds3) : Bool := b.pMin.isNum && b.pMax.isNum

/-! ## Auxiliary notions for the slab test -/

/-- Entry parameter of a ray with non-zero direction `d` into the slab `[l, h]`. -/
def slabNear (l h o d : ℚ) : ℚ := if 0 < d then (l - o) * (1 / d) else (h - o) * (1 / d)

/-- Exit parameter of a ray with non-zero direction `d` out of the slab `[l, h]`. -/
def slabFar (l h o d : ℚ) : ℚ := if 0 < d then (h - o) * (1 / d) else (l - o) * (1 / d)

/-- The general path of `IntersectP`, from the six plane parameters to the result. -/
def slabCascade (xn xf yn yf zn zf : Flt) : Bool :=
  let t_enter :=
    if Flt.isinf xf then Flt.maxList2 yn zn
    else if Flt.isinf yf then Flt.maxList2 xn zn
    else if Flt.isinf zf then Flt.maxList2 yn xn
    else Flt.maxList3 xn yn zn
  let t_exit :=
    if Flt.isinf xf then Flt.minList2 yf zf
    else if Flt.isinf yf then Flt.minList2 xf zf
    else if Flt.isinf zf then Flt.minList2 yf xf
    else Flt.minList3 xf yf zf
  Flt.le t_enter t_exit && Flt.ge t_exit (Flt.fin 0)

/-- The parameter `t` lies between the near and far values of an axis, or the axis carries
no finite plane parameters at all. -/
def axisOK (n f : Flt) (t : ℚ) : Prop :=
  (n.isFinite = false ∧ f.isFinite = false) ∨
    (Flt.le n (Flt.fin t) = true ∧ Flt.le (Flt.fin t) f = true)

/-- The value `inv` is the reciprocal the caller computes for the direction component `d`:
`1/d`, or an infinity of either sign when `d` is a (signed) zero. -/
def IsRecip (d inv : Flt) : Bool :=
  if Flt.eq d (Flt.fin 0) then Flt.isinf inv else decide (inv = Flt.fin 1 / d)

/-- The coordinate `p` lies in the closed interval `[lo, hi]`. -/
def inSlab (p lo hi : Flt) : Bool := Flt.ge p lo && Flt.le p hi

/-! ## Triangles -/

/-- The function `rayTriangleIntersect` (both the `float` and the `double` overload),
evaluated in exact arithmetic; `rayTriangleIntersect32` and `rayTriangleIntersect64` are the
two overloads with the rounding of the source.  The reference parameters `tnear`, `u`, `v`
are passed in and returned after the flag. -/
def rayTriangleIntersect (v0 v1 v2 orig dir : Vector3f) (tnear u v : Flt) :
    Bool × Flt × Flt × Flt :=
  let S := orig - v0
  let E1 := v1 - v0
  let E2 := v2 - v0
  let S1 := crossProduct dir E2
  let S2 := crossProduct S E1
  let S1E1 := dotProduct S1 E1
  let t := dotProduct S2 E2 / S1E1
  let b1 := dotProduct S1 S / S1E1
  let b2 := dotProduct S2 dir / S1E1
  if Flt.gt t (Flt.fin 0) && Flt.ge b1 (Flt.fin 0) && Flt.ge b2 (Flt.fin 0) &&
      Flt.le b1 (Flt.fin 1) && Flt.le b2 (Flt.fin 1) && Flt.le (b1 + b2) (Flt.fin 1) then
    (true, t, b1, b2)
  else
    (false, tnear, u, v)

/-- The constant `const float EPSILON = 0.00001` of `Renderer.cpp`: the `float` nearest to
`0.00001`, which is `2748779 · 2^-38` (slightly below `1/100000`). -/
def EPSILON : Flt := Flt.fin (2748779 / 274877906944)

/-- Modelled from the spec: `normalize` lives in `Vector.hpp`, which is not part of the
sources.  A vector of positive squared length is scaled by `invMag = 1/sqrt(mag2)`, any
other vector is returned as is.  The square root is not a rational operation, so the
value of `invMag` is passed in. -/
def normalize (v : Vector3f) (invMag : Flt) : Vector3f :=
  let mag2 := v.x * v.x + v.y * v.y + v.z * v.z
  if Flt.gt mag2 (Flt.fin 0) then ⟨v.x * invMag, v.y * invMag, v.z * invMag⟩ else v

/-- The class `Triangle`: vertices, the two edges from `v0`, the face normal and the
material handle (texture coordinates are never read by the intersection code). -/
structure Triangle where
  v0 : Vector3f
  v1 : Vector3f
  v2 : Vector3f
  e1 : Vector3f
  e2 : Vector3f
  normal : Vector3f
  m : Option Nat
  deriving DecidableEq

/-- The constructor `Triangle(v0, v1, v2, m)`, evaluated in exact arithmetic; `invMag` is
the reciprocal length used by `normalize`.  `Triangle.construct32` is the constructor with
the `float` rounding of the source. -/
def Triangle.construct (v0 v1 v2 : Vector3f) (m : Option Nat) (invMag : Flt) : Triangle :=
  { v0 := v0, v1 := v1, v2 := v2, e1 := v1 - v0, e2 := v2 - v0,
    normal := normalize (crossProduct (v1 - v0) (v2 - v0)) invMag, m := m }

/-- Modelled from the spec: `Intersection.hpp` is not part of the sources; the record of
a ray query: whether a hit occurred, hit point, surface normal, parametric distance, the
object and the material. -/
structure Intersection where
  happened : Bool
  coords : Vector3f
  normal : Vector3f
  distance : Flt
  obj : Option Triangle
  m : Option Nat
  deriving DecidableEq

/-- The method `Triangle::getIntersection`, evaluated in exact arithmetic; `inter` is the
default-constructed record `Intersection inter;` the method starts from.
`Triangle.getIntersection32` is the method with the rounding of the source. -/
def Triangle.getIntersection (tri : Triangle) (ray : Ray) (inter : Intersection) :
    Intersection :=
  if Flt.gt (dotProduct ray.direction tri.normal) (Flt.fin 0) then inter
  else
    let pvec := crossProduct ray.direction tri.e2
    let det := dotProduct tri.e1 pvec
    if Flt.lt (Flt.fabs det) EPSILON then inter
    else
      let det_inv := Flt.fin 1 / det
      let tvec := ray.origin - tri.v0
      let u := dotProduct tvec pvec * det_inv
      if Flt.lt u (Flt.fin 0) || Flt.gt u (Flt.fin 1) then inter
      else
        let qvec := crossProduct tvec tri.e1
        let v := dotProduct ray.direction qvec * det_inv
        if Flt.lt v (Flt.fin 0) || Flt.gt (u + v) (Flt.fin 1) then inter
        else
          let t_tmp := dotProduct tri.e2 qvec * det_inv
          { inter with
            coords := ray.at t_tmp
            distance := t_tmp
            m := tri.m
            obj := some tri
            normal := tri.normal
            happened := true }

/-- The unit right triangle `(0,0,0), (1,0,0), (0,1,0)` used in the examples. -/
def unitTriangle : Triangle :=
  Triangle.construct (Vector3f.ofRat 0 0 0) (Vector3f.ofRat 1 0 0) (Vector3f.ofRat 0 1 0)
    none (Flt.fin 1)

/-- A no-hit record, used as the starting record in the examples. -/
def noHit : Intersection :=
  { happened := false, coords := Vector3f.ofRat 0 0 0, normal := Vector3f.ofRat 0 0 0,
    distance := Flt.pinf, obj := none, m := none }

/-! ## The recursive renderer of `hw5/Renderer.cpp` -/

/-- Modelled from the spec: the unary minus of `Vector.hpp`. -/
def Vector3f.neg (a : Vector3f) : Vector3f := ⟨-a.x, -a.y, -a.z⟩

/-- Modelled from the spec: the elementwise product `Vector3f * Vector3f` of `Vector.hpp`. -/
def Vector3f.mul (a b : Vector3f) : Vector3f := ⟨a.x * b.x, a.y * b.y, a.z * b.z⟩

/-- The vector `Vector3f(0)`, also the conversion of the literal `0` to a vector. -/
def Vector3f.zero : Vector3f := ⟨Flt.fin 0, Flt.fin 0, Flt.fin 0⟩

namespace Whitted

/-- Modelled from the spec: what `Renderer.cpp` takes from outside the sources: the
constant `kInfinity` of `global.hpp` and the math-library functions `sqrtf`, `powf` and
`std::tan`, which are not rational operations. -/
structure Globals where
  kInfinity : Flt
  sqrtf : Flt → Flt
  powf : Flt → Flt → Flt
  tan : Flt → Flt

/-- Modelled from the spec: the helper `clamp(lo, hi, v)` of `global.hpp`,
`std::max(lo, std::min(hi, v))`. -/
def clamp (lo hi v : Flt) : Flt := Flt.stdMax lo (Flt.stdMin hi v)

/-- The call `normalize(v)`, the reciprocal length being computed with `sqrtf`. -/
def normalizeG (G : Globals) (v : Vector3f) : Vector3f :=
  normalize v (Flt.fin 1 / G.sqrtf (v.x * v.x + v.y * v.y + v.z * v.z))

/-- The function `reflect`: `I - 2 * dotProduct(I, N) * N`. -/
def reflect (I N : Vector3f) : Vector3f := I - N.scale (Flt.fin 2 * dotProduct I N)

/-- The value `k` computed by `refract`, in exact arithmetic:
`1 - eta * eta * (1 - cosi * cosi)` after the sign test on `cosi`. -/
def refractK (I N : Vector3f) (ior : Flt) : Flt :=
  let cosi0 := clamp (Flt.fin (-1)) (Flt.fin 1) (dotProduct I N)
  let cosi := if Flt.lt cosi0 (Flt.fin 0) then -cosi0 else cosi0
  let etai := if Flt.lt cosi0 (Flt.fin 0) then Flt.fin 1 else ior
  let etat := if Flt.lt cosi0 (Flt.fin 0) then ior else Flt.fin 1
  let eta := etai / etat
  Flt.fin 1 - eta * eta * (Flt.fin 1 - cosi * cosi)

/-- The function `refract`, evaluated in exact arithmetic with `sqrtf` a parameter;
`refract32` is the function with the `float` rounding of the source. -/
def refract (G : Globals) (I N : Vector3f) (ior : Flt) : Vector3f :=
  let cosi0 := clamp (Flt.fin (-1)) (Flt.fin 1) (dotProduct I N)
  let cosi := if Flt.lt cosi0 (Flt.fin 0) then -cosi0 else cosi0
  let etai := if Flt.lt cosi0 (Flt.fin 0) then Flt.fin 1 else ior
  let etat := if Flt.lt cosi0 (Flt.fin 0) then ior else Flt.fin 1
  let n := if Flt.lt cosi0 (Flt.fin 0) then N else N.neg
  let eta := etai / etat
  let k := Flt.fin 1 - eta * eta * (Flt.fin 1 - cosi * cosi)
  if Flt.lt k (Flt.fin 0) then Vector3f.zero
  else I.scale eta + n.scale (eta * cosi - G.sqrtf k)

/-- The function `fresnel`, evaluated in exact arithmetic with `sqrtf` a parameter;
`fresnel32` is the function with the `float` rounding of the source. -/
def fresnel (G : Globals) (I N : Vector3f) (ior : Flt) : Flt :=
  let cosi := clamp (Flt.fin (-1)) (Flt.fin 1) (dotProduct I N)
  let etai := if Flt.gt cosi (Flt.fin 0) then ior else Flt.fin 1
  let etat := if Flt.gt cosi (Flt.fin 0) then Flt.fin 1 else ior
  let sint := etai / etat * G.sqrtf (Flt.stdMax (Flt.fin 0) (Flt.fin 1 - cosi * cosi))
  if Flt.ge sint (Flt.fin 1) then Flt.fin 1
  else
    let cost := G.sqrtf (Flt.stdMax (Flt.fin 0) (Flt.fin 1 - sint * sint))
    let cosi := Flt.fabs cosi
    let Rs := ((etat * cosi) - (etai * cost)) / ((etat * cosi) + (etai * cost))
    let Rp := ((etai * cosi) - (etat * cost)) / ((etai * cosi) + (etat * cost))
    (Rs * Rs + Rp * Rp) / Flt.fin 2

/-- Modelled from the spec: the two-component vector `Vector2f` of `Vector.hpp`. -/
structure Vector2f where
  x : Flt
  y : Flt

/-- Modelled from the spec: the material variants of `Object.hpp`. -/
inductive MaterialType where
  | DIFFUSE_AND_GLOSSY
  | REFLECTION_AND_REFRACTION
  | REFLECTION
  deriving DecidableEq

/-- The outcome of a call `object->intersect(orig, dir, tNearK, indexK, uvK)`: the returned
flag and the values of the three reference parameters after the call. -/
structure IntersectResult where
  hit : Bool
  tNear : Flt
  index : Nat
  uv : Vector2f

/-- Modelled from the spec: the interface `Object` of `Object.hpp`, which is not part of
the sources: material data and the virtual methods used by the renderer.  The third
argument of `intersect` is the value of `tNearK` before the call. -/
structure Object where
  materialType : MaterialType
  ior : Flt
  Kd : Flt
  Ks : Flt
  specularExponent : Flt
  intersect : Vector3f → Vector3f → Flt → IntersectResult
  getSurfaceProperties : Vector3f → Vector3f → Nat → Vector2f → Vector3f × Vector2f
  evalDiffuseColor : Vector2f → Vector3f

/-- Modelled from the spec: a point light of `Light.hpp`. -/
structure Light where
  position : Vector3f
  intensity : Vector3f

/-- Modelled from the spec: the class `Scene` of `Scene.hpp`, as far as the renderer reads
it. -/
structure Scene where
  width : Nat
  height : Nat
  fov : Flt
  backgroundColor : Vector3f
  maxDepth : Int
  epsilon : Flt
  objects : List Object
  lights : List Light

/-- Modelled from the spec: the record `hit_payload`. -/
structure hit_payload where
  tNear : Flt
  index : Nat
  uv : Vector2f
  hit_obj : Object

/-- The loop of `trace` over the remaining objects, from the current `tNear` and
`payload`. -/
def traceLoop (G : Globals) (orig dir : Vector3f) :
    List Object → Flt → Option hit_payload → Option hit_payload
  | [], _, payload => payload
  | object :: rest, tNear, payload =>
    let r := object.intersect orig dir G.kInfinity
    if r.hit && Flt.lt r.tNear tNear then
      traceLoop G orig dir rest r.tNear
        (some { hit_obj := object, tNear := r.tNear, index := r.index, uv := r.uv })
    else
      traceLoop G orig dir rest tNear payload

/-- The function `trace`. -/
def trace (G : Globals) (orig dir : Vector3f) (objects : List Object) : Option hit_payload :=
  traceLoop G orig dir objects G.kInfinity none

end Whitted

namespace Whitted

/-- The test `inShadow` of the light loop: the shadow ray from `shadowPointOrig` towards
the light hits an object with `tNear * tNear < lightDistance2`. -/
def inShadow (G : Globals) (scene : Scene) (hitPoint shadowPointOrig : Vector3f)
    (light : Light) : Bool :=
  let lightDir := light.position - hitPoint
  let lightDistance2 := dotProduct lightDir lightDir
  let lightDir := normalizeG G lightDir
  match trace G shadowPointOrig lightDir scene.objects with
  | some shadow_res => Flt.lt (shadow_res.tNear * shadow_res.tNear) lightDistance2
  | none => false

/-- The value added to `lightAmt` for one light: `inShadow ? 0 : light->intensity * LdotN`. -/
def diffuseTerm (G : Globals) (scene : Scene) (hitPoint N shadowPointOrig : Vector3f)
    (light : Light) : Vector3f :=
  let lightDir := normalizeG G (light.position - hitPoint)
  let LdotN := Flt.stdMax (Flt.fin 0) (dotProduct lightDir N)
  if inShadow G scene hitPoint shadowPointOrig light then Vector3f.zero
  else light.intensity.scale LdotN

/-- The value added to `specularColor` for one light:
`powf(max(0, -dot(reflect(-lightDir, N), dir)), specularExponent) * light->intensity`. -/
def specularTerm (G : Globals) (dir hitPoint N : Vector3f) (specularExponent : Flt)
    (light : Light) : Vector3f :=
  let lightDir := normalizeG G (light.position - hitPoint)
  let reflectionDirection := reflect lightDir.neg N
  light.intensity.scale
    (G.powf (Flt.stdMax (Flt.fin 0) (-(dotProduct reflectionDirection dir))) specularExponent)

/-- The loop over the lights of the scene, from the current values of `lightAmt` and
`specularColor`. -/
def lightLoop (G : Globals) (scene : Scene) (dir hitPoint N shadowPointOrig : Vector3f)
    (specularExponent : Flt) : List Light → Vector3f × Vector3f → Vector3f × Vector3f
  | [], acc => acc
  | light :: rest, acc =>
    lightLoop G scene dir hitPoint N shadowPointOrig specularExponent rest
      (acc.1 + diffuseTerm G scene hitPoint N shadowPointOrig light,
       acc.2 + specularTerm G dir hitPoint N specularExponent light)

/-- The `default` case of `castRay`: the Phong colour of a hit. -/
def phongColor (G : Globals) (scene : Scene) (dir hitPoint N : Vector3f) (st : Vector2f)
    (obj : Object) : Vector3f :=
  let shadowPointOrig :=
    if Flt.lt (dotProduct dir N) (Flt.fin 0) then hitPoint + N.scale scene.epsilon
    else hitPoint - N.scale scene.epsilon
  let sums := lightLoop G scene dir hitPoint N shadowPointOrig obj.specularExponent
    scene.lights (Vector3f.zero, Vector3f.zero)
  let lightAmt := sums.1
  let specularColor := sums.2
  ((lightAmt.mul (obj.evalDiffuseColor st)).scale obj.Kd) + specularColor.scale obj.Ks

/-- The function `castRay`, with a bound `fuel` on the nesting of calls: `none` is returned
when the bound is exhausted. -/
def castRayFuel (G : Globals) (scene : Scene) :
    Nat → Vector3f → Vector3f → Int → Option Vector3f
  | 0, _, _, _ => none
  | fuel + 1, orig, dir, depth =>
    if depth > scene.maxDepth then some Vector3f.zero
    else
      match trace G orig dir scene.objects with
      | none => some scene.backgroundColor
      | some payload =>
        let hitPoint := orig + dir.scale payload.tNear
        let props := payload.hit_obj.getSurfaceProperties hitPoint dir payload.index payload.uv
        let N := props.1
        let st := props.2
        match payload.hit_obj.materialType with
        | MaterialType.REFLECTION_AND_REFRACTION =>
          let reflectionDirection := normalizeG G (reflect dir N)
          let refractionDirection := normalizeG G (refract G dir N payload.hit_obj.ior)
          let reflectionRayOrig :=
            if Flt.lt (dotProduct reflectionDirection N) (Flt.fin 0)
            then hitPoint - N.scale scene.epsilon else hitPoint + N.scale scene.epsilon
          let refractionRayOrig :=
            if Flt.lt (dotProduct refractionDirection N) (Flt.fin 0)
            then hitPoint - N.scale scene.epsilon else hitPoint + N.scale scene.epsilon
          match castRayFuel G scene fuel reflectionRayOrig reflectionDirection (depth + 1),
            castRayFuel G scene fuel refractionRayOrig refractionDirection (depth + 1) with
          | some reflectionColor, some refractionColor =>
            let kr := fresnel G dir N payload.hit_obj.ior
            some (reflectionColor.scale kr + refractionColor.scale (Flt.fin 1 - kr))
          | _, _ => none
        | MaterialType.REFLECTION =>
          let kr := fresnel G dir N payload.hit_obj.ior
          let reflectionDirection := reflect dir N
          let reflectionRayOrig :=
            if Flt.lt (dotProduct reflectionDirection N) (Flt.fin 0)
            then hitPoint + N.scale scene.epsilon else hitPoint - N.scale scene.epsilon
          match castRayFuel G scene fuel reflectionRayOrig reflectionDirection (depth + 1) with
          | some c => some (c.scale kr)
          | none => none
        | MaterialType.DIFFUSE_AND_GLOSSY =>
          some (phongColor G scene dir hitPoint N st payload.hit_obj)

/-- The measure `maxDepth + 1 - depth` of a call of `castRay`. -/
def castRayMeasure (scene : Scene) (depth : Int) : Nat := (scene.maxDepth + 1 - depth).toNat

/-- The function `castRay`: the bounded version run with one more unit of fuel than the
measure of the call. -/
def castRay (G : Globals) (scene : Scene) (orig dir : Vector3f) (depth : Int) : Vector3f :=
  (castRayFuel G scene (castRayMeasure scene depth + 1) orig dir depth).getD Vector3f.zero

/-- The constant `M_PI` as a `double`. -/
def M_PI : Flt := Flt.fin (884279719003555 / 281474976710656)

/-- The function `deg2rad`. -/
def deg2rad (deg : Flt) : Flt := deg * M_PI / Flt.fin 180

/-- The direction of the primary ray through pixel `(i, j)`, as computed in the body of the
pixel loop of `RenderKernel`. -/
def primaryDir (G : Globals) (scene : Scene) (i j : Nat) : Vector3f :=
  let scale := G.tan (deg2rad (scene.fov * Flt.fin (1 / 2)))
  let imageAspectRatio := Flt.fin scene.width / Flt.fin scene.height
  let x_ndc := Flt.fin 2 * Flt.fin i / Flt.fin scene.width - Flt.fin 1
  let y_ndc := Flt.fin 1 - Flt.fin 2 * Flt.fin j / Flt.fin scene.height
  let x := x_ndc * scale * imageAspectRatio
  let y := y_ndc * scale
  normalizeG G ⟨x, y, Flt.fin (-1)⟩

end Whitted

/-- The inner loop `for (i = ...; i < width; ++i)` of `RenderKernel` on row `j`: the
pixels still to be written, `n` of them, starting at column `i`. -/
def rowLoop {α : Type} (pixel : Nat → Nat → α) (j : Nat) : Nat → Nat → List α
  | 0, _ => []
  | n + 1, i => pixel i j :: rowLoop pixel j n (i + 1)

/-- The outer loop `for (j = begin_row; j < begin_row + n_row; ++j)` of `RenderKernel`:
the rows still to be rendered, `n` of them, starting at row `j`. -/
def bandLoop {α : Type} (pixel : Nat → Nat → α) (width : Nat) : Nat → Nat → List α
  | 0, _ => []
  | n + 1, j => rowLoop pixel j width 0 ++ bandLoop pixel width n (j + 1)

/-- The loop of `Renderer::Render` appending the result of worker `t`, for the `n` workers
still to be joined. -/
def gatherLoop {α : Type} (kernel : Nat → List α) : Nat → Nat → List α
  | 0, _ => []
  | n + 1, t => kernel t ++ gatherLoop kernel n (t + 1)

/-- The framebuffer assembled by `Renderer::Render` from `n_thrd` workers, each rendering
`n_row = height / n_thrd` rows from row `n_row * t`; `kernel n_row begin_row t` is the
result of `RenderKernel`. -/
def assembleFramebuffer {α : Type} (kernel : Nat → Nat → Nat → List α) (height n_thrd : Nat) :
    List α :=
  gatherLoop (fun t => kernel (height / n_thrd) (height / n_thrd * t) t) n_thrd 0

namespace Whitted

/-- The function `RenderKernel` of `hw5`; the worker index `t` only selects the worker
that reports progress. -/
def RenderKernel (G : Globals) (scene : Scene) (eye_pos : Vector3f)
    (n_row begin_row _t : Nat) : List Vector3f :=
  bandLoop (fun i j => castRay G scene eye_pos (primaryDir G scene i j) 0)
    scene.width n_row begin_row

/-- The framebuffer built by `Renderer::Render` of `hw5`, for a worker count `n_thrd`. -/
def Render (G : Globals) (scene : Scene) (n_thrd : Nat) : List Vector3f :=
  assembleFramebuffer (RenderKernel G scene Vector3f.zero) scene.height n_thrd

end Whitted

/-- The worker count `n_thrd` of `hw6/Renderer.cpp`. -/
def n_thrd_hw6 : Nat := 15

/-- The worker count `n_thrd` of `hw7/Renderer.cpp`. -/
def n_thrd_hw7 : Nat := 16

/-- The framebuffer built by `Renderer::Render` of `hw6` and `hw7`: `pixel i j` is the
colour `RenderKernel` stores for pixel `(i, j)`. -/
def RenderBands {α : Type} (pixel : Nat → Nat → α) (width height n_thrd : Nat) : List α :=
  assembleFramebuffer (fun n_row begin_row _ => bandLoop pixel width n_row begin_row)
    height n_thrd

namespace Whitted

/-- A rational stand-in for the square root: the integer square root of
`numerator * denominator` over the denominator, exact on squares of rationals. -/
def ratSqrt (q : ℚ) : ℚ := (Nat.sqrt (q.num.toNat * q.den) : ℚ) / (q.den : ℚ)

/-- The globals used in the examples: `kInfinity` is the largest `float`, `sqrtf` is exact
on squares of rationals (rounded down otherwise), `powf` is exact for exponents `0, 1, 2, …`
and `tan` is the constant 1 (the tangent of half a field of view of 90 degrees). -/
def exampleGlobals : Globals :=
  { kInfinity := Flt.fin 340282346638528859811704183484516925440
    sqrtf := fun x =>
      match x with
      | Flt.fin q => if 0 ≤ q then Flt.fin (ratSqrt q) else Flt.nan
      | Flt.pinf => Flt.pinf
      | _ => Flt.nan
    powf := fun b e =>
      match b, e with
      | Flt.fin x, Flt.fin y => if y.den = 1 ∧ 0 ≤ y.num then Flt.fin (x ^ y.num.toNat) else Flt.nan
      | _, _ => Flt.nan
    tan := fun _ => Flt.fin 1 }

/-- A scene without objects and lights, with a white background and `maxDepth = 0`. -/
def whiteScene : Scene :=
  { width := 4, height := 2, fov := Flt.fin 90, backgroundColor := Vector3f.ofRat 1 1 1,
    maxDepth := 0, epsilon := Flt.fin (1 / 100000), objects := [], lights := [] }

end Whitted

/-- The sum of a list of vectors, added from the left starting at the zero vector. -/
def sumVec (l : List Vector3f) : Vector3f := l.foldl (fun a b => a + b) Vector3f.zero

namespace Whitted

/-- An object that every ray hits at distance 1, with normal `(0,0,1)` everywhere: diffuse
and glossy, white, `Kd = Ks = 1`, specular exponent 1. -/
def wallObject : Object :=
  { materialType := MaterialType.DIFFUSE_AND_GLOSSY
    ior := Flt.fin 1
    Kd := Flt.fin 1
    Ks := Flt.fin 1
    specularExponent := Flt.fin 1
    intersect := fun _ _ _ => ⟨true, Flt.fin 1, 0, ⟨Flt.fin 0, Flt.fin 0⟩⟩
    getSurfaceProperties := fun _ _ _ _ => (Vector3f.ofRat 0 0 1, ⟨Flt.fin 0, Flt.fin 0⟩)
    evalDiffuseColor := fun _ => Vector3f.ofRat 1 1 1 }

/-- A scene made of `wallObject` and one white light at `(0,0,1)`. -/
def shadowScene : Scene :=
  { width := 4, height := 2, fov := Flt.fin 90, backgroundColor := Vector3f.ofRat 0 0 0,
    maxDepth := 5, epsilon := Flt.fin (1 / 100000), objects := [wallObject],
    lights := [⟨Vector3f.ofRat 0 0 1, Vector3f.ofRat 1 1 1⟩] }

end Whitted

/-- The payload `trace` returns for every ray in a scene made of `wallObject`. -/
def Whitted.wallPayload : Whitted.hit_payload :=
  { tNear := Flt.fin 1, index := 0, uv := ⟨Flt.fin 0, Flt.fin 0⟩,
    hit_obj := Whitted.wallObject }

namespace Whitted

/-- At the argument `x` the function `sqrtf` returns the exact non-negative square root
`s`. -/
def Globals.SqrtExactAt (G : Globals) (x : Flt) (s : ℚ) : Prop :=
  0 ≤ s ∧ x = Flt.fin (s * s) ∧ G.sqrtf x = Flt.fin s

/-- The function `sqrtf` maps a positive number to a positive number. -/
def Globals.SqrtPositive (G : Globals) : Prop :=
  ∀ x : ℚ, 0 < x → ∃ r : ℚ, 0 < r ∧ G.sqrtf (Flt.fin x) = Flt.fin r

end Whitted

/-- The value `sint` computed by `fresnel`: `etai / etat * sqrtf(max(0, 1 - cosi * cosi))`
after the sign test on `cosi`. -/
def Whitted.fresnelSint (G : Whitted.Globals) (I N : Vector3f) (ior : Flt) : Flt :=
  let cosi := Whitted.clamp (Flt.fin (-1)) (Flt.fin 1) (dotProduct I N)
  let etai := if Flt.gt cosi (Flt.fin 0) then ior else Flt.fin 1
  let etat := if Flt.gt cosi (Flt.fin 0) then Flt.fin 1 else ior
  etai / etat * G.sqrtf (Flt.stdMax (Flt.fin 0) (Flt.fin 1 - cosi * cosi))

/-- The method `Bounds3::maxExtent`: the axis index chosen from the diagonal. -/
def Bounds3.maxExtent (b : Bounds3) : Int :=
  let d := b.Diagonal
  if Flt.gt d.x d.y && Flt.gt d.x d.z then 0
  else if Flt.gt d.y d.z then 1
  else 2

/-- The method `Bounds3::Intersect`: the two corner points are handed to the two-point
constructor `Bounds3(p1, p2)`. -/
def Bounds3.Intersect (a b : Bounds3) : Bounds3 :=
  Bounds3.ofPoints
    ⟨Flt.fmax a.pMin.x b.pMin.x, Flt.fmax a.pMin.y b.pMin.y, Flt.fmax a.pMin.z b.pMin.z⟩
    ⟨Flt.fmin a.pMax.x b.pMax.x, Flt.fmin a.pMax.y b.pMax.y, Flt.fmin a.pMax.z b.pMax.z⟩

/-- The method `Triangle::getBounds`: `Union(Bounds3(v0, v1), v2)`. -/
def Triangle.getBounds (t : Triangle) : Bounds3 :=
  UnionPoint (Bounds3.ofPoints t.v0 t.v1) t.v2

/-- The component of a vector on axis `0`, `1` or `2` (any other index reads `z`). -/
def Vector3f.component (v : Vector3f) (i : Int) : Flt :=
  if i = 0 then v.x else if i = 1 then v.y else v.z

/-- The value `m` is the least of `a`, `b`, `c`: it is one of them and below all three. -/
def Flt.isMinOf3 (m a b c : Flt) : Bool :=
  (Flt.eq m a || Flt.eq m b || Flt.eq m c) && Flt.le m a && Flt.le m b && Flt.le m c

/-- The value `m` is the greatest of `a`, `b`, `c`: it is one of them and above all three. -/
def Flt.isMaxOf3 (m a b c : Flt) : Bool :=
  (Flt.eq m a || Flt.eq m b || Flt.eq m c) && Flt.le a m && Flt.le b m && Flt.le c m

namespace Whitted

/-- The test of the loop of `trace` against the starting value of `tNear`: the object
reports an intersection and its distance is below `kInfinity`. -/
def reportsHit (G : Globals) (orig dir : Vector3f) (object : Object) : Bool :=
  (object.intersect orig dir G.kInfinity).hit &&
    Flt.lt (object.intersect orig dir G.kInfinity).tNear G.kInfinity

/-- The payload that the loop of `trace` stores for an object. -/
def payloadOf (G : Globals) (orig dir : Vector3f) (object : Object) : hit_payload :=
  { hit_obj := object, tNear := (object.intersect orig dir G.kInfinity).tNear,
    index := (object.intersect orig dir G.kInfinity).index,
    uv := (object.intersect orig dir G.kInfinity).uv }

end Whitted

/-! ## hw7: the path tracer of `Scene.cpp` -/

/-- Modelled from the spec: the operator `Vector3f / float` of `Vector.hpp`, componentwise
division by a number. -/
def Vector3f.div (a : Vector3f) (r : Flt) : Vector3f := ⟨a.x / r, a.y / r, a.z / r⟩

namespace PathTracer

/-- Modelled from the spec: the random source behind `get_random_float` of `global.hpp`,
which is not part of the sources: an arbitrary sequence of draws together with the number
of draws taken so far. -/
structure Rng where
  draws : Nat → Flt
  pos : Nat

/-- Modelled from the spec: one call of `get_random_float()`: the next draw and the advanced
source. -/
def get_random_float (g : Rng) : Flt × Rng := (g.draws g.pos, ⟨g.draws, g.pos + 1⟩)

/-- Modelled from the spec: the class `Material` of `Material.hpp`, which is not part of the
sources, as far as `castRay` uses it: `hasEmission`, `getEmission`, `eval(wi, wo, N)`,
`sample(wo, N)` (which draws random numbers) and `pdf(wo, wi, N)`. -/
structure Material where
  hasEmission : Bool
  getEmission : Vector3f
  eval : Vector3f → Vector3f → Vector3f → Vector3f
  sample : Rng → Vector3f → Vector3f → Vector3f × Rng
  pdf : Vector3f → Vector3f → Vector3f → Flt

/-- Modelled from the spec: the record `Intersection` of `Intersection.hpp`, which is not
part of the sources, with the fields that `castRay` reads. -/
structure Intersection where
  happened : Bool
  coords : Vector3f
  normal : Vector3f
  emit : Vector3f
  m : Option Material

/-- Modelled from the spec: the default record `Intersection()`: no hit, zero `coords`,
`normal` and `emit`, no material. -/
def Intersection.construct : Intersection :=
  { happened := false, coords := Vector3f.zero, normal := Vector3f.zero,
    emit := Vector3f.zero, m := none }

/-- Modelled from the spec: the interface `Object` of `Object.hpp`, which is not part of the
sources, as far as `sampleLight` uses it.  `Sample(pos, pdf)` receives the current values
of its two output arguments and the random source. -/
structure Object where
  hasEmit : Bool
  getArea : Flt
  Sample : Rng → Intersection → Flt → Intersection × Flt × Rng

/-- Modelled from the spec: the class `Scene` of `Scene.hpp`, as far as `sampleLight` and
`castRay` read it; `intersect` stands for `bvh->Intersect(ray)`, the hierarchy not being
part of the sources. -/
structure Scene where
  objects : List Object
  intersect : Ray → Intersection
  RussianRoulette : Flt

/-- The first loop of `sampleLight`: the areas of the emissive objects added to the running
sum `emit_area_sum`. -/
def emitAreaSum : List Object → Flt → Flt
  | [], emit_area_sum => emit_area_sum
  | object :: rest, emit_area_sum =>
    if object.hasEmit then emitAreaSum rest (emit_area_sum + object.getArea)
    else emitAreaSum rest emit_area_sum

/-- The second loop of `sampleLight` up to its `break`: the object on which `Sample` is
called, if any. -/
def pickLight (p : Flt) : List Object → Flt → Option Object
  | [], _ => none
  | object :: rest, emit_area_sum =>
    if object.hasEmit then
      if Flt.le p (emit_area_sum + object.getArea) then some object
      else pickLight p rest (emit_area_sum + object.getArea)
    else pickLight p rest emit_area_sum

/-- The method `Scene::sampleLight(pos, pdf)`: the new values of `pos` and `pdf` and the
random source after the call. -/
def sampleLight (scene : Scene) (g : Rng) (pos : Intersection) (pdf : Flt) :
    Intersection × Flt × Rng :=
  let emit_area_sum := emitAreaSum scene.objects (Flt.fin 0)
  let r := get_random_float g
  let p := r.1 * emit_area_sum
  match pickLight p scene.objects (Flt.fin 0) with
  | some object => object.Sample r.2 pos pdf
  | none => (pos, pdf, r.2)

/-- The direction `ws = normalize(x - p.coords)` of `castRay`, the square root being a
parameter. -/
def lightDir (sqrtf : Flt → Flt) (p inter_light : Intersection) : Vector3f :=
  let v := inter_light.coords - p.coords
  normalize v (Flt.fin 1 / sqrtf (v.x * v.x + v.y * v.y + v.z * v.z))

/-- The value `geo_term = cos_surface * cos_light` of `castRay`. -/
def geoTerm (sqrtf : Flt → Flt) (p inter_light : Intersection) : Flt :=
  let ws := lightDir sqrtf p inter_light
  let cos_surface := dotProduct ws p.normal
  let cos_light := dotProduct ws.neg inter_light.normal
  cos_surface * cos_light

/-- The direct term `L_dir` of `castRay` for the hit `p` with material `m`, from the light
sample `inter_light` and `pdf_light`. -/
def directLight (sqrtf : Flt → Flt) (scene : Scene) (p : Intersection) (m : Material)
    (wo : Vector3f) (inter_light : Intersection) (pdf_light : Flt) : Vector3f :=
  let N := p.normal
  let x := inter_light.coords
  let emit := inter_light.emit
  let ws := lightDir sqrtf p inter_light
  let geo_term := geoTerm sqrtf p inter_light
  if Flt.gt (geo_term - EPSILON) (Flt.fin 0) then
    let distance_squre := dotProduct (x - p.coords) (x - p.coords)
    let inter_test := scene.intersect ⟨p.coords, ws⟩
    let delta := inter_test.coords - inter_light.coords
    if Flt.lt (dotProduct delta delta) EPSILON then
      (((emit.mul (m.eval ws wo N)).scale geo_term).div distance_squre).div pdf_light
    else Vector3f.zero
  else Vector3f.zero

/-- The method `Scene::castRay(ray, depth)` with a bound `fuel` on the number of nested
calls: the radiance and the random source after the call, or `none` when the bound is
reached. -/
def castRayFuel (sqrtf : Flt → Flt) (scene : Scene) :
    Nat → Rng → Ray → Int → Option (Vector3f × Rng)
  | 0, _, _, _ => none
  | fuel + 1, g, ray, depth =>
    let p := scene.intersect ray
    match p.m with
    | none => some (Vector3f.zero, g)
    | some m =>
      if m.hasEmission then
        if depth > 0 then some (Vector3f.zero, g) else some (m.getEmission, g)
      else
        let wo := ray.direction.neg
        let N := p.normal
        let light := sampleLight scene g Intersection.construct (Flt.fin 0)
        let inter_light := light.1
        let pdf_light := light.2.1
        let ws := lightDir sqrtf p inter_light
        let L_dir := directLight sqrtf scene p m wo inter_light pdf_light
        let roulette := get_random_float light.2.2
        if Flt.gt roulette.1 scene.RussianRoulette then some (L_dir, roulette.2)
        else
          let s := m.sample roulette.2 wo N
          let wi := s.1
          let pdf_p := m.pdf wo wi N
          if Flt.eq pdf_p (Flt.fin 0) then some (L_dir, s.2)
          else
            match castRayFuel sqrtf scene fuel s.2 ⟨p.coords, wi⟩ (depth + 1) with
            | none => none
            | some (radiance, g1) =>
              some
                ((((radiance.mul (m.eval ws wo N)).scale (dotProduct wi N)).div pdf_p).div
                    scene.RussianRoulette + L_dir, g1)

end PathTracer

namespace PathTracer

/-- Example material of the floor: its BRDF depends on the incoming direction (first argument
of `eval`), it always scatters into `(4/5, 0, 3/5)` with density 1. -/
def glossyMaterial : Material :=
  { hasEmission := false
    getEmission := Vector3f.zero
    eval := fun wi _ _ => ⟨wi.z, wi.z, wi.z⟩
    sample := fun g _ _ => (Vector3f.ofRat (4 / 5) 0 (3 / 5), g)
    pdf := fun _ _ _ => Flt.fin 1 }

/-- Example material of the wall: a constant BRDF, scattering into `(-1, 0, 0)`. -/
def matteMaterial : Material :=
  { hasEmission := false
    getEmission := Vector3f.zero
    eval := fun _ _ _ => Vector3f.ofRat 1 1 1
    sample := fun g _ _ => (Vector3f.ofRat (-1) 0 0, g)
    pdf := fun _ _ _ => Flt.fin 1 }

/-- Example material of the lamp, emitting `(1, 1, 1)`. -/
def lampMaterial : Material :=
  { hasEmission := true
    getEmission := Vector3f.ofRat 1 1 1
    eval := fun _ _ _ => Vector3f.zero
    sample := fun g _ _ => (Vector3f.zero, g)
    pdf := fun _ _ _ => Flt.fin 0 }

/-- The hit on the floor at the origin, normal `(0, 0, 1)`. -/
def floorRecord : Intersection :=
  { happened := true, coords := Vector3f.ofRat 0 0 0, normal := Vector3f.ofRat 0 0 1,
    emit := Vector3f.zero, m := some glossyMaterial }

/-- The hit on the wall at `(24/25, 0, 18/25)`, normal `(-1, 0, 0)`. -/
def wallRecord : Intersection :=
  { happened := true, coords := Vector3f.ofRat (24 / 25) 0 (18 / 25),
    normal := Vector3f.ofRat (-1) 0 0, emit := Vector3f.zero, m := some matteMaterial }

/-- The point of the lamp at `(0, 0, 1)`, facing down. -/
def lampRecord : Intersection :=
  { happened := true, coords := Vector3f.ofRat 0 0 1, normal := Vector3f.ofRat 0 0 (-1),
    emit := Vector3f.ofRat 1 1 1, m := some lampMaterial }

/-- The floor as an object: not emissive. -/
def floorPatch : Object :=
  { hasEmit := false, getArea := Flt.fin 4,
    Sample := fun g _ _ => (floorRecord, Flt.fin (1 / 4), g) }

/-- The wall as an object: not emissive. -/
def wallPatch : Object :=
  { hasEmit := false, getArea := Flt.fin 2,
    Sample := fun g _ _ => (wallRecord, Flt.fin (1 / 2), g) }

/-- The lamp as an object: emissive, of area 1, sampled at its point `(0, 0, 1)` with
density `1 / area`. -/
def lampPatch : Object :=
  { hasEmit := true, getArea := Flt.fin 1,
    Sample := fun g _ _ => (lampRecord, Flt.fin 1, g) }

/-- Example scene: floor, wall and lamp.  A ray going down hits the floor at the origin, a
ray in direction `(4/5, 0, 3/5)` hits the wall, the two rays towards the lamp (from the floor
and from the wall) hit the lamp, every other ray hits nothing. -/
def lampScene : Scene :=
  { objects := [floorPatch, wallPatch, lampPatch]
    intersect := fun ray =>
      if ray.direction = Vector3f.ofRat 0 0 (-1) then floorRecord
      else if ray.direction = Vector3f.ofRat (4 / 5) 0 (3 / 5) then wallRecord
      else if ray.direction = Vector3f.ofRat 0 0 1 then lampRecord
      else if ray.direction = Vector3f.ofRat (-24 / 25) 0 (7 / 25) then lampRecord
      else Intersection.construct
    RussianRoulette := Flt.fin (4 / 5) }

/-- Example scene without a lamp. -/
def darkScene : Scene :=
  { objects := [floorPatch, wallPatch]
    intersect := fun ray =>
      if ray.direction = Vector3f.ofRat 0 0 (-1) then floorRecord
      else if ray.direction = Vector3f.ofRat (4 / 5) 0 (3 / 5) then wallRecord
      else Intersection.construct
    RussianRoulette := Flt.fin (4 / 5) }

/-- Example random source: every draw is `1/2`, except the fourth, which is `9/10`. -/
def exampleRng : Rng :=
  { draws := fun n => if n = 3 then Flt.fin (9 / 10) else Flt.fin (1 / 2), pos := 0 }

end PathTracer

namespace Whitted

/-- The value `cost` computed by `fresnel` on the branch `sint < 1`:
`sqrtf(max(0, 1 - sint * sint))`. -/
def fresnelCost (G : Globals) (I N : Vector3f) (ior : Flt) : Flt :=
  G.sqrtf (Flt.stdMax (Flt.fin 0)
    (Flt.fin 1 - fresnelSint G I N ior * fresnelSint G I N ior))

/-- The numerator of `Rs` in `fresnel`: `(etat * cosi) - (etai * cost)`, with
`cosi = fabsf(cosi)`. -/
def fresnelRsNum (G : Globals) (I N : Vector3f) (ior : Flt) : Flt :=
  let cosi := clamp (Flt.fin (-1)) (Flt.fin 1) (dotProduct I N)
  let etai := if Flt.gt cosi (Flt.fin 0) then ior else Flt.fin 1
  let etat := if Flt.gt cosi (Flt.fin 0) then Flt.fin 1 else ior
  (etat * Flt.fabs cosi) - (etai * fresnelCost G I N ior)

/-- The denominator of `Rs` in `fresnel`: `(etat * cosi) + (etai * cost)`. -/
def fresnelRsDen (G : Globals) (I N : Vector3f) (ior : Flt) : Flt :=
  let cosi := clamp (Flt.fin (-1)) (Flt.fin 1) (dotProduct I N)
  let etai := if Flt.gt cosi (Flt.fin 0) then ior else Flt.fin 1
  let etat := if Flt.gt cosi (Flt.fin 0) then Flt.fin 1 else ior
  (etat * Flt.fabs cosi) + (etai * fresnelCost G I N ior)

/-- The numerator of `Rp` in `fresnel`: `(etai * cosi) - (etat * cost)`. -/
def fresnelRpNum (G : Globals) (I N : Vector3f) (ior : Flt) : Flt :=
  let cosi := clamp (Flt.fin (-1)) (Flt.fin 1) (dotProduct I N)
  let etai := if Flt.gt cosi (Flt.fin 0) then ior else Flt.fin 1
  let etat := if Flt.gt cosi (Flt.fin 0) then Flt.fin 1 else ior
  (etai * Flt.fabs cosi) - (etat * fresnelCost G I N ior)

/-- The denominator of `Rp` in `fresnel`: `(etai * cosi) + (etat * cost)`. -/
def fresnelRpDen (G : Globals) (I N : Vector3f) (ior : Flt) : Flt :=
  let cosi := clamp (Flt.fin (-1)) (Flt.fin 1) (dotProduct I N)
  let etai := if Flt.gt cosi (Flt.fin 0) then ior else Flt.fin 1
  let etat := if Flt.gt cosi (Flt.fin 0) then Flt.fin 1 else ior
  (etai * Flt.fabs cosi) + (etat * fresnelCost G I N ior)

/-- The function `sqrtf` maps a non-negative number to a non-negative number. -/
def Globals.SqrtNonneg (G : Globals) : Prop :=
  ∀ x : ℚ, 0 ≤ x → ∃ r : ℚ, 0 ≤ r ∧ G.sqrtf (Flt.fin x) = Flt.fin r

end Whitted

namespace Whitted

/-- Spec side of the Phong claim: the unit direction `L` from the hit point to a light. -/
def specLightDir (G : Globals) (hitPoint : Vector3f) (light : Light) : Vector3f :=
  normalizeG G (light.position - hitPoint)

/-- Spec side of the Phong claim: a light is occluded at the hit point when the shadow ray
from `shadowOrig` towards the light hits an object at a distance `tNear` with `tNear²` below
the squared distance from the hit point to the light. -/
def specOccluded (G : Globals) (objects : List Object) (hitPoint shadowOrig : Vector3f)
    (light : Light) : Bool :=
  match trace G shadowOrig (specLightDir G hitPoint light) objects with
  | some hit =>
    Flt.lt (hit.tNear * hit.tNear)
      (dotProduct (light.position - hitPoint) (light.position - hitPoint))
  | none => false

/-- Spec side of the Phong claim: the diffuse weight `max(0, N·L)`. -/
def specDiffuseWeight (G : Globals) (N hitPoint : Vector3f) (light : Light) : Flt :=
  if Flt.lt (Flt.fin 0) (dotProduct N (specLightDir G hitPoint light))
  then dotProduct N (specLightDir G hitPoint light) else Flt.fin 0

/-- Spec side of the Phong claim: the specular weight `max(0, −R·dir)^specularExponent`,
`R` being the mirror direction of `−L` about `N`. -/
def specSpecularWeight (G : Globals) (dir N hitPoint : Vector3f) (specularExponent : Flt)
    (light : Light) : Flt :=
  G.powf
    (if Flt.lt (Flt.fin 0) (-(dotProduct (reflect (specLightDir G hitPoint light).neg N) dir))
      then -(dotProduct (reflect (specLightDir G hitPoint light).neg N) dir) else Flt.fin 0)
    specularExponent

/-- Spec side of the Phong claim: `lightAmt·diffuseColor·Kd + specularColor·Ks`, where
`lightAmt` sums `intensity · max(0, N·L)` over the lights that are not occluded and
`specularColor` sums `intensity · max(0, −R·dir)^specularExponent` over all lights, both in
the order of the light list. -/
def specPhong (G : Globals) (scene : Scene) (dir hitPoint N shadowOrig diffuseColor : Vector3f)
    (Kd Ks specularExponent : Flt) : Vector3f :=
  ((sumVec (scene.lights.map fun light =>
        if specOccluded G scene.objects hitPoint shadowOrig light then Vector3f.zero
        else light.intensity.scale (specDiffuseWeight G N hitPoint light))).mul
      diffuseColor).scale Kd +
    (sumVec (scene.lights.map fun light =>
      light.intensity.scale (specSpecularWeight G dir N hitPoint specularExponent light))).scale
      Ks

/-- An object hit only by rays travelling along `(0,0,-1)`, at distance 1 and with normal
`(0,0,1)`: diffuse and glossy, white, `Kd = 1/2`, `Ks = 1/4`, specular exponent 1. -/
def floorObject : Object :=
  { materialType := MaterialType.DIFFUSE_AND_GLOSSY
    ior := Flt.fin 1
    Kd := Flt.fin (1 / 2)
    Ks := Flt.fin (1 / 4)
    specularExponent := Flt.fin 1
    intersect := fun _ dir tNearK =>
      if dir = Vector3f.ofRat 0 0 (-1) then ⟨true, Flt.fin 1, 0, ⟨Flt.fin 0, Flt.fin 0⟩⟩
      else ⟨false, tNearK, 0, ⟨Flt.fin 0, Flt.fin 0⟩⟩
    getSurfaceProperties := fun _ _ _ _ => (Vector3f.ofRat 0 0 1, ⟨Flt.fin 0, Flt.fin 0⟩)
    evalDiffuseColor := fun _ => Vector3f.ofRat 1 1 1 }

/-- A scene made of `floorObject` and one white light at `(0,0,1)`, which no object
occludes. -/
def litScene : Scene :=
  { width := 4, height := 2, fov := Flt.fin 90, backgroundColor := Vector3f.ofRat 0 0 0,
    maxDepth := 5, epsilon := Flt.fin (1 / 131072), objects := [floorObject],
    lights := [⟨Vector3f.ofRat 0 0 1, Vector3f.ofRat 1 1 1⟩] }

end Whitted

namespace PathTracer

end PathTracer

/-! ## Binary floating point: rounding to nearest, ties to even -/

namespace Flt

/-- The power `2^k` for an integer exponent `k`. -/
def pow2 (k : Int) : ℚ :=
  if 0 ≤ k then ((2 ^ k.toNat : Nat) : ℚ) else 1 / ((2 ^ (-k).toNat : Nat) : ℚ)

/-- Bit length minus one of a natural number, by repeated halving: `fuel` bounds the number of
halvings. -/
def log2Aux : Nat → Nat → Nat
  | 0, _ => 0
  | fuel + 1, n => if n < 2 then 0 else log2Aux fuel (n / 2) + 1

/-- Floor of the binary logarithm of a natural number (`0` at `0`). -/
def natLog2 (n : Nat) : Nat := log2Aux n n

/-- The binary exponent of a positive number `a`: the integer `e` with
`2^e ≤ a < 2^(e+1)`. -/
def ilog2 (a : ℚ) : Int :=
  let k : Int := (natLog2 a.num.natAbs : Int) - (natLog2 a.den : Int)
  if pow2 k ≤ a then k else k - 1

/-- The nearest integer to a non-negative number, a tie going to the even neighbour. -/
def roundHalfEven (x : ℚ) : Nat :=
  let f := x.num.natAbs / x.den
  let r := x - (f : ℚ)
  if r < 1 / 2 then f else if 1 / 2 < r then f + 1 else if f % 2 = 0 then f else f + 1

/-- IEEE 754 rounding to nearest, ties to even, of the number `q` into the binary format
with `p` significand bits and exponents from `emin` to `emax`: the spacing of the format
around `q` is `2^(e - p + 1)` with `e = max(exponent of |q|, emin)` (gradual underflow),
and a result of magnitude `2^(emax + 1)` or more is an infinity. -/
def roundBinary (p : Nat) (emin emax : Int) (q : ℚ) : Flt :=
  if q = 0 then fin 0
  else
    let a := if 0 ≤ q then q else -q
    let e := max (ilog2 a) emin
    let quantum := pow2 (e - ((p : Int) - 1))
    let v := (roundHalfEven (a / quantum) : ℚ) * quantum
    if pow2 (emax + 1) ≤ v then (if 0 < q then pinf else ninf)
    else if 0 < q then fin v else fin (-v)

/-- Rounding of a result to `float` (binary32: 24 significand bits, exponents -126 … 127);
the special values are kept. -/
def round32 : Flt → Flt
  | fin q => roundBinary 24 (-126) 127 q
  | x => x

/-- Rounding of a result to `double` (binary64: 53 significand bits, exponents
-1022 … 1023); the special values are kept. -/
def round64 : Flt → Flt
  | fin q => roundBinary 53 (-1022) 1023 q
  | x => x

/-- The integer square root, bit by bit: `isqrtAux n k r` is the largest `r + d` with
`d < 2^k` and `(r + d)² ≤ n` (the bits `k-1, …, 0` are tried in turn on top of `r`). -/
def isqrtAux (n : Nat) : Nat → Nat → Nat
  | 0, r => r
  | k + 1, r =>
    if (r + 2 ^ k) * (r + 2 ^ k) ≤ n then isqrtAux n k (r + 2 ^ k) else isqrtAux n k r

/-- The correctly rounded square root of a positive number `q` in the binary format with
`p` significand bits: the multiple of the spacing `2^(e - p + 1)`, `e` the exponent of
`√q`, that is nearest to `√q`. -/
def sqrtBinary (p : Nat) (q : ℚ) : Flt :=
  let e := ilog2 q / 2
  let quantum := pow2 (e - ((p : Int) - 1))
  let s := q / (quantum * quantum)
  let f := isqrtAux (s.num.natAbs / s.den) p 0
  let mid := ((f : ℚ) + 1 / 2) * ((f : ℚ) + 1 / 2)
  let m := if s < mid then f else if mid < s then f + 1 else if f % 2 = 0 then f else f + 1
  fin ((m : ℚ) * quantum)

/-- Modelled from the spec: the library function `sqrtf`, which is not part of the sources,
taken to be the correctly rounded binary32 square root; `NaN` for a negative argument. -/
def sqrt32 : Flt → Flt
  | fin q => if q < 0 then nan else if q = 0 then fin 0 else sqrtBinary 24 q
  | pinf => pinf
  | _ => nan

end Flt

namespace Flt

/-- The `float` sum: the exact sum rounded to binary32. -/
def add32 (a b : Flt) : Flt := round32 (a + b)

/-- The `float` difference: the exact difference rounded to binary32. -/
def sub32 (a b : Flt) : Flt := round32 (a - b)

/-- The `float` product: the exact product rounded to binary32. -/
def mul32 (a b : Flt) : Flt := round32 (a * b)

/-- The `float` quotient: the exact quotient rounded to binary32. -/
def div32 (a b : Flt) : Flt := round32 (a / b)

/-- The `double` sum: the exact sum rounded to binary64. -/
def add64 (a b : Flt) : Flt := round64 (a + b)

/-- The `double` product: the exact product rounded to binary64. -/
def mul64 (a b : Flt) : Flt := round64 (a * b)

/-- The `double` quotient: the exact quotient rounded to binary64. -/
def div64 (a b : Flt) : Flt := round64 (a / b)

end Flt

namespace Vector3f

/-- Modelled from the spec: the difference of two vectors of `Vector.hpp`, each component
computed in `float`. -/
def sub32 (a b : Vector3f) : Vector3f :=
  ⟨Flt.sub32 a.x b.x, Flt.sub32 a.y b.y, Flt.sub32 a.z b.z⟩

/-- Modelled from the spec: the sum of two vectors of `Vector.hpp`, each component computed
in `float`. -/
def add32 (a b : Vector3f) : Vector3f :=
  ⟨Flt.add32 a.x b.x, Flt.add32 a.y b.y, Flt.add32 a.z b.z⟩

/-- Modelled from the spec: the product `v * r` of a vector and a `float` of `Vector.hpp`,
each component computed in `float`. -/
def scale32 (a : Vector3f) (r : Flt) : Vector3f :=
  ⟨Flt.mul32 a.x r, Flt.mul32 a.y r, Flt.mul32 a.z r⟩

end Vector3f

/-- Modelled from the spec: the dot product of `Vector.hpp` in `float` arithmetic:
`a.x * b.x + a.y * b.y + a.z * b.z`, every product and sum rounded, added from the left. -/
def dotProduct32 (a b : Vector3f) : Flt :=
  Flt.add32 (Flt.add32 (Flt.mul32 a.x b.x) (Flt.mul32 a.y b.y)) (Flt.mul32 a.z b.z)

/-- Modelled from the spec: the cross product of `Vector.hpp` in `float` arithmetic. -/
def crossProduct32 (a b : Vector3f) : Vector3f :=
  ⟨Flt.sub32 (Flt.mul32 a.y b.z) (Flt.mul32 a.z b.y),
   Flt.sub32 (Flt.mul32 a.z b.x) (Flt.mul32 a.x b.z),
   Flt.sub32 (Flt.mul32 a.x b.y) (Flt.mul32 a.y b.x)⟩

/-- Modelled from the spec: the call `ray(t)` in `float` arithmetic: the parameter is
converted to `float` and the point is `origin + direction * t`. -/
def Ray.at32 (r : Ray) (t : Flt) : Vector3f :=
  r.origin.add32 (r.direction.scale32 (Flt.round32 t))

/-- The method `Bounds3::IntersectP` with the `float` arithmetic of the source: each
difference `p - origin`, each product with `invDir` and the midpoint of the third path are
rounded to binary32. -/
def Bounds3.IntersectP32 (b : Bounds3) (ray : Ray) (invDir : Vector3f) (dirIsNeg : DirFlags) :
    Bool :=
  if Bounds3.Inside ray.origin b then true
  else
    let tx_far := if dirIsNeg.d0 ≠ 0 then Flt.mul32 (Flt.sub32 b.pMax.x ray.origin.x) invDir.x
      else Flt.mul32 (Flt.sub32 b.pMin.x ray.origin.x) invDir.x
    let ty_far := if dirIsNeg.d1 ≠ 0 then Flt.mul32 (Flt.sub32 b.pMax.y ray.origin.y) invDir.y
      else Flt.mul32 (Flt.sub32 b.pMin.y ray.origin.y) invDir.y
    let tz_far := if dirIsNeg.d2 ≠ 0 then Flt.mul32 (Flt.sub32 b.pMax.z ray.origin.z) invDir.z
      else Flt.mul32 (Flt.sub32 b.pMin.z ray.origin.z) invDir.z
    let tx_near := if dirIsNeg.d0 ≠ 0 then Flt.mul32 (Flt.sub32 b.pMin.x ray.origin.x) invDir.x
      else Flt.mul32 (Flt.sub32 b.pMax.x ray.origin.x) invDir.x
    let ty_near := if dirIsNeg.d1 ≠ 0 then Flt.mul32 (Flt.sub32 b.pMin.y ray.origin.y) invDir.y
      else Flt.mul32 (Flt.sub32 b.pMax.y ray.origin.y) invDir.y
    let tz_near := if dirIsNeg.d2 ≠ 0 then Flt.mul32 (Flt.sub32 b.pMin.z ray.origin.z) invDir.z
      else Flt.mul32 (Flt.sub32 b.pMax.z ray.origin.z) invDir.z
    if Flt.eq ray.direction.x (Flt.fin 0) && Flt.eq ray.direction.y (Flt.fin 0) then
      let t_enter := tz_near
      let t_exit := tz_far
      if Bounds3.Inside (ray.at32 (Flt.div32 (Flt.add32 t_enter t_exit) (Flt.fin 2))) b
      then true else false
    else
      let t_enter :=
        if Flt.isinf tx_far then Flt.maxList2 ty_near tz_near
        else if Flt.isinf ty_far then Flt.maxList2 tx_near tz_near
        else if Flt.isinf tz_far then Flt.maxList2 ty_near tx_near
        else Flt.maxList3 tx_near ty_near tz_near
      let t_exit :=
        if Flt.isinf tx_far then Flt.minList2 ty_far tz_far
        else if Flt.isinf ty_far then Flt.minList2 tx_far tz_far
        else if Flt.isinf tz_far then Flt.minList2 ty_far tx_far
        else Flt.minList3 tx_far ty_far tz_far
      Flt.le t_enter t_exit && Flt.ge t_exit (Flt.fin 0)

/-- The reciprocal direction that the caller passes, `invDir = (1.0/x, 1.0/y, 1.0/z)`, with
the arithmetic of that expression: each quotient `1.0 / x` is a `double` quotient, rounded to
`float` when it is stored in the vector. -/
def invDirOf32 (d : Vector3f) : Vector3f :=
  ⟨Flt.round32 (Flt.div64 (Flt.fin 1) d.x), Flt.round32 (Flt.div64 (Flt.fin 1) d.y),
   Flt.round32 (Flt.div64 (Flt.fin 1) d.z)⟩

/-- The `float` overload of `rayTriangleIntersect` with the arithmetic of the source; the
reference parameters `tnear`, `u`, `v` are passed in and returned after the flag. -/
def rayTriangleIntersect32 (v0 v1 v2 orig dir : Vector3f) (tnear u v : Flt) :
    Bool × Flt × Flt × Flt :=
  let S := orig.sub32 v0
  let E1 := v1.sub32 v0
  let E2 := v2.sub32 v0
  let S1 := crossProduct32 dir E2
  let S2 := crossProduct32 S E1
  let S1E1 := dotProduct32 S1 E1
  let t := Flt.div32 (dotProduct32 S2 E2) S1E1
  let b1 := Flt.div32 (dotProduct32 S1 S) S1E1
  let b2 := Flt.div32 (dotProduct32 S2 dir) S1E1
  if Flt.gt t (Flt.fin 0) && Flt.ge b1 (Flt.fin 0) && Flt.ge b2 (Flt.fin 0) &&
      Flt.le b1 (Flt.fin 1) && Flt.le b2 (Flt.fin 1) && Flt.le (Flt.add32 b1 b2) (Flt.fin 1) then
    (true, t, b1, b2)
  else
    (false, tnear, u, v)

/-- Modelled from the spec: `normalize` of `Vector.hpp` in `float` arithmetic: for a
vector of positive squared length `mag2` the components are multiplied by
`invMag = 1 / sqrtf(mag2)`, any other vector is returned as is; `sqrtf` is the correctly
rounded square root. -/
def normalize32 (v : Vector3f) : Vector3f :=
  let mag2 := Flt.add32 (Flt.add32 (Flt.mul32 v.x v.x) (Flt.mul32 v.y v.y)) (Flt.mul32 v.z v.z)
  if Flt.gt mag2 (Flt.fin 0) then
    let invMag := Flt.div32 (Flt.fin 1) (Flt.sqrt32 mag2)
    ⟨Flt.mul32 v.x invMag, Flt.mul32 v.y invMag, Flt.mul32 v.z invMag⟩
  else v

/-- The constructor `Triangle(v0, v1, v2, m)` in `float` arithmetic. -/
def Triangle.construct32 (v0 v1 v2 : Vector3f) (m : Option Nat) : Triangle :=
  { v0 := v0, v1 := v1, v2 := v2, e1 := v1.sub32 v0, e2 := v2.sub32 v0,
    normal := normalize32 (crossProduct32 (v1.sub32 v0) (v2.sub32 v0)), m := m }

/-- The method `Triangle::getIntersection` with the arithmetic of the source: vectors and
dot products are `float`; `det`, `det_inv`, `u`, `v`, `t_tmp` and the sum `u + v` are
`double`; `inter` is the default-constructed record the method starts from. -/
def Triangle.getIntersection32 (tri : Triangle) (ray : Ray) (inter : Intersection) :
    Intersection :=
  if Flt.gt (dotProduct32 ray.direction tri.normal) (Flt.fin 0) then inter
  else
    let pvec := crossProduct32 ray.direction tri.e2
    let det := dotProduct32 tri.e1 pvec
    if Flt.lt (Flt.fabs det) EPSILON then inter
    else
      let det_inv := Flt.div64 (Flt.fin 1) det
      let tvec := ray.origin.sub32 tri.v0
      let u := Flt.mul64 (dotProduct32 tvec pvec) det_inv
      if Flt.lt u (Flt.fin 0) || Flt.gt u (Flt.fin 1) then inter
      else
        let qvec := crossProduct32 tvec tri.e1
        let v := Flt.mul64 (dotProduct32 ray.direction qvec) det_inv
        if Flt.lt v (Flt.fin 0) || Flt.gt (Flt.add64 u v) (Flt.fin 1) then inter
        else
          let t_tmp := Flt.mul64 (dotProduct32 tri.e2 qvec) det_inv
          { inter with
            coords := ray.at32 t_tmp
            distance := t_tmp
            m := tri.m
            obj := some tri
            normal := tri.normal
            happened := true }

namespace Whitted

/-- The value `k` computed by `refract` in `float` arithmetic:
`1 - eta * eta * (1 - cosi * cosi)` after the sign test on `cosi`, every operation rounded
to binary32. -/
def refractK32 (I N : Vector3f) (ior : Flt) : Flt :=
  let cosi0 := clamp (Flt.fin (-1)) (Flt.fin 1) (dotProduct32 I N)
  let cosi := if Flt.lt cosi0 (Flt.fin 0) then -cosi0 else cosi0
  let etai := if Flt.lt cosi0 (Flt.fin 0) then Flt.fin 1 else ior
  let etat := if Flt.lt cosi0 (Flt.fin 0) then ior else Flt.fin 1
  let eta := Flt.div32 etai etat
  Flt.sub32 (Flt.fin 1)
    (Flt.mul32 (Flt.mul32 eta eta) (Flt.sub32 (Flt.fin 1) (Flt.mul32 cosi cosi)))

/-- The function `refract` with the `float` arithmetic of the source; `sqrtf` is the
correctly rounded square root. -/
def refract32 (I N : Vector3f) (ior : Flt) : Vector3f :=
  let cosi0 := clamp (Flt.fin (-1)) (Flt.fin 1) (dotProduct32 I N)
  let cosi := if Flt.lt cosi0 (Flt.fin 0) then -cosi0 else cosi0
  let etai := if Flt.lt cosi0 (Flt.fin 0) then Flt.fin 1 else ior
  let etat := if Flt.lt cosi0 (Flt.fin 0) then ior else Flt.fin 1
  let n := if Flt.lt cosi0 (Flt.fin 0) then N else N.neg
  let eta := Flt.div32 etai etat
  let k := Flt.sub32 (Flt.fin 1)
    (Flt.mul32 (Flt.mul32 eta eta) (Flt.sub32 (Flt.fin 1) (Flt.mul32 cosi cosi)))
  if Flt.lt k (Flt.fin 0) then Vector3f.zero
  else (I.scale32 eta).add32 (n.scale32 (Flt.sub32 (Flt.mul32 eta cosi) (Flt.sqrt32 k)))

/-- The value `sint` computed by `fresnel` in `float` arithmetic:
`etai / etat * sqrtf(max(0, 1 - cosi * cosi))` after the sign test on `cosi`. -/
def fresnelSint32 (I N : Vector3f) (ior : Flt) : Flt :=
  let cosi := clamp (Flt.fin (-1)) (Flt.fin 1) (dotProduct32 I N)
  let etai := if Flt.gt cosi (Flt.fin 0) then ior else Flt.fin 1
  let etat := if Flt.gt cosi (Flt.fin 0) then Flt.fin 1 else ior
  Flt.mul32 (Flt.div32 etai etat)
    (Flt.sqrt32 (Flt.stdMax (Flt.fin 0) (Flt.sub32 (Flt.fin 1) (Flt.mul32 cosi cosi))))

/-- The function `fresnel` with the `float` arithmetic of the source; `sqrtf` is the
correctly rounded square root. -/
def fresnel32 (I N : Vector3f) (ior : Flt) : Flt :=
  let cosi := clamp (Flt.fin (-1)) (Flt.fin 1) (dotProduct32 I N)
  let etai := if Flt.gt cosi (Flt.fin 0) then ior else Flt.fin 1
  let etat := if Flt.gt cosi (Flt.fin 0) then Flt.fin 1 else ior
  let sint := Flt.mul32 (Flt.div32 etai etat)
    (Flt.sqrt32 (Flt.stdMax (Flt.fin 0) (Flt.sub32 (Flt.fin 1) (Flt.mul32 cosi cosi))))
  if Flt.ge sint (Flt.fin 1) then Flt.fin 1
  else
    let cost := Flt.sqrt32 (Flt.stdMax (Flt.fin 0) (Flt.sub32 (Flt.fin 1) (Flt.mul32 sint sint)))
    let cosi := Flt.fabs cosi
    let Rs := Flt.div32 (Flt.sub32 (Flt.mul32 etat cosi) (Flt.mul32 etai cost))
      (Flt.add32 (Flt.mul32 etat cosi) (Flt.mul32 etai cost))
    let Rp := Flt.div32 (Flt.sub32 (Flt.mul32 etai cosi) (Flt.mul32 etat cost))
      (Flt.add32 (Flt.mul32 etai cosi) (Flt.mul32 etat cost))
    Flt.div32 (Flt.add32 (Flt.mul32 Rs Rs) (Flt.mul32 Rp Rp)) (Flt.fin 2)

/-- The value `cost` computed by `fresnel` in `float` arithmetic on the branch `sint < 1`:
`sqrtf(max(0, 1 - sint * sint))`. -/
def fresnelCost32 (I N : Vector3f) (ior : Flt) : Flt :=
  Flt.sqrt32 (Flt.stdMax (Flt.fin 0)
    (Flt.sub32 (Flt.fin 1) (Flt.mul32 (fresnelSint32 I N ior) (fresnelSint32 I N ior))))

/-- The denominator of `Rs` as `fresnel` computes it in `float` arithmetic:
`(etat * cosi) + (etai * cost)`, with `cosi = fabsf(cosi)`. -/
def fresnelRsDen32 (I N : Vector3f) (ior : Flt) : Flt :=
  let cosi := clamp (Flt.fin (-1)) (Flt.fin 1) (dotProduct32 I N)
  let etai := if Flt.gt cosi (Flt.fin 0) then ior else Flt.fin 1
  let etat := if Flt.gt cosi (Flt.fin 0) then Flt.fin 1 else ior
  Flt.add32 (Flt.mul32 etat (Flt.fabs cosi)) (Flt.mul32 etai (fresnelCost32 I N ior))

/-- The denominator of `Rp` as `fresnel` computes it in `float` arithmetic:
`(etai * cosi) + (etat * cost)`. -/
def fresnelRpDen32 (I N : Vector3f) (ior : Flt) : Flt :=
  let cosi := clamp (Flt.fin (-1)) (Flt.fin 1) (dotProduct32 I N)
  let etai := if Flt.gt cosi (Flt.fin 0) then ior else Flt.fin 1
  let etat := if Flt.gt cosi (Flt.fin 0) then Flt.fin 1 else ior
  Flt.add32 (Flt.mul32 etai (Flt.fabs cosi)) (Flt.mul32 etat (fresnelCost32 I N ior))

/-- A number is finite and not zero. -/
def finiteNonzero (x : Flt) : Bool := x.isFinite && !(Flt.eq x (Flt.fin 0))

end Whitted

namespace Whitted

end Whitted

namespace Whitted

end Whitted

/-! ## Arithmetic on finite values -/

namespace Flt

theorem neg_def (a : Flt) : -a = neg a := rfl
theorem add_def (a b : Flt) : a + b = add a b := rfl
theorem sub_def (a b : Flt) : a - b = add a (neg b) := rfl
theorem mul_def (a b : Flt) : a * b = mul a b := rfl
theorem div_def (a b : Flt) : a / b = div a b := rfl

@[simp] theorem fin_inj (a b : ℚ) : (fin a = fin b) ↔ a = b := by
  constructor
  · intro h; cases h; rfl
  · intro h; rw [h]

@[simp] theorem neg_fin (a : ℚ) : -(fin a) = fin (-a) := rfl

@[simp] theorem fin_add_fin (a b : ℚ) : fin a + fin b = fin (a + b) := rfl

@[simp] theorem fin_sub_fin (a b : ℚ) : fin a - fin b = fin (a - b) := by
  rw [sub_def]; simp [neg, add, sub_eq_add_neg]

@[simp] theorem fin_mul_fin (a b : ℚ) : fin a * fin b = fin (a * b) := rfl

theorem fin_div_fin (a b : ℚ) (hb : b ≠ 0) : fin a / fin b = fin (a / b) := by
  rw [div_def]; simp [div, hb]

@[simp] theorem lt_fin (a b : ℚ) : lt (fin a) (fin b) = decide (a < b) := rfl

@[simp] theorem le_fin (a b : ℚ) : le (fin a) (fin b) = decide (a ≤ b) := rfl

@[simp] theorem gt_fin (a b : ℚ) : gt (fin a) (fin b) = decide (b < a) := rfl

@[simp] theorem ge_fin (a b : ℚ) : ge (fin a) (fin b) = decide (b ≤ a) := rfl

@[simp] theorem eq_fin (a b : ℚ) : eq (fin a) (fin b) = decide (a = b) := rfl

@[simp] theorem isinf_fin (a : ℚ) : isinf (fin a) = false := rfl

@[simp] theorem fabs_fin (a : ℚ) : fabs (fin a) = fin |a| := rfl

theorem maxList2_fin (a b : ℚ) : maxList2 (fin a) (fin b) = fin (max a b) := by
  unfold maxList2
  by_cases h : a < b
  · simp [h, max_eq_right h.le]
  · simp [h, max_eq_left (not_lt.mp h)]

theorem minList2_fin (a b : ℚ) : minList2 (fin a) (fin b) = fin (min a b) := by
  unfold minList2
  by_cases h : b < a
  · simp [h, min_eq_right h.le]
  · simp [h, min_eq_left (not_lt.mp h)]

theorem maxList3_fin (a b c : ℚ) :
    maxList3 (fin a) (fin b) (fin c) = fin (max (max a b) c) := by
  simp [maxList3, maxList2_fin]

theorem minList3_fin (a b c : ℚ) :
    minList3 (fin a) (fin b) (fin c) = fin (min (min a b) c) := by
  simp [minList3, minList2_fin]

theorem exists_of_isFinite {a : Flt} (h : a.isFinite = true) : ∃ q : ℚ, a = fin q := by
  cases a with
  | fin q => exact ⟨q, rfl⟩
  | pinf => simp [isFinite] at h
  | ninf => simp [isFinite] at h
  | nan => simp [isFinite] at h

end Flt

theorem Vector3f.vadd_def (a b : Vector3f) :
    a + b = ⟨a.x + b.x, a.y + b.y, a.z + b.z⟩ := rfl

theorem Vector3f.vsub_def (a b : Vector3f) :
    a - b = ⟨a.x - b.x, a.y - b.y, a.z - b.z⟩ := rfl

theorem Vector3f.exists_ofRat_of_isFinite {v : Vector3f} (h : v.isFinite = true) :
    ∃ a b c : ℚ, v = Vector3f.ofRat a b c := by
  obtain ⟨x, y, z⟩ := v
  simp only [Vector3f.isFinite, Bool.and_eq_true] at h
  obtain ⟨a, rfl⟩ := Flt.exists_of_isFinite h.1.1
  obtain ⟨b, rfl⟩ := Flt.exists_of_isFinite h.1.2
  obtain ⟨c, rfl⟩ := Flt.exists_of_isFinite h.2
  exact ⟨a, b, c, rfl⟩

theorem slab_iff (l h o d t : ℚ) (hd : d ≠ 0) :
    (slabNear l h o d ≤ t ∧ t ≤ slabFar l h o d) ↔ (l ≤ o + d * t ∧ o + d * t ≤ h) := by
  unfold slabNear slabFar
  rcases lt_or_gt_of_ne hd with hneg | hpos
  · have hn : ¬ (0 < d) := not_lt.mpr hneg.le
    simp only [hn, if_false, mul_one_div]
    rw [div_le_iff_of_neg hneg, le_div_iff_of_neg hneg]
    constructor
    · rintro ⟨h1, h2⟩; constructor <;> linarith
    · rintro ⟨h1, h2⟩; constructor <;> linarith
  · simp only [hpos, if_true, mul_one_div]
    rw [div_le_iff₀ hpos, le_div_iff₀ hpos]
    constructor
    · rintro ⟨h1, h2⟩; constructor <;> linarith
    · rintro ⟨h1, h2⟩; constructor <;> linarith

/-- On finite data with a direction without zero component, `IntersectP` is the slab test. -/
theorem IntersectP_finite (l1 l2 l3 h1 h2 h3 o1 o2 o3 d1 d2 d3 : ℚ)
    (hd1 : d1 ≠ 0) (hd2 : d2 ≠ 0) (hd3 : d3 ≠ 0) :
    Bounds3.IntersectP ⟨Vector3f.ofRat l1 l2 l3, Vector3f.ofRat h1 h2 h3⟩
        ⟨Vector3f.ofRat o1 o2 o3, Vector3f.ofRat d1 d2 d3⟩
        (invDirOf (Vector3f.ofRat d1 d2 d3)) (dirIsNegOf (Vector3f.ofRat d1 d2 d3)) =
      (Bounds3.Inside (Vector3f.ofRat o1 o2 o3)
          ⟨Vector3f.ofRat l1 l2 l3, Vector3f.ofRat h1 h2 h3⟩ ||
        (decide (max (max (slabNear l1 h1 o1 d1) (slabNear l2 h2 o2 d2)) (slabNear l3 h3 o3 d3) ≤
            min (min (slabFar l1 h1 o1 d1) (slabFar l2 h2 o2 d2)) (slabFar l3 h3 o3 d3)) &&
          decide (0 ≤
            min (min (slabFar l1 h1 o1 d1) (slabFar l2 h2 o2 d2)) (slabFar l3 h3 o3 d3)))) := by
  have e1 : (if Flt.gt (Flt.fin d1) (Flt.fin 0) = true then (1 : Int) else 0) ≠ 0 ↔ 0 < d1 := by
    by_cases h : 0 < d1 <;> simp [h]
  have e2 : (if Flt.gt (Flt.fin d2) (Flt.fin 0) = true then (1 : Int) else 0) ≠ 0 ↔ 0 < d2 := by
    by_cases h : 0 < d2 <;> simp [h]
  have e3 : (if Flt.gt (Flt.fin d3) (Flt.fin 0) = true then (1 : Int) else 0) ≠ 0 ↔ 0 < d3 := by
    by_cases h : 0 < d3 <;> simp [h]
  have n1 : ∀ a b : ℚ, (if 0 < d1 then Flt.fin a else Flt.fin b) =
      Flt.fin (if 0 < d1 then a else b) := by intro a b; split_ifs <;> rfl
  have n2 : ∀ a b : ℚ, (if 0 < d2 then Flt.fin a else Flt.fin b) =
      Flt.fin (if 0 < d2 then a else b) := by intro a b; split_ifs <;> rfl
  have n3 : ∀ a b : ℚ, (if 0 < d3 then Flt.fin a else Flt.fin b) =
      Flt.fin (if 0 < d3 then a else b) := by intro a b; split_ifs <;> rfl
  by_cases hin : Bounds3.Inside (Vector3f.ofRat o1 o2 o3)
      ⟨Vector3f.ofRat l1 l2 l3, Vector3f.ofRat h1 h2 h3⟩ = true
  · simp [Bounds3.IntersectP, hin]
  · simp only [Bounds3.IntersectP, hin, Vector3f.ofRat, invDirOf, dirIsNegOf, e1, e2, e3,
      Flt.fin_div_fin _ _ hd1, Flt.fin_div_fin _ _ hd2, Flt.fin_div_fin _ _ hd3,
      Flt.fin_sub_fin, Flt.fin_mul_fin, n1, n2, n3, Flt.eq_fin, Flt.isinf_fin,
      Flt.maxList3_fin, Flt.minList3_fin, Flt.le_fin, Flt.ge_fin, hd1, hd2, hd3, slabNear,
      slabFar]
    simp

theorem Inside_ofRat (p1 p2 p3 l1 l2 l3 h1 h2 h3 : ℚ) :
    Bounds3.Inside (Vector3f.ofRat p1 p2 p3)
        ⟨Vector3f.ofRat l1 l2 l3, Vector3f.ofRat h1 h2 h3⟩ = true ↔
      (l1 ≤ p1 ∧ p1 ≤ h1) ∧ (l2 ≤ p2 ∧ p2 ≤ h2) ∧ (l3 ≤ p3 ∧ p3 ≤ h3) := by
  simp [Bounds3.Inside, Vector3f.ofRat]
  tauto

theorem Ray.at_ofRat (o1 o2 o3 d1 d2 d3 t : ℚ) :
    Ray.at ⟨Vector3f.ofRat o1 o2 o3, Vector3f.ofRat d1 d2 d3⟩ (Flt.fin t) =
      Vector3f.ofRat (o1 + d1 * t) (o2 + d2 * t) (o3 + d3 * t) := by
  show Vector3f.add _ (Vector3f.scale _ _) = _
  simp [Vector3f.add, Vector3f.scale, Vector3f.ofRat]

/-! ## Ray-box intersection -/

/-- In exact arithmetic (no rounding): for a box with finite coordinates (in particular every
such box with `pMin ≤ pMax`) and a finite ray whose direction has no zero component, called with
`invDir = 1/direction` and `dirIsNeg = (direction > 0)`, `IntersectP` returns true exactly
when some point `origin + t·direction` with `t ≥ 0` lies inside the box. -/
theorem IntersectP_iff_exists_hit (b : Bounds3) (ray : Ray)
    (hb : b.isFinite = true)
    (ho : ray.origin.isFinite = true) (hd : ray.direction.isFinite = true)
    (hx : Flt.eq ray.direction.x (Flt.fin 0) = false)
    (hy : Flt.eq ray.direction.y (Flt.fin 0) = false)
    (hz : Flt.eq ray.direction.z (Flt.fin 0) = false) :
    b.IntersectP ray (invDirOf ray.direction) (dirIsNegOf ray.direction) = true ↔
      ∃ t : ℚ, 0 ≤ t ∧ Bounds3.Inside (ray.at (Flt.fin t)) b = true := by
  obtain ⟨pMin, pMax⟩ := b
  obtain ⟨o, d⟩ := ray
  simp only [Bounds3.isFinite, Bool.and_eq_true] at hb
  obtain ⟨l1, l2, l3, rfl⟩ := Vector3f.exists_ofRat_of_isFinite hb.1
  obtain ⟨h1, h2, h3, rfl⟩ := Vector3f.exists_ofRat_of_isFinite hb.2
  obtain ⟨o1, o2, o3, rfl⟩ := Vector3f.exists_ofRat_of_isFinite ho
  obtain ⟨d1, d2, d3, rfl⟩ := Vector3f.exists_ofRat_of_isFinite hd
  have hd1 : d1 ≠ 0 := by simpa [Vector3f.ofRat] using hx
  have hd2 : d2 ≠ 0 := by simpa [Vector3f.ofRat] using hy
  have hd3 : d3 ≠ 0 := by simpa [Vector3f.ofRat] using hz
  rw [IntersectP_finite l1 l2 l3 h1 h2 h3 o1 o2 o3 d1 d2 d3 hd1 hd2 hd3]
  simp only [Ray.at_ofRat, Inside_ofRat, Bool.or_eq_true, Bool.and_eq_true, decide_eq_true_eq,
    ← slab_iff _ _ _ _ _ hd1, ← slab_iff _ _ _ _ _ hd2, ← slab_iff _ _ _ _ _ hd3]
  constructor
  · rintro (hin | ⟨hle, hpos⟩)
    · refine ⟨0, le_refl 0, ?_⟩
      have s1 := (slab_iff l1 h1 o1 d1 0 hd1).mpr (by simpa using hin.1)
      have s2 := (slab_iff l2 h2 o2 d2 0 hd2).mpr (by simpa using hin.2.1)
      have s3 := (slab_iff l3 h3 o3 d3 0 hd3).mpr (by simpa using hin.2.2)
      exact ⟨s1, s2, s3⟩
    · refine ⟨max (max (max (slabNear l1 h1 o1 d1) (slabNear l2 h2 o2 d2))
        (slabNear l3 h3 o3 d3)) 0, le_max_right _ _, ?_⟩
      have hub : max (max (max (slabNear l1 h1 o1 d1) (slabNear l2 h2 o2 d2))
          (slabNear l3 h3 o3 d3)) 0 ≤
          min (min (slabFar l1 h1 o1 d1) (slabFar l2 h2 o2 d2)) (slabFar l3 h3 o3 d3) :=
        max_le hle hpos
      have f1 := le_trans hub (le_trans (min_le_left _ _) (min_le_left _ _))
      have f2 := le_trans hub (le_trans (min_le_left _ _) (min_le_right _ _))
      have f3 := le_trans hub (min_le_right _ _)
      refine ⟨⟨?_, f1⟩, ⟨?_, f2⟩, ⟨?_, f3⟩⟩ <;> simp [le_max_iff]
  · rintro ⟨t, ht, ⟨n1, f1⟩, ⟨n2, f2⟩, ⟨n3, f3⟩⟩
    right
    have hlo : max (max (slabNear l1 h1 o1 d1) (slabNear l2 h2 o2 d2))
        (slabNear l3 h3 o3 d3) ≤ t := max_le (max_le n1 n2) n3
    have hhi : t ≤ min (min (slabFar l1 h1 o1 d1) (slabFar l2 h2 o2 d2))
        (slabFar l3 h3 o3 d3) := le_min (le_min f1 f2) f3
    exact ⟨le_trans hlo hhi, le_trans ht hhi⟩

/-- Example for `IntersectP_iff_exists_hit`: the unit cube and the ray from `(-1,-1,-1)`
along `(1,1,1)`. -/
theorem IntersectP_iff_exists_hit_witness :
    Bounds3.IntersectP ⟨Vector3f.ofRat 0 0 0, Vector3f.ofRat 1 1 1⟩
        ⟨Vector3f.ofRat (-1) (-1) (-1), Vector3f.ofRat 1 1 1⟩
        (invDirOf (Vector3f.ofRat 1 1 1)) (dirIsNegOf (Vector3f.ofRat 1 1 1)) = true ↔
      ∃ t : ℚ, 0 ≤ t ∧ Bounds3.Inside
        (Ray.at ⟨Vector3f.ofRat (-1) (-1) (-1), Vector3f.ofRat 1 1 1⟩ (Flt.fin t))
        ⟨Vector3f.ofRat 0 0 0, Vector3f.ofRat 1 1 1⟩ = true :=
  IntersectP_iff_exists_hit ⟨Vector3f.ofRat 0 0 0, Vector3f.ofRat 1 1 1⟩
    ⟨Vector3f.ofRat (-1) (-1) (-1), Vector3f.ofRat 1 1 1⟩
    (by rfl) (by rfl) (by rfl)
    (by simp [Vector3f.ofRat]) (by simp [Vector3f.ofRat]) (by simp [Vector3f.ofRat])

/-! ## Zero direction components -/

namespace Flt

theorem le_of_maxList2_le {a b c : Flt} (h : le (maxList2 a b) c = true) :
    le a c = true ∧ (b = nan ∨ le b c = true) := by
  unfold maxList2 at h
  cases a <;> cases b <;> cases c <;> simp [lt, le] at h ⊢ <;>
    (try split_ifs at h) <;> simp_all [lt, le] <;> linarith

theorem le_of_le_minList2 {a b c : Flt} (h : le c (minList2 a b) = true) :
    le c a = true ∧ (b = nan ∨ le c b = true) := by
  unfold minList2 at h
  cases a <;> cases b <;> cases c <;> simp [lt, le] at h ⊢ <;>
    (try split_ifs at h) <;> simp_all [lt, le] <;> linarith

theorem exists_between {E X : Flt} (h1 : le E X = true) (h2 : ge X (fin 0) = true) :
    ∃ t : ℚ, 0 ≤ t ∧ ((le E (fin t) = true ∧ le (fin t) X = true) ∨ le pinf X = true) := by
  cases E with
  | fin e =>
    cases X with
    | fin x =>
      simp only [le_fin, ge_fin, decide_eq_true_eq] at h1 h2
      exact ⟨max e 0, le_max_right _ _, Or.inl ⟨by simp [le_max_iff], by simp [h1, h2]⟩⟩
    | pinf => exact ⟨0, le_refl _, Or.inr rfl⟩
    | ninf => simp [le] at h1
    | nan => simp [le] at h1
  | pinf =>
    cases X with
    | pinf => exact ⟨0, le_refl _, Or.inr rfl⟩
    | fin x => simp [le] at h1
    | ninf => simp [le] at h1
    | nan => simp [le] at h1
  | ninf =>
    cases X with
    | fin x =>
      simp only [ge_fin, decide_eq_true_eq] at h2
      exact ⟨0, le_refl _, Or.inl ⟨rfl, by simp [h2]⟩⟩
    | pinf => exact ⟨0, le_refl _, Or.inr rfl⟩
    | ninf => simp [ge, le] at h2
    | nan => simp [le] at h1
  | nan => cases X <;> simp [le] at h1

end Flt

theorem axisOK_of_bounds {n f : Flt} {t : ℚ} (hp : n.isFinite = f.isFinite)
    (hn : n = Flt.nan ∨ Flt.le n (Flt.fin t) = true)
    (hf : f = Flt.nan ∨ Flt.le (Flt.fin t) f = true) : axisOK n f t := by
  rcases hn with rfl | hn
  · left; exact ⟨rfl, by rw [← hp]; rfl⟩
  · rcases hf with rfl | hf
    · left; exact ⟨by rw [hp]; rfl, rfl⟩
    · right; exact ⟨hn, hf⟩

theorem axisOK_of_pinf_le {n f : Flt} {t : ℚ} (hp : n.isFinite = f.isFinite)
    (hf : f = Flt.nan ∨ Flt.le Flt.pinf f = true) : axisOK n f t := by
  left
  have hfin : f.isFinite = false := by
    rcases hf with rfl | hf
    · rfl
    · cases f <;> simp [Flt.le] at hf
      · rfl
  exact ⟨by rw [hp]; exact hfin, hfin⟩

theorem axisOK_of_isinf {n f : Flt} {t : ℚ} (hp : n.isFinite = f.isFinite)
    (hf : Flt.isinf f = true) : axisOK n f t := by
  left
  have hfin : f.isFinite = false := by cases f <;> simp [Flt.isinf] at hf ⊢ <;> rfl
  exact ⟨by rw [hp]; exact hfin, hfin⟩

theorem two_axes_sound {na fa nb fb : Flt} (hpa : na.isFinite = fa.isFinite)
    (hpb : nb.isFinite = fb.isFinite)
    (h1 : Flt.le (Flt.maxList2 na nb) (Flt.minList2 fa fb) = true)
    (h2 : Flt.ge (Flt.minList2 fa fb) (Flt.fin 0) = true) :
    ∃ t : ℚ, 0 ≤ t ∧ axisOK na fa t ∧ axisOK nb fb t := by
  obtain ⟨t, ht, hcase⟩ := Flt.exists_between h1 h2
  refine ⟨t, ht, ?_⟩
  rcases hcase with ⟨hE, hX⟩ | hinf
  · have A := Flt.le_of_maxList2_le hE
    have B := Flt.le_of_le_minList2 hX
    exact ⟨axisOK_of_bounds hpa (Or.inr A.1) (Or.inr B.1), axisOK_of_bounds hpb A.2 B.2⟩
  · have B := Flt.le_of_le_minList2 hinf
    exact ⟨axisOK_of_pinf_le hpa (Or.inr B.1), axisOK_of_pinf_le hpb B.2⟩

theorem three_axes_sound {na fa nb fb nc fc : Flt} (hpa : na.isFinite = fa.isFinite)
    (hpb : nb.isFinite = fb.isFinite) (hpc : nc.isFinite = fc.isFinite)
    (h1 : Flt.le (Flt.maxList3 na nb nc) (Flt.minList3 fa fb fc) = true)
    (h2 : Flt.ge (Flt.minList3 fa fb fc) (Flt.fin 0) = true) :
    ∃ t : ℚ, 0 ≤ t ∧ axisOK na fa t ∧ axisOK nb fb t ∧ axisOK nc fc t := by
  obtain ⟨t, ht, hcase⟩ := Flt.exists_between h1 h2
  refine ⟨t, ht, ?_⟩
  unfold Flt.maxList3 Flt.minList3 at *
  rcases hcase with ⟨hE, hX⟩ | hinf
  · have A := Flt.le_of_maxList2_le hE
    have A2 := Flt.le_of_maxList2_le A.1
    have B := Flt.le_of_le_minList2 hX
    have B2 := Flt.le_of_le_minList2 B.1
    exact ⟨axisOK_of_bounds hpa (Or.inr A2.1) (Or.inr B2.1), axisOK_of_bounds hpb A2.2 B2.2,
      axisOK_of_bounds hpc A.2 B.2⟩
  · have B := Flt.le_of_le_minList2 hinf
    have B2 := Flt.le_of_le_minList2 B.1
    exact ⟨axisOK_of_pinf_le hpa (Or.inr B2.1), axisOK_of_pinf_le hpb B2.2,
      axisOK_of_pinf_le hpc B.2⟩

theorem slabCascade_sound {xn xf yn yf zn zf : Flt} (hx : xn.isFinite = xf.isFinite)
    (hy : yn.isFinite = yf.isFinite) (hz : zn.isFinite = zf.isFinite)
    (h : slabCascade xn xf yn yf zn zf = true) :
    ∃ t : ℚ, 0 ≤ t ∧ axisOK xn xf t ∧ axisOK yn yf t ∧ axisOK zn zf t := by
  unfold slabCascade at h
  simp only [Bool.and_eq_true] at h
  by_cases cx : Flt.isinf xf = true
  · simp only [cx, if_true] at h
    obtain ⟨t, ht, a, b⟩ := two_axes_sound hy hz h.1 h.2
    exact ⟨t, ht, axisOK_of_isinf hx cx, a, b⟩
  · by_cases cy : Flt.isinf yf = true
    · simp only [cx, cy, if_true, if_false] at h
      obtain ⟨t, ht, a, b⟩ := two_axes_sound hx hz h.1 h.2
      exact ⟨t, ht, a, axisOK_of_isinf hy cy, b⟩
    · by_cases cz : Flt.isinf zf = true
      · simp only [cx, cy, cz, if_true, if_false] at h
        obtain ⟨t, ht, a, b⟩ := two_axes_sound hy hx h.1 h.2
        exact ⟨t, ht, b, a, axisOK_of_isinf hz cz⟩
      · simp only [cx, cy, cz, if_false] at h
        exact three_axes_sound hx hy hz h.1 h.2

theorem IntersectP_eq_slabCascade (b : Bounds3) (ray : Ray) (invDir : Vector3f)
    (dirIsNeg : DirFlags) (hin : Bounds3.Inside ray.origin b = false)
    (hpath : (Flt.eq ray.direction.x (Flt.fin 0) && Flt.eq ray.direction.y (Flt.fin 0)) = false) :
    b.IntersectP ray invDir dirIsNeg =
      slabCascade
        (if dirIsNeg.d0 ≠ 0 then (b.pMin.x - ray.origin.x) * invDir.x
          else (b.pMax.x - ray.origin.x) * invDir.x)
        (if dirIsNeg.d0 ≠ 0 then (b.pMax.x - ray.origin.x) * invDir.x
          else (b.pMin.x - ray.origin.x) * invDir.x)
        (if dirIsNeg.d1 ≠ 0 then (b.pMin.y - ray.origin.y) * invDir.y
          else (b.pMax.y - ray.origin.y) * invDir.y)
        (if dirIsNeg.d1 ≠ 0 then (b.pMax.y - ray.origin.y) * invDir.y
          else (b.pMin.y - ray.origin.y) * invDir.y)
        (if dirIsNeg.d2 ≠ 0 then (b.pMin.z - ray.origin.z) * invDir.z
          else (b.pMax.z - ray.origin.z) * invDir.z)
        (if dirIsNeg.d2 ≠ 0 then (b.pMax.z - ray.origin.z) * invDir.z
          else (b.pMin.z - ray.origin.z) * invDir.z) := by
  unfold Bounds3.IntersectP slabCascade
  simp only [hin, hpath]
  rfl

/-- Plane parameters of one axis: both finite or both non-finite, and on an axis with
non-zero direction they bound exactly the parameters inside the slab. -/
theorem axis_params (l h o d : ℚ) (inv : Flt) (hr : IsRecip (Flt.fin d) inv = true) :
    (if (if Flt.gt (Flt.fin d) (Flt.fin 0) = true then (1 : Int) else 0) ≠ 0
        then (Flt.fin l - Flt.fin o) * inv else (Flt.fin h - Flt.fin o) * inv).isFinite =
      (if (if Flt.gt (Flt.fin d) (Flt.fin 0) = true then (1 : Int) else 0) ≠ 0
        then (Flt.fin h - Flt.fin o) * inv else (Flt.fin l - Flt.fin o) * inv).isFinite ∧
    (d ≠ 0 → ∀ t : ℚ,
      axisOK
        (if (if Flt.gt (Flt.fin d) (Flt.fin 0) = true then (1 : Int) else 0) ≠ 0
          then (Flt.fin l - Flt.fin o) * inv else (Flt.fin h - Flt.fin o) * inv)
        (if (if Flt.gt (Flt.fin d) (Flt.fin 0) = true then (1 : Int) else 0) ≠ 0
          then (Flt.fin h - Flt.fin o) * inv else (Flt.fin l - Flt.fin o) * inv) t →
      l ≤ o + d * t ∧ o + d * t ≤ h) := by
  by_cases hd : d = 0
  · subst hd
    have hinv : Flt.isinf inv = true := by simpa [IsRecip] using hr
    constructor
    · cases inv <;> simp [Flt.isinf] at hinv <;>
        simp [Flt.mul_def, Flt.mul, Flt.infOfSign, Flt.isFinite] <;>
        split_ifs <;> rfl
    · intro h0; exact absurd rfl h0
  · have hinv : inv = Flt.fin (1 / d) := by
      have := hr
      simp only [IsRecip, Flt.eq_fin, hd, decide_False, Bool.false_eq_true, if_false,
        decide_eq_true_eq] at this
      rw [this, Flt.fin_div_fin _ _ hd]
    subst hinv
    have e : (if Flt.gt (Flt.fin d) (Flt.fin 0) = true then (1 : Int) else 0) ≠ 0 ↔ 0 < d := by
      by_cases h : 0 < d <;> simp [h]
    have n : ∀ a b : ℚ, (if 0 < d then Flt.fin a else Flt.fin b) =
        Flt.fin (if 0 < d then a else b) := by intro a b; split_ifs <;> rfl
    simp only [e, Flt.fin_sub_fin, Flt.fin_mul_fin, n]
    refine ⟨rfl, fun _ t ht => ?_⟩
    rcases ht with ⟨h1, _⟩ | ⟨h1, h2⟩
    · simp [Flt.isFinite] at h1
    · simp only [Flt.le_fin, decide_eq_true_eq] at h1 h2
      exact (slab_iff l h o d t hd).mp ⟨h1, h2⟩

theorem inSlab_ofRat (p l h : ℚ) :
    inSlab (Flt.fin p) (Flt.fin l) (Flt.fin h) = true ↔ l ≤ p ∧ p ≤ h := by
  simp [inSlab]

/-- C2: on the box `[0,1]^3` the axis-parallel ray from `(-5, 1/2, 1/2)` along `(1,0,0)`
passes through the box (it is inside at `t = 11/2`), yet `IntersectP`, called with the
prescribed reciprocal direction and flags, returns false. -/
theorem IntersectP_axis_ray_missed :
    Bounds3.IntersectP ⟨Vector3f.ofRat 0 0 0, Vector3f.ofRat 1 1 1⟩
        ⟨Vector3f.ofRat (-5) (1/2) (1/2), Vector3f.ofRat 1 0 0⟩
        (invDirOf (Vector3f.ofRat 1 0 0)) (dirIsNegOf (Vector3f.ofRat 1 0 0)) = false ∧
      invDirOf (Vector3f.ofRat 1 0 0) = ⟨Flt.fin 1, Flt.pinf, Flt.pinf⟩ ∧
      dirIsNegOf (Vector3f.ofRat 1 0 0) = ⟨1, 0, 0⟩ ∧
      Bounds3.Inside
        (Ray.at ⟨Vector3f.ofRat (-5) (1/2) (1/2), Vector3f.ofRat 1 0 0⟩ (Flt.fin (11/2)))
        ⟨Vector3f.ofRat 0 0 0, Vector3f.ofRat 1 1 1⟩ = true := by
  refine ⟨?_, ?_, ?_, ?_⟩
  · norm_num [Bounds3.IntersectP, Bounds3.Inside, Vector3f.ofRat, invDirOf, dirIsNegOf,
      Flt.add_def, Flt.sub_def, Flt.mul_def, Flt.div_def, Flt.neg, Flt.add, Flt.mul,
      Flt.div, Flt.lt, Flt.le, Flt.gt, Flt.ge, Flt.eq, Flt.isinf, Flt.infOfSign, Flt.maxList2,
      Flt.minList2]
  · norm_num [Vector3f.ofRat, invDirOf, Flt.div_def, Flt.div, Flt.infOfSign]
  · norm_num [Vector3f.ofRat, dirIsNegOf, Flt.gt, Flt.lt]
  · rw [Ray.at_ofRat, Inside_ofRat]; norm_num

/-- In exact arithmetic `IntersectP` has false positives of two kinds.  A ray in the plane
`z = 7`, parallel to the
`z`-slab of `[0,1]^3` and outside it, is reported as intersecting; and on the path
`direction.x == 0 && direction.y == 0` the box `[0,1]^3` lying entirely behind the origin
`(1/2, 1/2, 5)` of a ray along `(0,0,1)` is reported as intersecting.  In both cases no
point of the ray with `t ≥ 0` is inside the box. -/
theorem IntersectP_false_positives :
    (Bounds3.IntersectP ⟨Vector3f.ofRat 0 0 0, Vector3f.ofRat 1 1 1⟩
        ⟨Vector3f.ofRat (-1) (-1) 7, Vector3f.ofRat 1 1 0⟩
        (invDirOf (Vector3f.ofRat 1 1 0)) (dirIsNegOf (Vector3f.ofRat 1 1 0)) = true ∧
      ¬ ∃ t : ℚ, 0 ≤ t ∧ Bounds3.Inside
        (Ray.at ⟨Vector3f.ofRat (-1) (-1) 7, Vector3f.ofRat 1 1 0⟩ (Flt.fin t))
        ⟨Vector3f.ofRat 0 0 0, Vector3f.ofRat 1 1 1⟩ = true) ∧
    (Bounds3.IntersectP ⟨Vector3f.ofRat 0 0 0, Vector3f.ofRat 1 1 1⟩
        ⟨Vector3f.ofRat (1/2) (1/2) 5, Vector3f.ofRat 0 0 1⟩
        (invDirOf (Vector3f.ofRat 0 0 1)) (dirIsNegOf (Vector3f.ofRat 0 0 1)) = true ∧
      ¬ ∃ t : ℚ, 0 ≤ t ∧ Bounds3.Inside
        (Ray.at ⟨Vector3f.ofRat (1/2) (1/2) 5, Vector3f.ofRat 0 0 1⟩ (Flt.fin t))
        ⟨Vector3f.ofRat 0 0 0, Vector3f.ofRat 1 1 1⟩ = true) := by
  refine ⟨⟨?_, ?_⟩, ⟨?_, ?_⟩⟩
  · norm_num [Bounds3.IntersectP, Bounds3.Inside, Vector3f.ofRat, invDirOf, dirIsNegOf,
      Flt.add_def, Flt.sub_def, Flt.mul_def, Flt.div_def, Flt.neg, Flt.add, Flt.mul,
      Flt.div, Flt.lt, Flt.le, Flt.gt, Flt.ge, Flt.eq, Flt.isinf, Flt.infOfSign, Flt.maxList2,
      Flt.minList2]
  · rintro ⟨t, _, ht⟩
    rw [Ray.at_ofRat, Inside_ofRat] at ht
    linarith [ht.2.2.2]
  · norm_num [Bounds3.IntersectP, Bounds3.Inside, Vector3f.ofRat, invDirOf, dirIsNegOf,
      Ray.at, Vector3f.scale, Vector3f.vadd_def,
      Flt.add_def, Flt.sub_def, Flt.mul_def, Flt.div_def, Flt.neg, Flt.add, Flt.mul,
      Flt.div, Flt.lt, Flt.le, Flt.gt, Flt.ge, Flt.eq, Flt.isinf, Flt.infOfSign]
  · rintro ⟨t, h0, ht⟩
    rw [Ray.at_ofRat, Inside_ofRat] at ht
    linarith [ht.2.2.2]

/-- In exact arithmetic (no rounding): for a finite box and a finite ray with
`direction.x ≠ 0` or
`direction.y ≠ 0`, called with the reciprocal direction (an infinity on a zero component)
and `dirIsNeg = (direction > 0)`, a true result of `IntersectP` yields a parameter `t ≥ 0`
at which `origin + t·direction` lies within `[pMin, pMax]` on every axis whose direction
component is non-zero. -/
theorem IntersectP_sound_on_moving_axes (b : Bounds3) (ray : Ray) (invDir : Vector3f)
    (hb : b.isFinite = true) (ho : ray.origin.isFinite = true)
    (hd : ray.direction.isFinite = true)
    (hpath : (Flt.eq ray.direction.x (Flt.fin 0) && Flt.eq ray.direction.y (Flt.fin 0)) = false)
    (hix : IsRecip ray.direction.x invDir.x = true)
    (hiy : IsRecip ray.direction.y invDir.y = true)
    (hiz : IsRecip ray.direction.z invDir.z = true)
    (h : b.IntersectP ray invDir (dirIsNegOf ray.direction) = true) :
    ∃ t : ℚ, 0 ≤ t ∧
      (Flt.eq ray.direction.x (Flt.fin 0) = false →
        inSlab (ray.at (Flt.fin t)).x b.pMin.x b.pMax.x = true) ∧
      (Flt.eq ray.direction.y (Flt.fin 0) = false →
        inSlab (ray.at (Flt.fin t)).y b.pMin.y b.pMax.y = true) ∧
      (Flt.eq ray.direction.z (Flt.fin 0) = false →
        inSlab (ray.at (Flt.fin t)).z b.pMin.z b.pMax.z = true) := by
  obtain ⟨pMin, pMax⟩ := b
  obtain ⟨o, d⟩ := ray
  obtain ⟨ix, iy, iz⟩ := invDir
  simp only [Bounds3.isFinite, Bool.and_eq_true] at hb
  obtain ⟨l1, l2, l3, rfl⟩ := Vector3f.exists_ofRat_of_isFinite hb.1
  obtain ⟨h1, h2, h3, rfl⟩ := Vector3f.exists_ofRat_of_isFinite hb.2
  obtain ⟨o1, o2, o3, rfl⟩ := Vector3f.exists_ofRat_of_isFinite ho
  obtain ⟨d1, d2, d3, rfl⟩ := Vector3f.exists_ofRat_of_isFinite hd
  simp only [Vector3f.ofRat] at hix hiy hiz
  by_cases hin : Bounds3.Inside (Vector3f.ofRat o1 o2 o3)
      ⟨Vector3f.ofRat l1 l2 l3, Vector3f.ofRat h1 h2 h3⟩ = true
  · rw [Inside_ofRat] at hin
    refine ⟨0, le_refl _, ?_⟩
    rw [Ray.at_ofRat]
    simp only [Vector3f.ofRat, inSlab_ofRat, mul_zero, add_zero]
    exact ⟨fun _ => hin.1, fun _ => hin.2.1, fun _ => hin.2.2⟩
  · rw [IntersectP_eq_slabCascade _ _ _ _ (by simpa using hin) hpath] at h
    have ax := axis_params l1 h1 o1 d1 ix hix
    have ay := axis_params l2 h2 o2 d2 iy hiy
    have az := axis_params l3 h3 o3 d3 iz hiz
    obtain ⟨t, ht, kx, ky, kz⟩ := slabCascade_sound ax.1 ay.1 az.1 h
    refine ⟨t, ht, ?_⟩
    rw [Ray.at_ofRat]
    simp only [Vector3f.ofRat, inSlab_ofRat, Flt.eq_fin, decide_eq_false_iff_not]
    exact ⟨fun hne => ax.2 hne t kx, fun hne => ay.2 hne t ky, fun hne => az.2 hne t kz⟩

/-- Example for `IntersectP_sound_on_moving_axes`: the ray from `(-1, -1, 1/2)` along
`(1, 1, 0)` and the unit cube. -/
theorem IntersectP_sound_on_moving_axes_witness :
    ∃ t : ℚ, 0 ≤ t ∧
      (Flt.eq (Flt.fin 1) (Flt.fin 0) = false →
        inSlab (Ray.at ⟨Vector3f.ofRat (-1) (-1) (1/2), Vector3f.ofRat 1 1 0⟩ (Flt.fin t)).x
          (Flt.fin 0) (Flt.fin 1) = true) ∧
      (Flt.eq (Flt.fin 1) (Flt.fin 0) = false →
        inSlab (Ray.at ⟨Vector3f.ofRat (-1) (-1) (1/2), Vector3f.ofRat 1 1 0⟩ (Flt.fin t)).y
          (Flt.fin 0) (Flt.fin 1) = true) ∧
      (Flt.eq (Flt.fin 0) (Flt.fin 0) = false →
        inSlab (Ray.at ⟨Vector3f.ofRat (-1) (-1) (1/2), Vector3f.ofRat 1 1 0⟩ (Flt.fin t)).z
          (Flt.fin 0) (Flt.fin 1) = true) :=
  IntersectP_sound_on_moving_axes ⟨Vector3f.ofRat 0 0 0, Vector3f.ofRat 1 1 1⟩
    ⟨Vector3f.ofRat (-1) (-1) (1/2), Vector3f.ofRat 1 1 0⟩ (invDirOf (Vector3f.ofRat 1 1 0))
    (by rfl) (by rfl) (by rfl)
    (by simp [Vector3f.ofRat])
    (by norm_num [IsRecip, invDirOf, Vector3f.ofRat])
    (by norm_num [IsRecip, invDirOf, Vector3f.ofRat])
    (by norm_num [IsRecip, invDirOf, Vector3f.ofRat, Flt.div_def, Flt.div, Flt.infOfSign,
      Flt.isinf])
    (by norm_num [Bounds3.IntersectP, Bounds3.Inside, Vector3f.ofRat, invDirOf, dirIsNegOf,
      Flt.add_def, Flt.sub_def, Flt.mul_def, Flt.div_def, Flt.neg, Flt.add, Flt.mul,
      Flt.div, Flt.lt, Flt.le, Flt.gt, Flt.ge, Flt.eq, Flt.isinf, Flt.infOfSign, Flt.maxList2,
      Flt.minList2])

/-- C4: when the ray origin is inside the box, `IntersectP` returns true for every
direction, every `invDir` and every `dirIsNeg`. -/
theorem IntersectP_of_origin_inside (b : Bounds3) (ray : Ray) (invDir : Vector3f)
    (dirIsNeg : DirFlags) (h : Bounds3.Inside ray.origin b = true) :
    b.IntersectP ray invDir dirIsNeg = true := by
  simp [Bounds3.IntersectP, h]

/-- Witness for C4: the centre of the unit cube, with a zero direction and `NaN`
reciprocals. -/
theorem IntersectP_of_origin_inside_witness :
    Bounds3.Inside (Vector3f.ofRat (1/2) (1/2) (1/2))
        ⟨Vector3f.ofRat 0 0 0, Vector3f.ofRat 1 1 1⟩ = true ∧
      Bounds3.IntersectP ⟨Vector3f.ofRat 0 0 0, Vector3f.ofRat 1 1 1⟩
        ⟨Vector3f.ofRat (1/2) (1/2) (1/2), Vector3f.ofRat 0 0 0⟩
        ⟨Flt.nan, Flt.nan, Flt.nan⟩ ⟨0, 0, 0⟩ = true :=
  ⟨by rw [Inside_ofRat]; norm_num,
   IntersectP_of_origin_inside _ ⟨Vector3f.ofRat (1/2) (1/2) (1/2), Vector3f.ofRat 0 0 0⟩ _ _
     (by rw [Inside_ofRat]; norm_num)⟩

/-! ## Ray-triangle intersection -/

theorem Vector3f.ofRat_sub (a b c d e f : ℚ) :
    Vector3f.ofRat a b c - Vector3f.ofRat d e f = Vector3f.ofRat (a - d) (b - e) (c - f) := by
  simp [Vector3f.vsub_def, Vector3f.ofRat]

theorem Vector3f.ofRat_add (a b c d e f : ℚ) :
    Vector3f.ofRat a b c + Vector3f.ofRat d e f = Vector3f.ofRat (a + d) (b + e) (c + f) := by
  simp [Vector3f.vadd_def, Vector3f.ofRat]

theorem Vector3f.ofRat_scale (a b c r : ℚ) :
    (Vector3f.ofRat a b c).scale (Flt.fin r) = Vector3f.ofRat (a * r) (b * r) (c * r) := by
  simp [Vector3f.scale, Vector3f.ofRat]

theorem Vector3f.ofRat_inj (a b c d e f : ℚ) :
    Vector3f.ofRat a b c = Vector3f.ofRat d e f ↔ a = d ∧ b = e ∧ c = f := by
  simp [Vector3f.ofRat]

theorem dotProduct_ofRat (a b c d e f : ℚ) :
    dotProduct (Vector3f.ofRat a b c) (Vector3f.ofRat d e f) =
      Flt.fin (a * d + b * e + c * f) := by
  simp [dotProduct, Vector3f.ofRat]

theorem crossProduct_ofRat (a b c d e f : ℚ) :
    crossProduct (Vector3f.ofRat a b c) (Vector3f.ofRat d e f) =
      Vector3f.ofRat (b * f - c * e) (c * d - a * f) (a * e - b * d) := by
  simp [crossProduct, Vector3f.ofRat]

/-- The determinant `dot(cross(dir, v2 - v0), v1 - v0)` on rational data. -/
theorem det_ofRat (a1 a2 a3 b1 b2 b3 c1 c2 c3 d1 d2 d3 : ℚ) :
    dotProduct (crossProduct (Vector3f.ofRat d1 d2 d3)
        (Vector3f.ofRat c1 c2 c3 - Vector3f.ofRat a1 a2 a3))
        (Vector3f.ofRat b1 b2 b3 - Vector3f.ofRat a1 a2 a3) =
      Flt.fin ((d2 * (c3 - a3) - d3 * (c2 - a2)) * (b1 - a1) +
        (d3 * (c1 - a1) - d1 * (c3 - a3)) * (b2 - a2) +
        (d1 * (c2 - a2) - d2 * (c1 - a1)) * (b3 - a3)) := by
  simp [Vector3f.ofRat_sub, crossProduct_ofRat, dotProduct_ofRat]

/-- On rational data with non-zero determinant `rayTriangleIntersect` computes the Cramer
quotients and tests them. -/
theorem rayTriangleIntersect_ofRat (a1 a2 a3 b1 b2 b3 c1 c2 c3 o1 o2 o3 d1 d2 d3 : ℚ)
    (tn u0 w0 : Flt)
    (hdet : (d2 * (c3 - a3) - d3 * (c2 - a2)) * (b1 - a1) +
        (d3 * (c1 - a1) - d1 * (c3 - a3)) * (b2 - a2) +
        (d1 * (c2 - a2) - d2 * (c1 - a1)) * (b3 - a3) ≠ 0) :
    rayTriangleIntersect (Vector3f.ofRat a1 a2 a3) (Vector3f.ofRat b1 b2 b3)
        (Vector3f.ofRat c1 c2 c3) (Vector3f.ofRat o1 o2 o3) (Vector3f.ofRat d1 d2 d3) tn u0 w0 =
      (let det := (d2 * (c3 - a3) - d3 * (c2 - a2)) * (b1 - a1) +
          (d3 * (c1 - a1) - d1 * (c3 - a3)) * (b2 - a2) +
          (d1 * (c2 - a2) - d2 * (c1 - a1)) * (b3 - a3)
        let t := (((o2 - a2) * (b3 - a3) - (o3 - a3) * (b2 - a2)) * (c1 - a1) +
          ((o3 - a3) * (b1 - a1) - (o1 - a1) * (b3 - a3)) * (c2 - a2) +
          ((o1 - a1) * (b2 - a2) - (o2 - a2) * (b1 - a1)) * (c3 - a3)) / det
        let p := ((d2 * (c3 - a3) - d3 * (c2 - a2)) * (o1 - a1) +
          (d3 * (c1 - a1) - d1 * (c3 - a3)) * (o2 - a2) +
          (d1 * (c2 - a2) - d2 * (c1 - a1)) * (o3 - a3)) / det
        let q := (((o2 - a2) * (b3 - a3) - (o3 - a3) * (b2 - a2)) * d1 +
          ((o3 - a3) * (b1 - a1) - (o1 - a1) * (b3 - a3)) * d2 +
          ((o1 - a1) * (b2 - a2) - (o2 - a2) * (b1 - a1)) * d3) / det
        if 0 < t ∧ 0 ≤ p ∧ 0 ≤ q ∧ p ≤ 1 ∧ q ≤ 1 ∧ p + q ≤ 1 then
          (true, Flt.fin t, Flt.fin p, Flt.fin q)
        else (false, tn, u0, w0)) := by
  simp only [rayTriangleIntersect, Vector3f.ofRat_sub, crossProduct_ofRat, dotProduct_ofRat,
    Flt.fin_div_fin _ _ hdet, Flt.gt_fin, Flt.ge_fin, Flt.le_fin, Flt.fin_add_fin,
    Bool.and_eq_true, decide_eq_true_eq, and_assoc]

/-- In exact arithmetic (no rounding): for a finite triangle and ray with non-zero determinant
`dot(cross(dir, v2 − v0), v1 − v0)`, `rayTriangleIntersect` returns true with outputs
`(t, u, v)` exactly when `t > 0`, `u ≥ 0`, `v ≥ 0`, `u + v ≤ 1` and
`orig + t·dir = (1−u−v)·v0 + u·v1 + v·v2`; a true result always carries finite outputs,
and a false result leaves the outputs unchanged. -/
theorem rayTriangleIntersect_iff (v0 v1 v2 orig dir : Vector3f) (tn u0 w0 : Flt)
    (h0 : v0.isFinite = true) (h1 : v1.isFinite = true) (h2 : v2.isFinite = true)
    (ho : orig.isFinite = true) (hd : dir.isFinite = true)
    (hdet : Flt.eq (dotProduct (crossProduct dir (v2 - v0)) (v1 - v0)) (Flt.fin 0) = false) :
    (∀ t u v : ℚ,
      rayTriangleIntersect v0 v1 v2 orig dir tn u0 w0 = (true, Flt.fin t, Flt.fin u, Flt.fin v) ↔
        (0 < t ∧ 0 ≤ u ∧ 0 ≤ v ∧ u + v ≤ 1 ∧
          orig + dir.scale (Flt.fin t) =
            v0.scale (Flt.fin (1 - u - v)) + v1.scale (Flt.fin u) + v2.scale (Flt.fin v))) ∧
    ((rayTriangleIntersect v0 v1 v2 orig dir tn u0 w0).1 = true →
      ∃ t u v : ℚ, rayTriangleIntersect v0 v1 v2 orig dir tn u0 w0 =
        (true, Flt.fin t, Flt.fin u, Flt.fin v)) ∧
    ((rayTriangleIntersect v0 v1 v2 orig dir tn u0 w0).1 = false →
      (rayTriangleIntersect v0 v1 v2 orig dir tn u0 w0).2 = (tn, u0, w0)) := by
  obtain ⟨a1, a2, a3, rfl⟩ := Vector3f.exists_ofRat_of_isFinite h0
  obtain ⟨b1, b2, b3, rfl⟩ := Vector3f.exists_ofRat_of_isFinite h1
  obtain ⟨c1, c2, c3, rfl⟩ := Vector3f.exists_ofRat_of_isFinite h2
  obtain ⟨o1, o2, o3, rfl⟩ := Vector3f.exists_ofRat_of_isFinite ho
  obtain ⟨d1, d2, d3, rfl⟩ := Vector3f.exists_ofRat_of_isFinite hd
  rw [det_ofRat] at hdet
  simp only [Flt.eq_fin, decide_eq_false_iff_not] at hdet
  rw [rayTriangleIntersect_ofRat a1 a2 a3 b1 b2 b3 c1 c2 c3 o1 o2 o3 d1 d2 d3 tn u0 w0 hdet]
  simp only [Vector3f.ofRat_scale, Vector3f.ofRat_add, Vector3f.ofRat_inj]
  set det := (d2 * (c3 - a3) - d3 * (c2 - a2)) * (b1 - a1) +
    (d3 * (c1 - a1) - d1 * (c3 - a3)) * (b2 - a2) +
    (d1 * (c2 - a2) - d2 * (c1 - a1)) * (b3 - a3) with hdef
  set nT := ((o2 - a2) * (b3 - a3) - (o3 - a3) * (b2 - a2)) * (c1 - a1) +
    ((o3 - a3) * (b1 - a1) - (o1 - a1) * (b3 - a3)) * (c2 - a2) +
    ((o1 - a1) * (b2 - a2) - (o2 - a2) * (b1 - a1)) * (c3 - a3) with hT
  set nP := (d2 * (c3 - a3) - d3 * (c2 - a2)) * (o1 - a1) +
    (d3 * (c1 - a1) - d1 * (c3 - a3)) * (o2 - a2) +
    (d1 * (c2 - a2) - d2 * (c1 - a1)) * (o3 - a3) with hP
  set nQ := ((o2 - a2) * (b3 - a3) - (o3 - a3) * (b2 - a2)) * d1 +
    ((o3 - a3) * (b1 - a1) - (o1 - a1) * (b3 - a3)) * d2 +
    ((o1 - a1) * (b2 - a2) - (o2 - a2) * (b1 - a1)) * d3 with hQ
  have k1 : o1 * det + d1 * nT = a1 * (det - nP - nQ) + b1 * nP + c1 * nQ := by
    rw [hdef, hT, hP, hQ]; ring
  have k2 : o2 * det + d2 * nT = a2 * (det - nP - nQ) + b2 * nP + c2 * nQ := by
    rw [hdef, hT, hP, hQ]; ring
  have k3 : o3 * det + d3 * nT = a3 * (det - nP - nQ) + b3 * nP + c3 * nQ := by
    rw [hdef, hT, hP, hQ]; ring
  have e1 : o1 + d1 * (nT / det) =
      a1 * (1 - nP / det - nQ / det) + b1 * (nP / det) + c1 * (nQ / det) := by
    field_simp; linear_combination k1
  have e2 : o2 + d2 * (nT / det) =
      a2 * (1 - nP / det - nQ / det) + b2 * (nP / det) + c2 * (nQ / det) := by
    field_simp; linear_combination k2
  have e3 : o3 + d3 * (nT / det) =
      a3 * (1 - nP / det - nQ / det) + b3 * (nP / det) + c3 * (nQ / det) := by
    field_simp; linear_combination k3
  refine ⟨?_, ?_, ?_⟩
  · intro t u v
    constructor
    · intro h
      by_cases hc : 0 < nT / det ∧ 0 ≤ nP / det ∧ 0 ≤ nQ / det ∧ nP / det ≤ 1 ∧ nQ / det ≤ 1 ∧
          nP / det + nQ / det ≤ 1
      · simp only [hc, and_self, if_true, Prod.mk.injEq, true_and, Flt.fin_inj] at h
        obtain ⟨rfl, rfl, rfl⟩ := h
        exact ⟨hc.1, hc.2.1, hc.2.2.1, hc.2.2.2.2.2, e1, e2, e3⟩
      · simp [hc] at h
    · rintro ⟨ht, hu, hv, huv, g1, g2, g3⟩
      have q1 : o1 = a1 * (1 - u - v) + b1 * u + c1 * v - d1 * t := by linarith
      have q2 : o2 = a2 * (1 - u - v) + b2 * u + c2 * v - d2 * t := by linarith
      have q3 : o3 = a3 * (1 - u - v) + b3 * u + c3 * v - d3 * t := by linarith
      have rT : nT / det = t := by
        rw [div_eq_iff hdet, hT, hdef, q1, q2, q3]; ring
      have rP : nP / det = u := by
        rw [div_eq_iff hdet, hP, hdef, q1, q2, q3]; ring
      have rQ : nQ / det = v := by
        rw [div_eq_iff hdet, hQ, hdef, q1, q2, q3]; ring
      have hc : 0 < nT / det ∧ 0 ≤ nP / det ∧ 0 ≤ nQ / det ∧ nP / det ≤ 1 ∧ nQ / det ≤ 1 ∧
          nP / det + nQ / det ≤ 1 := by
        rw [rT, rP, rQ]
        exact ⟨ht, hu, hv, by linarith, by linarith, huv⟩
      rw [if_pos hc, rT, rP, rQ]
  · intro h
    by_cases hc : 0 < nT / det ∧ 0 ≤ nP / det ∧ 0 ≤ nQ / det ∧ nP / det ≤ 1 ∧ nQ / det ≤ 1 ∧
        nP / det + nQ / det ≤ 1
    · exact ⟨nT / det, nP / det, nQ / det, by simp only [hc, and_self, if_true]⟩
    · simp [hc] at h
  · intro h
    by_cases hc : 0 < nT / det ∧ 0 ≤ nP / det ∧ 0 ≤ nQ / det ∧ nP / det ≤ 1 ∧ nQ / det ≤ 1 ∧
        nP / det + nQ / det ≤ 1
    · simp [hc] at h
    · simp [hc]

/-- Example for `rayTriangleIntersect_iff`: on the triangle `(0,0,0), (1,0,0), (0,1,0)` the
ray from
`(1/4, 1/4, 1)` along `(0,0,-1)` hits with `t = 1`, `u = v = 1/4`, and the ray along
`(0,0,1)` does not hit and leaves the outputs `7, 8, 9` unchanged. -/
theorem rayTriangleIntersect_iff_witness :
    rayTriangleIntersect (Vector3f.ofRat 0 0 0) (Vector3f.ofRat 1 0 0) (Vector3f.ofRat 0 1 0)
        (Vector3f.ofRat (1/4) (1/4) 1) (Vector3f.ofRat 0 0 (-1))
        (Flt.fin 7) (Flt.fin 8) (Flt.fin 9) =
      (true, Flt.fin 1, Flt.fin (1/4), Flt.fin (1/4)) ∧
    ((rayTriangleIntersect (Vector3f.ofRat 0 0 0) (Vector3f.ofRat 1 0 0)
        (Vector3f.ofRat 0 1 0) (Vector3f.ofRat (1/4) (1/4) 1) (Vector3f.ofRat 0 0 1)
        (Flt.fin 7) (Flt.fin 8) (Flt.fin 9)).1 = false ∧
      (rayTriangleIntersect (Vector3f.ofRat 0 0 0) (Vector3f.ofRat 1 0 0)
        (Vector3f.ofRat 0 1 0) (Vector3f.ofRat (1/4) (1/4) 1) (Vector3f.ofRat 0 0 1)
        (Flt.fin 7) (Flt.fin 8) (Flt.fin 9)).2 = (Flt.fin 7, Flt.fin 8, Flt.fin 9)) := by
  have hfalse : (rayTriangleIntersect (Vector3f.ofRat 0 0 0) (Vector3f.ofRat 1 0 0)
      (Vector3f.ofRat 0 1 0) (Vector3f.ofRat (1/4) (1/4) 1) (Vector3f.ofRat 0 0 1)
      (Flt.fin 7) (Flt.fin 8) (Flt.fin 9)).1 = false := by
    rw [rayTriangleIntersect_ofRat _ _ _ _ _ _ _ _ _ _ _ _ _ _ _ _ _ _ (by norm_num)]
    norm_num
  refine ⟨?_, hfalse, ?_⟩
  · exact ((rayTriangleIntersect_iff (Vector3f.ofRat 0 0 0) (Vector3f.ofRat 1 0 0)
      (Vector3f.ofRat 0 1 0) (Vector3f.ofRat (1/4) (1/4) 1) (Vector3f.ofRat 0 0 (-1))
      (Flt.fin 7) (Flt.fin 8) (Flt.fin 9) (by rfl) (by rfl) (by rfl) (by rfl) (by rfl)
      (by rw [det_ofRat]; norm_num)).1 1 (1/4) (1/4)).mpr
      ⟨by norm_num, by norm_num, by norm_num, by norm_num, by
        simp only [Vector3f.ofRat_scale, Vector3f.ofRat_add, Vector3f.ofRat_inj]
        norm_num⟩
  · exact (rayTriangleIntersect_iff (Vector3f.ofRat 0 0 0) (Vector3f.ofRat 1 0 0)
      (Vector3f.ofRat 0 1 0) (Vector3f.ofRat (1/4) (1/4) 1) (Vector3f.ofRat 0 0 1)
      (Flt.fin 7) (Flt.fin 8) (Flt.fin 9) (by rfl) (by rfl) (by rfl) (by rfl) (by rfl)
      (by rw [det_ofRat]; norm_num)).2.2 hfalse

/-- C6: on the triangle `(0,0,0), (1,0,0), (0,1,0)` (normal `(0,0,1)`) the ray from
`(1/4, 1/4, -1)` along `(0,0,-1)` crosses the plane of the triangle behind its origin, at
`t = -1`; `getIntersection` reports a hit with distance `-1`, while
`rayTriangleIntersect` rejects the same ray. -/
theorem getIntersection_hit_behind_origin :
    unitTriangle.normal = Vector3f.ofRat 0 0 1 ∧
    (unitTriangle.getIntersection
        ⟨Vector3f.ofRat (1/4) (1/4) (-1), Vector3f.ofRat 0 0 (-1)⟩ noHit).happened = true ∧
    (unitTriangle.getIntersection
        ⟨Vector3f.ofRat (1/4) (1/4) (-1), Vector3f.ofRat 0 0 (-1)⟩ noHit).distance =
      Flt.fin (-1) ∧
    (rayTriangleIntersect (Vector3f.ofRat 0 0 0) (Vector3f.ofRat 1 0 0) (Vector3f.ofRat 0 1 0)
        (Vector3f.ofRat (1/4) (1/4) (-1)) (Vector3f.ofRat 0 0 (-1))
        (Flt.fin 0) (Flt.fin 0) (Flt.fin 0)).1 = false := by
  have hn : unitTriangle.normal = Vector3f.ofRat 0 0 1 := by
    norm_num [unitTriangle, Triangle.construct, normalize, Vector3f.ofRat_sub,
      crossProduct_ofRat]
    norm_num [Vector3f.ofRat]
  have he1 : unitTriangle.e1 = Vector3f.ofRat 1 0 0 := by
    norm_num [unitTriangle, Triangle.construct, Vector3f.ofRat_sub]
  have he2 : unitTriangle.e2 = Vector3f.ofRat 0 1 0 := by
    norm_num [unitTriangle, Triangle.construct, Vector3f.ofRat_sub]
  have hv0 : unitTriangle.v0 = Vector3f.ofRat 0 0 0 := rfl
  refine ⟨hn, ?_, ?_, ?_⟩
  · norm_num [Triangle.getIntersection, hn, he1, he2, hv0, EPSILON, Vector3f.ofRat_sub,
      crossProduct_ofRat, dotProduct_ofRat, Flt.fin_div_fin]
  · norm_num [Triangle.getIntersection, hn, he1, he2, hv0, EPSILON, Vector3f.ofRat_sub,
      crossProduct_ofRat, dotProduct_ofRat, Flt.fin_div_fin]
  · rw [rayTriangleIntersect_ofRat _ _ _ _ _ _ _ _ _ _ _ _ _ _ _ _ _ _ (by norm_num)]
    norm_num

/-- The normal stored by the constructor is a positive multiple of `cross(e1, e2)`. -/
theorem Triangle.construct_normal (a1 a2 a3 b1 b2 b3 c1 c2 c3 k : ℚ) (m : Option Nat)
    (hk : 0 < k) :
    ∃ s : ℚ, 0 < s ∧
      (Triangle.construct (Vector3f.ofRat a1 a2 a3) (Vector3f.ofRat b1 b2 b3)
        (Vector3f.ofRat c1 c2 c3) m (Flt.fin k)).normal =
      Vector3f.ofRat (s * ((b2 - a2) * (c3 - a3) - (b3 - a3) * (c2 - a2)))
        (s * ((b3 - a3) * (c1 - a1) - (b1 - a1) * (c3 - a3)))
        (s * ((b1 - a1) * (c2 - a2) - (b2 - a2) * (c1 - a1))) := by
  simp only [Triangle.construct, normalize, Vector3f.ofRat_sub, crossProduct_ofRat]
  simp only [Vector3f.ofRat, Flt.fin_mul_fin, Flt.fin_add_fin, Flt.gt_fin, decide_eq_true_eq]
  split_ifs with hpos
  · exact ⟨k, hk, by simp [mul_comm]⟩
  · exact ⟨1, one_pos, by simp⟩

/-- In exact arithmetic (no rounding): for a triangle built by the constructor from finite
vertices (its normal being
`cross(e1, e2)` scaled by the positive reciprocal length `k`) and every finite ray
direction with `dot(direction, normal) ≥ 0`, zero included, `getIntersection` returns the
no-hit record it started from. -/
theorem getIntersection_culls_back_facing (v0 v1 v2 : Vector3f) (m : Option Nat) (k : ℚ)
    (ray : Ray) (inter : Intersection)
    (h0 : v0.isFinite = true) (h1 : v1.isFinite = true) (h2 : v2.isFinite = true)
    (hk : 0 < k) (hd : ray.direction.isFinite = true) (hinter : inter.happened = false)
    (hdot : Flt.ge (dotProduct ray.direction
      (Triangle.construct v0 v1 v2 m (Flt.fin k)).normal) (Flt.fin 0) = true) :
    ((Triangle.construct v0 v1 v2 m (Flt.fin k)).getIntersection ray inter).happened = false ∧
      (Triangle.construct v0 v1 v2 m (Flt.fin k)).getIntersection ray inter = inter := by
  obtain ⟨o, d⟩ := ray
  obtain ⟨a1, a2, a3, rfl⟩ := Vector3f.exists_ofRat_of_isFinite h0
  obtain ⟨b1, b2, b3, rfl⟩ := Vector3f.exists_ofRat_of_isFinite h1
  obtain ⟨c1, c2, c3, rfl⟩ := Vector3f.exists_ofRat_of_isFinite h2
  obtain ⟨d1, d2, d3, rfl⟩ := Vector3f.exists_ofRat_of_isFinite hd
  obtain ⟨s, hs, hn⟩ := Triangle.construct_normal a1 a2 a3 b1 b2 b3 c1 c2 c3 k m hk
  have he1 : (Triangle.construct (Vector3f.ofRat a1 a2 a3) (Vector3f.ofRat b1 b2 b3)
      (Vector3f.ofRat c1 c2 c3) m (Flt.fin k)).e1 =
      Vector3f.ofRat (b1 - a1) (b2 - a2) (b3 - a3) := by
    simp [Triangle.construct, Vector3f.ofRat_sub]
  have he2 : (Triangle.construct (Vector3f.ofRat a1 a2 a3) (Vector3f.ofRat b1 b2 b3)
      (Vector3f.ofRat c1 c2 c3) m (Flt.fin k)).e2 =
      Vector3f.ofRat (c1 - a1) (c2 - a2) (c3 - a3) := by
    simp [Triangle.construct, Vector3f.ofRat_sub]
  rw [hn, dotProduct_ofRat] at hdot
  simp only [Flt.ge_fin, decide_eq_true_eq] at hdot
  have key : Triangle.getIntersection (Triangle.construct (Vector3f.ofRat a1 a2 a3)
      (Vector3f.ofRat b1 b2 b3) (Vector3f.ofRat c1 c2 c3) m (Flt.fin k))
      ⟨o, Vector3f.ofRat d1 d2 d3⟩ inter = inter := by
    unfold Triangle.getIntersection
    rw [hn, he1, he2]
    simp only [dotProduct_ofRat, crossProduct_ofRat, Flt.gt_fin, Flt.fabs_fin, EPSILON,
      Flt.lt_fin]
    by_cases hpos : 0 < d1 * (s * ((b2 - a2) * (c3 - a3) - (b3 - a3) * (c2 - a2))) +
        d2 * (s * ((b3 - a3) * (c1 - a1) - (b1 - a1) * (c3 - a3))) +
        d3 * (s * ((b1 - a1) * (c2 - a2) - (b2 - a2) * (c1 - a1)))
    · simp [hpos]
    · have hz : d1 * (s * ((b2 - a2) * (c3 - a3) - (b3 - a3) * (c2 - a2))) +
          d2 * (s * ((b3 - a3) * (c1 - a1) - (b1 - a1) * (c3 - a3))) +
          d3 * (s * ((b1 - a1) * (c2 - a2) - (b2 - a2) * (c1 - a1))) = 0 :=
        le_antisymm (not_lt.mp hpos) hdot
      have hdet : (b1 - a1) * (d2 * (c3 - a3) - d3 * (c2 - a2)) +
          (b2 - a2) * (d3 * (c1 - a1) - d1 * (c3 - a3)) +
          (b3 - a3) * (d1 * (c2 - a2) - d2 * (c1 - a1)) = 0 := by
        have : s * ((b1 - a1) * (d2 * (c3 - a3) - d3 * (c2 - a2)) +
            (b2 - a2) * (d3 * (c1 - a1) - d1 * (c3 - a3)) +
            (b3 - a3) * (d1 * (c2 - a2) - d2 * (c1 - a1))) = 0 := by
          linear_combination -hz
        rcases mul_eq_zero.mp this with h | h
        · exact absurd h hs.ne'
        · exact h
      simp [hpos, hdet]
  exact ⟨by rw [key]; exact hinter, key⟩

/-- Example for `getIntersection_culls_back_facing`: the unit right triangle and a ray
travelling inside its plane (`dot(direction, normal) = 0`). -/
theorem getIntersection_culls_back_facing_witness :
    ((Triangle.construct (Vector3f.ofRat 0 0 0) (Vector3f.ofRat 1 0 0) (Vector3f.ofRat 0 1 0)
        none (Flt.fin 1)).getIntersection
        ⟨Vector3f.ofRat (-1) (1/4) 0, Vector3f.ofRat 1 0 0⟩ noHit).happened = false ∧
      (Triangle.construct (Vector3f.ofRat 0 0 0) (Vector3f.ofRat 1 0 0) (Vector3f.ofRat 0 1 0)
        none (Flt.fin 1)).getIntersection
        ⟨Vector3f.ofRat (-1) (1/4) 0, Vector3f.ofRat 1 0 0⟩ noHit = noHit :=
  getIntersection_culls_back_facing (Vector3f.ofRat 0 0 0) (Vector3f.ofRat 1 0 0)
    (Vector3f.ofRat 0 1 0) none 1 ⟨Vector3f.ofRat (-1) (1/4) 0, Vector3f.ofRat 1 0 0⟩ noHit
    (by rfl) (by rfl) (by rfl) (by norm_num) (by rfl) (by rfl)
    (by
      norm_num [Triangle.construct, normalize, Vector3f.ofRat_sub, crossProduct_ofRat]
      norm_num [Vector3f.ofRat, dotProduct])

/-! ## Union and surface area -/

namespace Flt

theorem le_trans' {a b c : Flt} (h1 : le a b = true) (h2 : le b c = true) :
    le a c = true := by
  cases a <;> cases b <;> cases c <;> simp_all [le]
  linarith

theorem stdMin_le_left {a b : Flt} (ha : a.isNum = true) (hb : b.isNum = true) :
    le (stdMin a b) a = true := by
  cases a <;> cases b <;> simp_all [stdMin, lt, le, isNum]
  split_ifs with h
  · simp [le, h.le]
  · simp [le]

theorem stdMin_le_right {a b : Flt} (ha : a.isNum = true) (hb : b.isNum = true) :
    le (stdMin a b) b = true := by
  cases a <;> cases b <;> simp_all [stdMin, lt, le, isNum]
  split_ifs with h
  · simp [le]
  · simp [le, not_lt.mp h]

theorem le_stdMax_left {a b : Flt} (ha : a.isNum = true) (hb : b.isNum = true) :
    le a (stdMax a b) = true := by
  cases a <;> cases b <;> simp_all [stdMax, lt, le, isNum]
  split_ifs with h
  · simp [le, h.le]
  · simp [le]

theorem le_stdMax_right {a b : Flt} (ha : a.isNum = true) (hb : b.isNum = true) :
    le b (stdMax a b) = true := by
  cases a <;> cases b <;> simp_all [stdMax, lt, le, isNum]
  split_ifs with h
  · simp [le]
  · simp [le, not_lt.mp h]

theorem stdMin_eq (a b : Flt) : stdMin a b = a ∨ stdMin a b = b := by
  unfold stdMin; split_ifs <;> simp

theorem stdMax_eq (a b : Flt) : stdMax a b = a ∨ stdMax a b = b := by
  unfold stdMax; split_ifs <;> simp

theorem le_stdMin {a b c : Flt} (h1 : le c a = true) (h2 : le c b = true) :
    le c (stdMin a b) = true := by
  rcases stdMin_eq a b with h | h <;> rw [h] <;> assumption

theorem stdMax_le {a b c : Flt} (h1 : le a c = true) (h2 : le b c = true) :
    le (stdMax a b) c = true := by
  rcases stdMax_eq a b with h | h <;> rw [h] <;> assumption

theorem stdMin_fin (a b : ℚ) : stdMin (fin a) (fin b) = fin (min a b) := by
  unfold stdMin
  by_cases h : b < a
  · simp [h, min_eq_right h.le]
  · simp [h, min_eq_left (not_lt.mp h)]

theorem stdMax_fin (a b : ℚ) : stdMax (fin a) (fin b) = fin (max a b) := by
  unfold stdMax
  by_cases h : a < b
  · simp [h, max_eq_right h.le]
  · simp [h, max_eq_left (not_lt.mp h)]

end Flt

/-- C8: for boxes whose coordinates are numbers (finite or infinite), `Union(b1, b2)`
contains both: its `pMin` is componentwise below and its `pMax` componentwise above those
of `b1` and `b2`, every point inside `b1` or `b2` is inside the union, and it is the
smallest such box: each coordinate of its `pMin`/`pMax` is the corresponding coordinate of
`b1` or of `b2`, so every box containing both contains the union. -/
theorem Union_contains_both (b1 b2 : Bounds3) (h1 : b1.isNum = true) (h2 : b2.isNum = true) :
    ((Union b1 b2).pMin.le b1.pMin = true ∧ (Union b1 b2).pMin.le b2.pMin = true ∧
      b1.pMax.le (Union b1 b2).pMax = true ∧ b2.pMax.le (Union b1 b2).pMax = true) ∧
    (∀ p : Vector3f, Bounds3.Inside p b1 = true ∨ Bounds3.Inside p b2 = true →
      Bounds3.Inside p (Union b1 b2) = true) ∧
    (((Union b1 b2).pMin.x = b1.pMin.x ∨ (Union b1 b2).pMin.x = b2.pMin.x) ∧
      ((Union b1 b2).pMin.y = b1.pMin.y ∨ (Union b1 b2).pMin.y = b2.pMin.y) ∧
      ((Union b1 b2).pMin.z = b1.pMin.z ∨ (Union b1 b2).pMin.z = b2.pMin.z) ∧
      ((Union b1 b2).pMax.x = b1.pMax.x ∨ (Union b1 b2).pMax.x = b2.pMax.x) ∧
      ((Union b1 b2).pMax.y = b1.pMax.y ∨ (Union b1 b2).pMax.y = b2.pMax.y) ∧
      ((Union b1 b2).pMax.z = b1.pMax.z ∨ (Union b1 b2).pMax.z = b2.pMax.z)) ∧
    (∀ c : Bounds3, c.pMin.le b1.pMin = true → c.pMin.le b2.pMin = true →
      b1.pMax.le c.pMax = true → b2.pMax.le c.pMax = true →
      c.pMin.le (Union b1 b2).pMin = true ∧ (Union b1 b2).pMax.le c.pMax = true) := by
  obtain ⟨⟨l1x, l1y, l1z⟩, ⟨u1x, u1y, u1z⟩⟩ := b1
  obtain ⟨⟨l2x, l2y, l2z⟩, ⟨u2x, u2y, u2z⟩⟩ := b2
  simp only [Bounds3.isNum, Vector3f.isNum, Bool.and_eq_true] at h1 h2
  obtain ⟨⟨⟨n1, n2⟩, n3⟩, ⟨n4, n5⟩, n6⟩ := h1
  obtain ⟨⟨⟨m1, m2⟩, m3⟩, ⟨m4, m5⟩, m6⟩ := h2
  have bounds : ((Union ⟨⟨l1x, l1y, l1z⟩, ⟨u1x, u1y, u1z⟩⟩
        ⟨⟨l2x, l2y, l2z⟩, ⟨u2x, u2y, u2z⟩⟩).pMin.le ⟨l1x, l1y, l1z⟩ = true ∧
      (Union ⟨⟨l1x, l1y, l1z⟩, ⟨u1x, u1y, u1z⟩⟩
        ⟨⟨l2x, l2y, l2z⟩, ⟨u2x, u2y, u2z⟩⟩).pMin.le ⟨l2x, l2y, l2z⟩ = true ∧
      Vector3f.le ⟨u1x, u1y, u1z⟩ (Union ⟨⟨l1x, l1y, l1z⟩, ⟨u1x, u1y, u1z⟩⟩
        ⟨⟨l2x, l2y, l2z⟩, ⟨u2x, u2y, u2z⟩⟩).pMax = true ∧
      Vector3f.le ⟨u2x, u2y, u2z⟩ (Union ⟨⟨l1x, l1y, l1z⟩, ⟨u1x, u1y, u1z⟩⟩
        ⟨⟨l2x, l2y, l2z⟩, ⟨u2x, u2y, u2z⟩⟩).pMax = true) := by
    simp only [Union, Vector3f.Min, Vector3f.Max, Vector3f.le, Bool.and_eq_true]
    exact ⟨⟨⟨Flt.stdMin_le_left n1 m1, Flt.stdMin_le_left n2 m2⟩, Flt.stdMin_le_left n3 m3⟩,
      ⟨⟨Flt.stdMin_le_right n1 m1, Flt.stdMin_le_right n2 m2⟩, Flt.stdMin_le_right n3 m3⟩,
      ⟨⟨Flt.le_stdMax_left n4 m4, Flt.le_stdMax_left n5 m5⟩, Flt.le_stdMax_left n6 m6⟩,
      ⟨⟨Flt.le_stdMax_right n4 m4, Flt.le_stdMax_right n5 m5⟩, Flt.le_stdMax_right n6 m6⟩⟩
  refine ⟨bounds, ?_, ?_, ?_⟩
  · intro p hp
    simp only [Union, Vector3f.Min, Vector3f.Max, Vector3f.le, Bool.and_eq_true] at bounds
    obtain ⟨⟨⟨a1, a2⟩, a3⟩, ⟨⟨a4, a5⟩, a6⟩, ⟨⟨a7, a8⟩, a9⟩, ⟨⟨a10, a11⟩, a12⟩⟩ := bounds
    simp only [Bounds3.Inside, Flt.ge, Union, Vector3f.Min, Vector3f.Max,
      Bool.and_eq_true] at hp ⊢
    rcases hp with ⟨⟨⟨⟨⟨p1, p2⟩, p3⟩, p4⟩, p5⟩, p6⟩ | ⟨⟨⟨⟨⟨p1, p2⟩, p3⟩, p4⟩, p5⟩, p6⟩
    · exact ⟨⟨⟨⟨⟨Flt.le_trans' a1 p1, Flt.le_trans' p2 a7⟩, Flt.le_trans' a2 p3⟩,
        Flt.le_trans' p4 a8⟩, Flt.le_trans' a3 p5⟩, Flt.le_trans' p6 a9⟩
    · exact ⟨⟨⟨⟨⟨Flt.le_trans' a4 p1, Flt.le_trans' p2 a10⟩, Flt.le_trans' a5 p3⟩,
        Flt.le_trans' p4 a11⟩, Flt.le_trans' a6 p5⟩, Flt.le_trans' p6 a12⟩
  · simp only [Union, Vector3f.Min, Vector3f.Max]
    exact ⟨Flt.stdMin_eq _ _, Flt.stdMin_eq _ _, Flt.stdMin_eq _ _, Flt.stdMax_eq _ _,
      Flt.stdMax_eq _ _, Flt.stdMax_eq _ _⟩
  · intro c c1 c2 c3 c4
    simp only [Union, Vector3f.Min, Vector3f.Max, Vector3f.le, Bool.and_eq_true] at c1 c2 c3 c4 ⊢
    exact ⟨⟨⟨Flt.le_stdMin c1.1.1 c2.1.1, Flt.le_stdMin c1.1.2 c2.1.2⟩,
        Flt.le_stdMin c1.2 c2.2⟩,
      ⟨⟨Flt.stdMax_le c3.1.1 c4.1.1, Flt.stdMax_le c3.1.2 c4.1.2⟩, Flt.stdMax_le c3.2 c4.2⟩⟩

/-- Witness for C8: the empty box and the unit cube. -/
theorem Union_contains_both_witness :
    Bounds3.Inside (Vector3f.ofRat (1/2) (1/2) (1/2))
      (Union Bounds3.empty ⟨Vector3f.ofRat 0 0 0, Vector3f.ofRat 1 1 1⟩) = true :=
  (Union_contains_both Bounds3.empty ⟨Vector3f.ofRat 0 0 0, Vector3f.ofRat 1 1 1⟩
    (by rfl) (by rfl)).2.1 (Vector3f.ofRat (1/2) (1/2) (1/2))
    (Or.inr (by rw [Inside_ofRat]; norm_num))

theorem SurfaceArea_ofRat (l1 l2 l3 h1 h2 h3 : ℚ) :
    Bounds3.SurfaceArea ⟨Vector3f.ofRat l1 l2 l3, Vector3f.ofRat h1 h2 h3⟩ =
      Flt.fin (2 * ((h1 - l1) * (h2 - l2) + (h1 - l1) * (h3 - l3) + (h2 - l2) * (h3 - l3))) := by
  simp only [Bounds3.SurfaceArea, Bounds3.Diagonal, Vector3f.ofRat_sub]
  simp [Vector3f.ofRat]

theorem Union_ofRat (l1 l2 l3 h1 h2 h3 m1 m2 m3 k1 k2 k3 : ℚ) :
    Union ⟨Vector3f.ofRat l1 l2 l3, Vector3f.ofRat h1 h2 h3⟩
        ⟨Vector3f.ofRat m1 m2 m3, Vector3f.ofRat k1 k2 k3⟩ =
      ⟨Vector3f.ofRat (min l1 m1) (min l2 m2) (min l3 m3),
       Vector3f.ofRat (max h1 k1) (max h2 k2) (max h3 k3)⟩ := by
  simp [Union, Vector3f.Min, Vector3f.Max, Vector3f.ofRat, Flt.stdMin_fin, Flt.stdMax_fin]

theorem area_mono {a b c x y z : ℚ} (ha : 0 ≤ a) (hb : 0 ≤ b) (hc : 0 ≤ c)
    (hx : a ≤ x) (hy : b ≤ y) (hz : c ≤ z) :
    2 * (a * b + a * c + b * c) ≤ 2 * (x * y + x * z + y * z) := by
  have h1 : a * b ≤ x * y := mul_le_mul hx hy hb (ha.trans hx)
  have h2 : a * c ≤ x * z := mul_le_mul hx hz hc (ha.trans hx)
  have h3 : b * c ≤ y * z := mul_le_mul hy hz hc (hb.trans hy)
  linarith

/-- C9, the claim as stated fails for the default-constructed box: its surface area is
`+inf`, while its union with the point box at the origin is that point box, of area 0. -/
theorem SurfaceArea_Union_empty_counterexample :
    Bounds3.SurfaceArea Bounds3.empty = Flt.pinf ∧
    Bounds3.SurfaceArea (Union Bounds3.empty (Bounds3.ofPoint (Vector3f.ofRat 0 0 0))) =
      Flt.fin 0 ∧
    Flt.ge (Bounds3.SurfaceArea (Union Bounds3.empty (Bounds3.ofPoint (Vector3f.ofRat 0 0 0))))
      (Flt.stdMax (Bounds3.SurfaceArea Bounds3.empty)
        (Bounds3.SurfaceArea (Bounds3.ofPoint (Vector3f.ofRat 0 0 0)))) = false := by
  have e1 : Bounds3.SurfaceArea Bounds3.empty = Flt.pinf := by
    norm_num [Bounds3.SurfaceArea, Bounds3.Diagonal, Bounds3.empty, Vector3f.vsub_def,
      Flt.sub_def, Flt.mul_def, Flt.add_def, Flt.neg, Flt.add, Flt.mul, Flt.infOfSign]
  have e2 : Union Bounds3.empty (Bounds3.ofPoint (Vector3f.ofRat 0 0 0)) =
      ⟨Vector3f.ofRat 0 0 0, Vector3f.ofRat 0 0 0⟩ := by
    simp [Union, Bounds3.empty, Bounds3.ofPoint, Vector3f.Min, Vector3f.Max, Vector3f.ofRat,
      Flt.stdMin, Flt.stdMax, Flt.lt]
  have e3 : Bounds3.SurfaceArea (Bounds3.ofPoint (Vector3f.ofRat 0 0 0)) = Flt.fin 0 := by
    rw [Bounds3.ofPoint, SurfaceArea_ofRat]; norm_num
  refine ⟨e1, ?_, ?_⟩
  · rw [e2, SurfaceArea_ofRat]; norm_num
  · rw [e1, e2, e3, SurfaceArea_ofRat]
    norm_num [Flt.stdMax, Flt.lt, Flt.ge, Flt.le]

/-- C9, amended: for boxes with finite coordinates and `pMin ≤ pMax`,
`SurfaceArea(Union(b1, b2))` is at least `SurfaceArea(b1)`, at least `SurfaceArea(b2)`,
and at least their maximum. -/
theorem SurfaceArea_Union_ge (b1 b2 : Bounds3) (hf1 : b1.isFinite = true)
    (hf2 : b2.isFinite = true) (hw1 : b1.WellFormed = true) (hw2 : b2.WellFormed = true) :
    Flt.ge (Union b1 b2).SurfaceArea b1.SurfaceArea = true ∧
    Flt.ge (Union b1 b2).SurfaceArea b2.SurfaceArea = true ∧
    Flt.ge (Union b1 b2).SurfaceArea (Flt.stdMax b1.SurfaceArea b2.SurfaceArea) = true := by
  obtain ⟨p1, q1⟩ := b1
  obtain ⟨p2, q2⟩ := b2
  simp only [Bounds3.isFinite, Bool.and_eq_true] at hf1 hf2
  obtain ⟨l1, l2, l3, rfl⟩ := Vector3f.exists_ofRat_of_isFinite hf1.1
  obtain ⟨h1, h2, h3, rfl⟩ := Vector3f.exists_ofRat_of_isFinite hf1.2
  obtain ⟨m1, m2, m3, rfl⟩ := Vector3f.exists_ofRat_of_isFinite hf2.1
  obtain ⟨k1, k2, k3, rfl⟩ := Vector3f.exists_ofRat_of_isFinite hf2.2
  simp only [Bounds3.WellFormed, Vector3f.ofRat, Flt.le_fin, Bool.and_eq_true,
    decide_eq_true_eq] at hw1 hw2
  obtain ⟨⟨w1, w2⟩, w3⟩ := hw1
  obtain ⟨⟨x1, x2⟩, x3⟩ := hw2
  have A : Flt.ge (Union ⟨Vector3f.ofRat l1 l2 l3, Vector3f.ofRat h1 h2 h3⟩
      ⟨Vector3f.ofRat m1 m2 m3, Vector3f.ofRat k1 k2 k3⟩).SurfaceArea
      (Bounds3.SurfaceArea ⟨Vector3f.ofRat l1 l2 l3, Vector3f.ofRat h1 h2 h3⟩) = true := by
    rw [Union_ofRat, SurfaceArea_ofRat, SurfaceArea_ofRat]
    simp only [Flt.ge_fin, decide_eq_true_eq]
    apply area_mono <;>
      first
      | linarith
      | exact sub_le_sub (le_max_left _ _) (min_le_left _ _)
  have B : Flt.ge (Union ⟨Vector3f.ofRat l1 l2 l3, Vector3f.ofRat h1 h2 h3⟩
      ⟨Vector3f.ofRat m1 m2 m3, Vector3f.ofRat k1 k2 k3⟩).SurfaceArea
      (Bounds3.SurfaceArea ⟨Vector3f.ofRat m1 m2 m3, Vector3f.ofRat k1 k2 k3⟩) = true := by
    rw [Union_ofRat, SurfaceArea_ofRat, SurfaceArea_ofRat]
    simp only [Flt.ge_fin, decide_eq_true_eq]
    apply area_mono <;>
      first
      | linarith
      | exact sub_le_sub (le_max_right _ _) (min_le_right _ _)
  refine ⟨A, B, ?_⟩
  rcases Flt.stdMax_eq
    (Bounds3.SurfaceArea ⟨Vector3f.ofRat l1 l2 l3, Vector3f.ofRat h1 h2 h3⟩)
    (Bounds3.SurfaceArea ⟨Vector3f.ofRat m1 m2 m3, Vector3f.ofRat k1 k2 k3⟩) with h | h
  · rw [h]; exact A
  · rw [h]; exact B

/-- Witness for C9 (amended): the unit cube and the cube `[1,3]^3`. -/
theorem SurfaceArea_Union_ge_witness :
    Flt.ge (Union ⟨Vector3f.ofRat 0 0 0, Vector3f.ofRat 1 1 1⟩
        ⟨Vector3f.ofRat 1 1 1, Vector3f.ofRat 3 3 3⟩).SurfaceArea
      (Bounds3.SurfaceArea ⟨Vector3f.ofRat 1 1 1, Vector3f.ofRat 3 3 3⟩) = true :=
  (SurfaceArea_Union_ge ⟨Vector3f.ofRat 0 0 0, Vector3f.ofRat 1 1 1⟩
    ⟨Vector3f.ofRat 1 1 1, Vector3f.ofRat 3 3 3⟩ (by rfl) (by rfl)
    (by norm_num [Bounds3.WellFormed, Vector3f.ofRat])
    (by norm_num [Bounds3.WellFormed, Vector3f.ofRat])).2.1

/-- C10: the default-constructed box is the identity of union: for every box `b` with
finite coordinates `Union(Bounds3(), b) = b` and `Union(b, Bounds3()) = b`, and for every
finite point `p` the box `Union(Bounds3(), p)` has `pMin = pMax = p`. -/
theorem Union_empty_identity (b : Bounds3) (p : Vector3f) (hb : b.isFinite = true)
    (hp : p.isFinite = true) :
    Union Bounds3.empty b = b ∧ Union b Bounds3.empty = b ∧
      UnionPoint Bounds3.empty p = Bounds3.ofPoint p ∧
      (UnionPoint Bounds3.empty p).pMin = p ∧ (UnionPoint Bounds3.empty p).pMax = p := by
  obtain ⟨pl, ph⟩ := b
  simp only [Bounds3.isFinite, Bool.and_eq_true] at hb
  obtain ⟨l1, l2, l3, rfl⟩ := Vector3f.exists_ofRat_of_isFinite hb.1
  obtain ⟨h1, h2, h3, rfl⟩ := Vector3f.exists_ofRat_of_isFinite hb.2
  obtain ⟨p1, p2, p3, rfl⟩ := Vector3f.exists_ofRat_of_isFinite hp
  simp [Union, UnionPoint, Bounds3.empty, Bounds3.ofPoint, Vector3f.Min, Vector3f.Max,
    Vector3f.ofRat, Flt.stdMin, Flt.stdMax, Flt.lt]

/-- Witness for C10: the unit cube and the point `(2, 3, 4)`. -/
theorem Union_empty_identity_witness :
    Union Bounds3.empty ⟨Vector3f.ofRat 0 0 0, Vector3f.ofRat 1 1 1⟩ =
        ⟨Vector3f.ofRat 0 0 0, Vector3f.ofRat 1 1 1⟩ ∧
      UnionPoint Bounds3.empty (Vector3f.ofRat 2 3 4) =
        Bounds3.ofPoint (Vector3f.ofRat 2 3 4) :=
  ⟨(Union_empty_identity ⟨Vector3f.ofRat 0 0 0, Vector3f.ofRat 1 1 1⟩ (Vector3f.ofRat 2 3 4)
      (by rfl) (by rfl)).1,
   (Union_empty_identity ⟨Vector3f.ofRat 0 0 0, Vector3f.ofRat 1 1 1⟩ (Vector3f.ofRat 2 3 4)
      (by rfl) (by rfl)).2.2.1⟩

/-! ## The recursive integrator: depth limit and misses -/

namespace Whitted

theorem castRayFuel_beyond {G : Globals} {scene : Scene} (fuel : Nat) (orig dir : Vector3f)
    {depth : Int} (h : depth > scene.maxDepth) :
    castRayFuel G scene (fuel + 1) orig dir depth = some Vector3f.zero := by
  simp [castRayFuel, h]

theorem castRayFuel_diffuse {G : Globals} {scene : Scene} (fuel : Nat) {orig dir : Vector3f}
    {depth : Int} {payload : hit_payload} (h : depth ≤ scene.maxDepth)
    (hhit : trace G orig dir scene.objects = some payload)
    (hmat : payload.hit_obj.materialType = MaterialType.DIFFUSE_AND_GLOSSY) :
    castRayFuel G scene (fuel + 1) orig dir depth =
      some (phongColor G scene dir (orig + dir.scale payload.tNear)
        (payload.hit_obj.getSurfaceProperties (orig + dir.scale payload.tNear) dir
          payload.index payload.uv).1
        (payload.hit_obj.getSurfaceProperties (orig + dir.scale payload.tNear) dir
          payload.index payload.uv).2 payload.hit_obj) := by
  simp [castRayFuel, not_lt.mpr h, hhit, hmat]

/-- C11, the claim as stated fails: in the scene with white background and `maxDepth = 0`
a call with `depth = 1` returns the zero vector, not the background colour. -/
theorem castRay_depth_limit_not_background :
    (1 : Int) > whiteScene.maxDepth ∧
    castRay exampleGlobals whiteScene Vector3f.zero (Vector3f.ofRat 0 0 (-1)) 1 =
      Vector3f.ofRat 0 0 0 ∧
    castRay exampleGlobals whiteScene Vector3f.zero (Vector3f.ofRat 0 0 (-1)) 1 ≠
      whiteScene.backgroundColor := by
  have h : castRay exampleGlobals whiteScene Vector3f.zero (Vector3f.ofRat 0 0 (-1)) 1 =
      Vector3f.ofRat 0 0 0 := by
    simp [castRay, castRayFuel, whiteScene, Vector3f.zero, Vector3f.ofRat]
  refine ⟨by simp [whiteScene], h, ?_⟩
  rw [h]
  simp [whiteScene, Vector3f.ofRat]

/-- C11, amended: for every scene and ray, `castRay` called with `depth > scene.maxDepth`
returns exactly the zero vector `Vector3f(0.0, 0.0, 0.0)`. -/
theorem castRay_beyond_maxDepth (G : Globals) (scene : Scene) (orig dir : Vector3f)
    (depth : Int) (h : depth > scene.maxDepth) :
    castRay G scene orig dir depth = Vector3f.zero := by
  simp [castRay, castRayFuel_beyond _ _ _ h]

/-- Witness for C11 (amended): depth 1 in a scene with `maxDepth = 0`. -/
theorem castRay_beyond_maxDepth_witness :
    castRay exampleGlobals whiteScene Vector3f.zero (Vector3f.ofRat 0 0 (-1)) 1 =
      Vector3f.zero :=
  castRay_beyond_maxDepth exampleGlobals whiteScene Vector3f.zero (Vector3f.ofRat 0 0 (-1)) 1
    (by simp [whiteScene])

end Whitted

/-! ## The recursive integrator: direct Phong shading -/

namespace Whitted

theorem lightLoop_eq_foldl (G : Globals) (scene : Scene)
    (dir hitPoint N shadowPointOrig : Vector3f) (specularExponent : Flt) :
    ∀ (lights : List Light) (acc : Vector3f × Vector3f),
      lightLoop G scene dir hitPoint N shadowPointOrig specularExponent lights acc =
        ((lights.map (diffuseTerm G scene hitPoint N shadowPointOrig)).foldl
            (fun a b => a + b) acc.1,
         (lights.map (specularTerm G dir hitPoint N specularExponent)).foldl
            (fun a b => a + b) acc.2) := by
  intro lights
  induction lights with
  | nil => intro acc; rfl
  | cons light rest ih =>
    intro acc
    simp only [lightLoop, List.map_cons, List.foldl_cons]
    rw [ih]

theorem lightLoop_eq_sums (G : Globals) (scene : Scene)
    (dir hitPoint N shadowPointOrig : Vector3f) (specularExponent : Flt) (lights : List Light) :
    lightLoop G scene dir hitPoint N shadowPointOrig specularExponent lights
        (Vector3f.zero, Vector3f.zero) =
      (sumVec (lights.map (diffuseTerm G scene hitPoint N shadowPointOrig)),
       sumVec (lights.map (specularTerm G dir hitPoint N specularExponent))) := by
  rw [lightLoop_eq_foldl]; rfl

theorem phongColor_eq_sums (G : Globals) (scene : Scene) (dir hitPoint N : Vector3f)
    (st : Vector2f) (obj : Object) :
    phongColor G scene dir hitPoint N st obj =
      ((sumVec (scene.lights.map (diffuseTerm G scene hitPoint N
          (if Flt.lt (dotProduct dir N) (Flt.fin 0) then hitPoint + N.scale scene.epsilon
            else hitPoint - N.scale scene.epsilon)))).mul (obj.evalDiffuseColor st)).scale obj.Kd +
        (sumVec (scene.lights.map
          (specularTerm G dir hitPoint N obj.specularExponent))).scale obj.Ks := by
  simp only [phongColor, lightLoop_eq_sums]

theorem inShadow_maxDepth (G : Globals) (scene : Scene) (m : Int)
    (hitPoint shadowPointOrig : Vector3f) (light : Light) :
    inShadow G { scene with maxDepth := m } hitPoint shadowPointOrig light =
      inShadow G scene hitPoint shadowPointOrig light := rfl

theorem diffuseTerm_maxDepth (G : Globals) (scene : Scene) (m : Int)
    (hitPoint N shadowPointOrig : Vector3f) :
    diffuseTerm G { scene with maxDepth := m } hitPoint N shadowPointOrig =
      diffuseTerm G scene hitPoint N shadowPointOrig := by
  funext light
  simp only [diffuseTerm, inShadow_maxDepth]

theorem phongColor_maxDepth (G : Globals) (scene : Scene) (m : Int) (dir hitPoint N : Vector3f)
    (st : Vector2f) (obj : Object) :
    phongColor G { scene with maxDepth := m } dir hitPoint N st obj =
      phongColor G scene dir hitPoint N st obj := by
  rw [phongColor_eq_sums, phongColor_eq_sums, diffuseTerm_maxDepth]

end Whitted

/-! ## The recursive integrator: lights in shadow -/

namespace Whitted

theorem ratSqrt_mul_self (r : ℚ) (hr : 0 ≤ r) : ratSqrt (r * r) = r := by
  unfold ratSqrt
  have hn : 0 ≤ r.num := Rat.num_nonneg.mpr hr
  obtain ⟨n, hnum⟩ := Int.eq_ofNat_of_zero_le hn
  have h1 : (r * r).num.toNat * (r * r).den = (n * r.den) * (n * r.den) := by
    rw [Rat.mul_self_num, Rat.mul_self_den, hnum]
    have : ((n : ℤ) * (n : ℤ)).toNat = n * n := by
      rw [← Int.natCast_mul, Int.toNat_natCast]
    rw [this]
    ring
  rw [h1, Nat.sqrt_eq, Rat.mul_self_den]
  have hd : (r.den : ℚ) ≠ 0 := by exact_mod_cast r.den_nz
  have hr' : r = (n : ℚ) / (r.den : ℚ) := by
    conv_lhs => rw [← Rat.num_div_den r, hnum]
    simp
  push_cast
  conv_rhs => rw [hr']
  field_simp
  ring

theorem exampleGlobals_sqrtf_sq (r : ℚ) (hr : 0 ≤ r) :
    exampleGlobals.sqrtf (Flt.fin (r * r)) = Flt.fin r := by
  simp [exampleGlobals, mul_self_nonneg, ratSqrt_mul_self r hr]

theorem exampleGlobals_powf_one (x : ℚ) :
    exampleGlobals.powf (Flt.fin x) (Flt.fin 1) = Flt.fin x := by
  simp [exampleGlobals]

theorem trace_wallObject (orig dir : Vector3f) :
    trace exampleGlobals orig dir [wallObject] =
      some wallPayload := by
  simp [trace, traceLoop, wallObject, wallPayload, exampleGlobals]

end Whitted

namespace Whitted

theorem sumVec_zeros (l : List Vector3f) (h : ∀ v ∈ l, v = Vector3f.zero) :
    sumVec l = Vector3f.zero := by
  unfold sumVec
  induction l with
  | nil => rfl
  | cons v rest ih =>
    have hv : v = Vector3f.zero := h v (List.mem_cons_self _ _)
    have hz : Vector3f.zero + Vector3f.zero = Vector3f.zero := by
      simp [Vector3f.vadd_def, Vector3f.zero]
    rw [List.foldl_cons, hv, hz]
    exact ih (fun w hw => h w (List.mem_cons_of_mem _ hw))

theorem normalizeG_example_light :
    normalizeG exampleGlobals (Vector3f.ofRat 0 0 1 - Vector3f.ofRat 0 0 (-1)) =
      Vector3f.ofRat 0 0 1 := by
  have h4 : exampleGlobals.sqrtf (Flt.fin 4) = Flt.fin 2 := by
    have := exampleGlobals_sqrtf_sq 2 (by norm_num)
    norm_num at this
    exact this
  rw [Vector3f.ofRat_sub]
  norm_num [normalizeG, normalize, Vector3f.ofRat, h4, Flt.fin_div_fin]

theorem inShadow_example :
    inShadow exampleGlobals shadowScene (Vector3f.ofRat 0 0 (-1))
      (Vector3f.ofRat 0 0 (-1) + (Vector3f.ofRat 0 0 1).scale shadowScene.epsilon)
      ⟨Vector3f.ofRat 0 0 1, Vector3f.ofRat 1 1 1⟩ = true := by
  simp only [inShadow, shadowScene, trace_wallObject, Vector3f.ofRat_sub, dotProduct_ofRat,
    wallPayload, Flt.fin_mul_fin, Flt.lt_fin]
  norm_num

/-- Claim C14 (divergence): in `shadowScene` the only light is in shadow at the point hit by
the ray along `(0,0,-1)`, the material has `Ks = 1`, and the colour returned is white, not
black: the light loop gates the `lightAmt` statement with `inShadow` but not the
`specularColor` statement, so the specular term of the occluded light is still added. -/
theorem castRay_shadowed_not_black :
    inShadow exampleGlobals shadowScene (Vector3f.ofRat 0 0 (-1))
      (Vector3f.ofRat 0 0 (-1) + (Vector3f.ofRat 0 0 1).scale shadowScene.epsilon)
      ⟨Vector3f.ofRat 0 0 1, Vector3f.ofRat 1 1 1⟩ = true ∧
    castRay exampleGlobals shadowScene Vector3f.zero (Vector3f.ofRat 0 0 (-1)) 0 =
      Vector3f.ofRat 1 1 1 ∧
    castRay exampleGlobals shadowScene Vector3f.zero (Vector3f.ofRat 0 0 (-1)) 0 ≠
      Vector3f.ofRat 0 0 0 := by
  have hhit : Vector3f.zero + (Vector3f.ofRat 0 0 (-1)).scale (Flt.fin 1) =
      Vector3f.ofRat 0 0 (-1) := by
    norm_num [Vector3f.zero, Vector3f.vadd_def, Vector3f.scale, Vector3f.ofRat]
  have hc : castRay exampleGlobals shadowScene Vector3f.zero (Vector3f.ofRat 0 0 (-1)) 0 =
      Vector3f.ofRat 1 1 1 := by
    have hf : castRayFuel exampleGlobals shadowScene (0 + 1) Vector3f.zero
        (Vector3f.ofRat 0 0 (-1)) 0 = _ :=
      castRayFuel_diffuse 0 (by simp [shadowScene]) (trace_wallObject _ _)
        (by simp [wallPayload, wallObject])
    have hm : castRayMeasure shadowScene 0 + 1 = 5 + 1 + 1 := by
      simp [castRayMeasure, shadowScene]
    have hf6 : castRayFuel exampleGlobals shadowScene (6 + 1) Vector3f.zero
        (Vector3f.ofRat 0 0 (-1)) 0 = _ :=
      castRayFuel_diffuse 6 (by simp [shadowScene]) (trace_wallObject _ _)
        (by simp [wallPayload, wallObject])
    unfold castRay
    rw [hm, hf6, Option.getD_some]
    have hw : wallPayload.tNear = Flt.fin 1 := rfl
    have ho : wallPayload.hit_obj = wallObject := rfl
    rw [hw, ho]
    simp only [hhit]
    have hN : ∀ i u, (wallObject.getSurfaceProperties (Vector3f.ofRat 0 0 (-1))
        (Vector3f.ofRat 0 0 (-1)) i u).1 = Vector3f.ofRat 0 0 1 := fun _ _ => rfl
    rw [phongColor_eq_sums, hN]
    have hlt : Flt.lt (dotProduct (Vector3f.ofRat 0 0 (-1)) (Vector3f.ofRat 0 0 1))
        (Flt.fin 0) = true := by
      rw [dotProduct_ofRat]; norm_num
    simp only [hlt, if_true]
    have hl : shadowScene.lights = [⟨Vector3f.ofRat 0 0 1, Vector3f.ofRat 1 1 1⟩] := rfl
    rw [hl]
    simp only [List.map_cons, List.map_nil, diffuseTerm, inShadow_example, if_true,
      specularTerm, normalizeG_example_light]
    have hrefl : reflect (Vector3f.ofRat 0 0 1).neg (Vector3f.ofRat 0 0 1) =
        Vector3f.ofRat 0 0 1 := by
      norm_num [reflect, Vector3f.neg, Vector3f.ofRat, dotProduct, Vector3f.scale,
        Vector3f.vsub_def]
    rw [hrefl, dotProduct_ofRat]
    norm_num [sumVec, wallObject, Flt.stdMax, exampleGlobals_powf_one, Vector3f.vadd_def,
      Vector3f.zero, Vector3f.ofRat, Vector3f.scale, Vector3f.mul]
  refine ⟨inShadow_example, hc, ?_⟩
  rw [hc]
  simp [Vector3f.ofRat]

end Whitted

namespace Whitted

/-- What the light loop does with an occluded light: in the diffuse/glossy case of `castRay`,
a light whose shadow ray hits an occluder with `tNear² <` squared distance to the light adds the zero vector to
`lightAmt`, while its specular term is still added to `specularColor`; at a diffuse hit
point at which every light is occluded the colour returned is
`(0 · evalDiffuseColor(st)) · Kd + specularColor · Ks`, `specularColor` being the sum of
the specular terms of all lights. -/
theorem castRay_shadowed_light_keeps_specular (G : Globals) (scene : Scene)
    (orig dir hitPoint N shadowPointOrig : Vector3f) (st : Vector2f) (depth : Int)
    (payload : hit_payload) (hd : depth ≤ scene.maxDepth)
    (hhit : trace G orig dir scene.objects = some payload)
    (hmat : payload.hit_obj.materialType = MaterialType.DIFFUSE_AND_GLOSSY)
    (hP : hitPoint = orig + dir.scale payload.tNear)
    (hprops : payload.hit_obj.getSurfaceProperties hitPoint dir payload.index payload.uv =
      (N, st))
    (hS : shadowPointOrig =
      if Flt.lt (dotProduct dir N) (Flt.fin 0) then hitPoint + N.scale scene.epsilon
      else hitPoint - N.scale scene.epsilon) :
    (∀ light : Light, inShadow G scene hitPoint shadowPointOrig light = true →
      diffuseTerm G scene hitPoint N shadowPointOrig light = Vector3f.zero) ∧
    (∀ (light : Light) (rest : List Light) (acc : Vector3f × Vector3f),
      inShadow G scene hitPoint shadowPointOrig light = true →
      lightLoop G scene dir hitPoint N shadowPointOrig payload.hit_obj.specularExponent
          (light :: rest) acc =
        lightLoop G scene dir hitPoint N shadowPointOrig payload.hit_obj.specularExponent rest
          (acc.1 + Vector3f.zero,
           acc.2 + specularTerm G dir hitPoint N payload.hit_obj.specularExponent light)) ∧
    ((∀ light ∈ scene.lights, inShadow G scene hitPoint shadowPointOrig light = true) →
      castRay G scene orig dir depth =
        (Vector3f.zero.mul (payload.hit_obj.evalDiffuseColor st)).scale payload.hit_obj.Kd +
          (sumVec (scene.lights.map
            (specularTerm G dir hitPoint N payload.hit_obj.specularExponent))).scale
            payload.hit_obj.Ks) := by
  have hdiff : ∀ light : Light, inShadow G scene hitPoint shadowPointOrig light = true →
      diffuseTerm G scene hitPoint N shadowPointOrig light = Vector3f.zero := by
    intro light hl
    simp [diffuseTerm, hl]
  refine ⟨hdiff, ?_, ?_⟩
  · intro light rest acc hl
    simp only [lightLoop, hdiff light hl]
  · intro hall
    have hc : castRay G scene orig dir depth =
        phongColor G scene dir hitPoint N st payload.hit_obj := by
      simp only [castRay, castRayFuel_diffuse _ hd hhit hmat, Option.getD_some, ← hP, hprops]
    rw [hc, phongColor_eq_sums, ← hS]
    have hz : sumVec (scene.lights.map (diffuseTerm G scene hitPoint N shadowPointOrig)) =
        Vector3f.zero := by
      apply sumVec_zeros
      intro v hv
      obtain ⟨light, hmem, rfl⟩ := List.mem_map.mp hv
      exact hdiff light (hall light hmem)
    rw [hz]

/-- Example for `castRay_shadowed_light_keeps_specular`: the occluded light of `shadowScene`
adds nothing to `lightAmt`. -/
theorem castRay_shadowed_light_keeps_specular_witness :
    diffuseTerm exampleGlobals shadowScene (Vector3f.ofRat 0 0 (-1)) (Vector3f.ofRat 0 0 1)
      (Vector3f.ofRat 0 0 (-1) + (Vector3f.ofRat 0 0 1).scale shadowScene.epsilon)
      ⟨Vector3f.ofRat 0 0 1, Vector3f.ofRat 1 1 1⟩ = Vector3f.zero :=
  (castRay_shadowed_light_keeps_specular exampleGlobals shadowScene Vector3f.zero
    (Vector3f.ofRat 0 0 (-1)) (Vector3f.ofRat 0 0 (-1)) (Vector3f.ofRat 0 0 1)
    (Vector3f.ofRat 0 0 (-1) + (Vector3f.ofRat 0 0 1).scale shadowScene.epsilon)
    ⟨Flt.fin 0, Flt.fin 0⟩ 0 wallPayload (by simp [shadowScene]) (trace_wallObject _ _)
    (by simp [wallPayload, wallObject])
    (by norm_num [wallPayload, Vector3f.zero, Vector3f.vadd_def, Vector3f.scale,
      Vector3f.ofRat])
    (by rfl)
    (by
      have hlt : Flt.lt (dotProduct (Vector3f.ofRat 0 0 (-1)) (Vector3f.ofRat 0 0 1))
          (Flt.fin 0) = true := by
        rw [dotProduct_ofRat]; norm_num
      rw [if_pos hlt])).1
    ⟨Vector3f.ofRat 0 0 1, Vector3f.ofRat 1 1 1⟩ inShadow_example

end Whitted

/-! ## Fresnel reflectance and refraction -/

namespace Whitted

theorem clamp_fin (lo hi v : ℚ) :
    clamp (Flt.fin lo) (Flt.fin hi) (Flt.fin v) = Flt.fin (max lo (min hi v)) := by
  simp [clamp, Flt.stdMax_fin, Flt.stdMin_fin]

theorem dotProduct_neg_ofRat (a b c d e f : ℚ) :
    dotProduct (Vector3f.ofRat a b c).neg (Vector3f.ofRat d e f) =
      Flt.fin (-(a * d + b * e + c * f)) := by
  simp [dotProduct, Vector3f.neg, Vector3f.ofRat]
  ring

/-- C15: for every `ior > 0` and every finite unit normal `N`, with incident direction
`I = −N`, `fresnel(I, N, ior)` equals `((ior − 1)/(ior + 1))²` (`sqrtf` being exact at 0
and 1); for `ior = 1.5` this is `1/25 = 0.04`. -/
theorem fresnel_normal_incidence (G : Globals) (N : Vector3f) (ior : ℚ)
    (hN : N.isFinite = true) (hunit : dotProduct N N = Flt.fin 1) (hior : 0 < ior)
    (hs0 : G.sqrtf (Flt.fin 0) = Flt.fin 0) (hs1 : G.sqrtf (Flt.fin 1) = Flt.fin 1) :
    fresnel G N.neg N (Flt.fin ior) = Flt.fin (((ior - 1) / (ior + 1)) ^ 2) ∧
    (ior = 3 / 2 → fresnel G N.neg N (Flt.fin ior) = Flt.fin (1 / 25)) := by
  obtain ⟨a, b, c, rfl⟩ := Vector3f.exists_ofRat_of_isFinite hN
  rw [dotProduct_ofRat] at hunit
  have hu : a * a + b * b + c * c = 1 := by simpa using hunit
  have hdot : dotProduct (Vector3f.ofRat a b c).neg (Vector3f.ofRat a b c) = Flt.fin (-1) := by
    rw [dotProduct_neg_ofRat, hu]
  have hne : ior + 1 ≠ 0 := by linarith
  have hne' : 1 + ior ≠ 0 := by linarith
  have hi0 : ior ≠ 0 := hior.ne'
  have main : fresnel G (Vector3f.ofRat a b c).neg (Vector3f.ofRat a b c) (Flt.fin ior) =
      Flt.fin (((ior - 1) / (ior + 1)) ^ 2) := by
    simp only [fresnel, hdot, clamp_fin]
    norm_num [Flt.stdMax, hs0, hs1, Flt.fin_div_fin, hi0, hne, hne']
    field_simp
    ring
  refine ⟨main, ?_⟩
  intro h
  rw [main, h]
  norm_num

end Whitted

namespace Whitted

theorem exampleGlobals_sqrtf_zero : exampleGlobals.sqrtf (Flt.fin 0) = Flt.fin 0 := by
  simpa using exampleGlobals_sqrtf_sq 0 le_rfl

theorem exampleGlobals_sqrtf_one : exampleGlobals.sqrtf (Flt.fin 1) = Flt.fin 1 := by
  simpa using exampleGlobals_sqrtf_sq 1 zero_le_one

/-- Witness for C15: the normal `(0,0,1)`, the incident direction `(0,0,-1)` and
`ior = 3/2` give the reflectance `1/25`. -/
theorem fresnel_normal_incidence_witness :
    fresnel exampleGlobals (Vector3f.ofRat 0 0 1).neg (Vector3f.ofRat 0 0 1) (Flt.fin (3 / 2)) =
      Flt.fin (1 / 25) :=
  (fresnel_normal_incidence exampleGlobals (Vector3f.ofRat 0 0 1) (3 / 2) (by rfl)
    (by rw [dotProduct_ofRat]; norm_num) (by norm_num) exampleGlobals_sqrtf_zero
    exampleGlobals_sqrtf_one).2 rfl

theorem dotProduct_finite {I N : Vector3f} (hI : I.isFinite = true) (hN : N.isFinite = true) :
    ∃ d : ℚ, dotProduct I N = Flt.fin d := by
  obtain ⟨a, b, c, rfl⟩ := Vector3f.exists_ofRat_of_isFinite hI
  obtain ⟨e, f, g, rfl⟩ := Vector3f.exists_ofRat_of_isFinite hN
  exact ⟨_, dotProduct_ofRat a b c e f g⟩

theorem refractK_of_dot (I N : Vector3f) (d ior : ℚ) (hdot : dotProduct I N = Flt.fin d)
    (hior : 0 < ior) :
    refractK I N (Flt.fin ior) =
      Flt.fin (if max (-1) (min 1 d) < 0
        then 1 - 1 / ior * (1 / ior) * (1 - max (-1) (min 1 d) * max (-1) (min 1 d))
        else 1 - ior * ior * (1 - max (-1) (min 1 d) * max (-1) (min 1 d))) := by
  have hi0 : ior ≠ 0 := hior.ne'
  simp only [refractK, hdot, clamp_fin, Flt.lt_fin, decide_eq_true_eq]
  split_ifs with h
  · simp [Flt.fin_div_fin, hi0]
  · simp [Flt.fin_div_fin]

theorem refract_of_refractK_neg (G : Globals) (I N : Vector3f) (ior : Flt)
    (h : Flt.lt (refractK I N ior) (Flt.fin 0) = true) :
    refract G I N ior = Vector3f.zero := by
  unfold refractK at h
  simp only [refract, h, if_true]

theorem fresnel_of_sint_ge (G : Globals) (I N : Vector3f) (ior : Flt)
    (h : Flt.ge (fresnelSint G I N ior) (Flt.fin 1) = true) : fresnel G I N ior = Flt.fin 1 := by
  unfold fresnelSint at h
  simp only [fresnel, h, if_true]

theorem fresnelSint_of_dot (G : Globals) (I N : Vector3f) (d ior s : ℚ)
    (hdot : dotProduct I N = Flt.fin d) (hior : 0 < ior)
    (hsq : G.sqrtf (Flt.fin (max 0 (1 - max (-1) (min 1 d) * max (-1) (min 1 d)))) =
      Flt.fin s) :
    fresnelSint G I N (Flt.fin ior) =
      Flt.fin (if 0 < max (-1) (min 1 d) then ior / 1 * s else 1 / ior * s) := by
  have hi0 : ior ≠ 0 := hior.ne'
  simp only [fresnelSint, hdot, clamp_fin, Flt.gt_fin, decide_eq_true_eq, Flt.fin_mul_fin,
    Flt.fin_sub_fin, Flt.stdMax_fin, hsq]
  split_ifs with h
  · rw [Flt.fin_div_fin _ _ one_ne_zero, Flt.fin_mul_fin]
  · rw [Flt.fin_div_fin _ _ hi0, Flt.fin_mul_fin]

theorem fresnel_unfold (G : Globals) (I N : Vector3f) (ior : Flt) :
    fresnel G I N ior =
      if Flt.ge (fresnelSint G I N ior) (Flt.fin 1) then Flt.fin 1
      else
        (((if Flt.gt (clamp (Flt.fin (-1)) (Flt.fin 1) (dotProduct I N)) (Flt.fin 0)
                then Flt.fin 1 else ior) *
              Flt.fabs (clamp (Flt.fin (-1)) (Flt.fin 1) (dotProduct I N)) -
            (if Flt.gt (clamp (Flt.fin (-1)) (Flt.fin 1) (dotProduct I N)) (Flt.fin 0)
                then ior else Flt.fin 1) *
              G.sqrtf (Flt.stdMax (Flt.fin 0)
                (Flt.fin 1 - fresnelSint G I N ior * fresnelSint G I N ior))) /
          ((if Flt.gt (clamp (Flt.fin (-1)) (Flt.fin 1) (dotProduct I N)) (Flt.fin 0)
                then Flt.fin 1 else ior) *
              Flt.fabs (clamp (Flt.fin (-1)) (Flt.fin 1) (dotProduct I N)) +
            (if Flt.gt (clamp (Flt.fin (-1)) (Flt.fin 1) (dotProduct I N)) (Flt.fin 0)
                then ior else Flt.fin 1) *
              G.sqrtf (Flt.stdMax (Flt.fin 0)
                (Flt.fin 1 - fresnelSint G I N ior * fresnelSint G I N ior))) *
          (((if Flt.gt (clamp (Flt.fin (-1)) (Flt.fin 1) (dotProduct I N)) (Flt.fin 0)
                then Flt.fin 1 else ior) *
              Flt.fabs (clamp (Flt.fin (-1)) (Flt.fin 1) (dotProduct I N)) -
            (if Flt.gt (clamp (Flt.fin (-1)) (Flt.fin 1) (dotProduct I N)) (Flt.fin 0)
                then ior else Flt.fin 1) *
              G.sqrtf (Flt.stdMax (Flt.fin 0)
                (Flt.fin 1 - fresnelSint G I N ior * fresnelSint G I N ior))) /
          ((if Flt.gt (clamp (Flt.fin (-1)) (Flt.fin 1) (dotProduct I N)) (Flt.fin 0)
                then Flt.fin 1 else ior) *
              Flt.fabs (clamp (Flt.fin (-1)) (Flt.fin 1) (dotProduct I N)) +
            (if Flt.gt (clamp (Flt.fin (-1)) (Flt.fin 1) (dotProduct I N)) (Flt.fin 0)
                then ior else Flt.fin 1) *
              G.sqrtf (Flt.stdMax (Flt.fin 0)
                (Flt.fin 1 - fresnelSint G I N ior * fresnelSint G I N ior)))) +
          ((if Flt.gt (clamp (Flt.fin (-1)) (Flt.fin 1) (dotProduct I N)) (Flt.fin 0)
                then ior else Flt.fin 1) *
              Flt.fabs (clamp (Flt.fin (-1)) (Flt.fin 1) (dotProduct I N)) -
            (if Flt.gt (clamp (Flt.fin (-1)) (Flt.fin 1) (dotProduct I N)) (Flt.fin 0)
                then Flt.fin 1 else ior) *
              G.sqrtf (Flt.stdMax (Flt.fin 0)
                (Flt.fin 1 - fresnelSint G I N ior * fresnelSint G I N ior))) /
          ((if Flt.gt (clamp (Flt.fin (-1)) (Flt.fin 1) (dotProduct I N)) (Flt.fin 0)
                then ior else Flt.fin 1) *
              Flt.fabs (clamp (Flt.fin (-1)) (Flt.fin 1) (dotProduct I N)) +
            (if Flt.gt (clamp (Flt.fin (-1)) (Flt.fin 1) (dotProduct I N)) (Flt.fin 0)
                then Flt.fin 1 else ior) *
              G.sqrtf (Flt.stdMax (Flt.fin 0)
                (Flt.fin 1 - fresnelSint G I N ior * fresnelSint G I N ior))) *
          (((if Flt.gt (clamp (Flt.fin (-1)) (Flt.fin 1) (dotProduct I N)) (Flt.fin 0)
                then ior else Flt.fin 1) *
              Flt.fabs (clamp (Flt.fin (-1)) (Flt.fin 1) (dotProduct I N)) -
            (if Flt.gt (clamp (Flt.fin (-1)) (Flt.fin 1) (dotProduct I N)) (Flt.fin 0)
                then Flt.fin 1 else ior) *
              G.sqrtf (Flt.stdMax (Flt.fin 0)
                (Flt.fin 1 - fresnelSint G I N ior * fresnelSint G I N ior))) /
          ((if Flt.gt (clamp (Flt.fin (-1)) (Flt.fin 1) (dotProduct I N)) (Flt.fin 0)
                then ior else Flt.fin 1) *
              Flt.fabs (clamp (Flt.fin (-1)) (Flt.fin 1) (dotProduct I N)) +
            (if Flt.gt (clamp (Flt.fin (-1)) (Flt.fin 1) (dotProduct I N)) (Flt.fin 0)
                then Flt.fin 1 else ior) *
              G.sqrtf (Flt.stdMax (Flt.fin 0)
                (Flt.fin 1 - fresnelSint G I N ior * fresnelSint G I N ior))))) /
          Flt.fin 2 := rfl

/-- At `cosi = 0` with `sint < 1` and a positive `cost`, both polarisation terms are `-1`
and `fresnel` returns 1. -/
theorem fresnel_grazing (G : Globals) (I N : Vector3f) (ior q r : ℚ)
    (hdot : dotProduct I N = Flt.fin 0) (hior : 0 < ior)
    (hsint : fresnelSint G I N (Flt.fin ior) = Flt.fin q) (hq : q < 1)
    (hcost : G.sqrtf (Flt.stdMax (Flt.fin 0) (Flt.fin 1 - Flt.fin q * Flt.fin q)) = Flt.fin r)
    (hr : 0 < r) : fresnel G I N (Flt.fin ior) = Flt.fin 1 := by
  have hi0 : ior ≠ 0 := hior.ne'
  have hr0 : r ≠ 0 := hr.ne'
  have hge : Flt.ge (Flt.fin q) (Flt.fin 1) = false := by
    simp [hq]
  have hcl : clamp (Flt.fin (-1)) (Flt.fin 1) (Flt.fin 0) = Flt.fin 0 := by
    rw [clamp_fin]; norm_num
  have hgt : Flt.gt (Flt.fin 0) (Flt.fin 0) = false := by simp
  rw [fresnel_unfold, hsint, hge, hdot, hcl, hcost, hgt]
  simp only [Bool.false_eq_true, if_false, Flt.fabs_fin, abs_zero, Flt.fin_mul_fin,
    Flt.fin_sub_fin, Flt.fin_add_fin, mul_zero, zero_sub, zero_add, one_mul]
  rw [Flt.fin_div_fin _ _ hr0, Flt.fin_div_fin _ _ (mul_ne_zero hi0 hr0)]
  simp only [Flt.fin_mul_fin, Flt.fin_add_fin]
  rw [Flt.fin_div_fin _ _ (by norm_num)]
  rw [Flt.fin_inj]
  field_simp

/-- In exact arithmetic (no rounding): for finite `I`, `N` and `ior > 0`, whenever `refract`
takes its
total-internal-reflection branch (`k < 0`, the zero vector being returned), `fresnel`
returns 1, so the factor `1 − kr` of the refraction colour is 0 and the refraction term of
the blend is the zero vector; `sqrtf` is taken exact at `max(0, 1 − cosi²)` and positive on
positive numbers.  The case `cosi = 0`, where `refract` swaps the indices and `fresnel`
does not, is included. -/
theorem fresnel_one_of_total_internal_reflection (G : Globals) (I N : Vector3f) (ior s : ℚ)
    (hI : I.isFinite = true) (hN : N.isFinite = true) (hior : 0 < ior)
    (hs : G.SqrtExactAt (Flt.stdMax (Flt.fin 0)
      (Flt.fin 1 - clamp (Flt.fin (-1)) (Flt.fin 1) (dotProduct I N) *
        clamp (Flt.fin (-1)) (Flt.fin 1) (dotProduct I N))) s)
    (hpos : G.SqrtPositive)
    (hk : Flt.lt (refractK I N (Flt.fin ior)) (Flt.fin 0) = true) :
    refract G I N (Flt.fin ior) = Vector3f.zero ∧
    fresnel G I N (Flt.fin ior) = Flt.fin 1 ∧
    (∀ refractionColor : Vector3f, refractionColor.isFinite = true →
      refractionColor.scale (Flt.fin 1 - fresnel G I N (Flt.fin ior)) = Vector3f.zero) := by
  obtain ⟨d, hdot⟩ := dotProduct_finite hI hN
  have hi0 : ior ≠ 0 := hior.ne'
  rw [refractK_of_dot I N d ior hdot hior] at hk
  obtain ⟨hs0, hsx, hsq⟩ := hs
  rw [hdot, clamp_fin] at hsx hsq
  simp only [Flt.fin_mul_fin, Flt.fin_sub_fin, Flt.stdMax_fin, Flt.fin_inj] at hsx
  simp only [Flt.fin_mul_fin, Flt.fin_sub_fin, Flt.stdMax_fin] at hsq
  have hsint := fresnelSint_of_dot G I N d ior s hdot hior hsq
  have hc1 : -1 ≤ max (-1) (min 1 d) := le_max_left _ _
  have hc2 : max (-1) (min 1 d) ≤ 1 := max_le (by norm_num) (min_le_left _ _)
  have hX : max 0 (1 - max (-1) (min 1 d) * max (-1) (min 1 d)) =
      1 - max (-1) (min 1 d) * max (-1) (min 1 d) := max_eq_right (by nlinarith)
  rw [hX] at hsx
  simp only [Flt.lt_fin, decide_eq_true_eq] at hk
  have hf : fresnel G I N (Flt.fin ior) = Flt.fin 1 := by
    rcases lt_trichotomy (max (-1) (min 1 d)) 0 with hneg | hzero | hpos'
    · have hng : ¬ (0 < max (-1) (min 1 d)) := not_lt.mpr hneg.le
      rw [if_pos hneg, hsx] at hk
      rw [if_neg hng] at hsint
      have hk' : ior * ior < s * s := by
        have h2 : 1 / ior * (1 / ior) * (s * s) = (s * s) / (ior * ior) := by
          field_simp
        rw [h2] at hk
        have h3 : 1 < s * s / (ior * ior) := by linarith
        rwa [lt_div_iff₀ (mul_pos hior hior), one_mul] at h3
      have h3 : ior < s := by nlinarith
      have h4 : 1 ≤ 1 / ior * s := by
        rw [one_div_mul_eq_div, le_div_iff₀ hior]; linarith
      apply fresnel_of_sint_ge
      rw [hsint]
      simpa using h4
    · have hng : ¬ (0 < max (-1) (min 1 d)) := by rw [hzero]; exact lt_irrefl 0
      have hnl : ¬ (max (-1) (min 1 d) < 0) := by rw [hzero]; exact lt_irrefl 0
      rw [if_neg hnl, hzero] at hk
      rw [hzero] at hsx
      rw [if_neg hng] at hsint
      have hs1 : s = 1 := by nlinarith
      have hior1 : 1 < ior := by nlinarith
      have hd0 : d = 0 := by
        by_contra hne
        rcases lt_or_gt_of_ne hne with h | h
        · have : max (-1) (min 1 d) < 0 := max_lt (by norm_num) (lt_of_le_of_lt (min_le_right _ _) h)
          linarith
        · have : 0 < max (-1) (min 1 d) := lt_max_of_lt_right (lt_min one_pos h)
          linarith
      have hlt1 : 1 / ior * s < 1 := by
        rw [hs1, mul_one, div_lt_one hior]; exact hior1
      have hpos2 : 0 < 1 - 1 / ior * s * (1 / ior * s) := by
        have h0 : 0 < 1 / ior * s := by rw [hs1]; positivity
        nlinarith
      obtain ⟨r, hr, hrs⟩ := hpos _ hpos2
      refine fresnel_grazing G I N ior (1 / ior * s) r (by rw [hdot, hd0]) hior hsint hlt1 ?_ hr
      simp only [Flt.fin_mul_fin, Flt.fin_sub_fin, Flt.stdMax_fin, max_eq_right hpos2.le, hrs]
    · have hnl : ¬ (max (-1) (min 1 d) < 0) := not_lt.mpr hpos'.le
      rw [if_neg hnl, hsx] at hk
      rw [if_pos hpos'] at hsint
      have h3 : 1 < ior * s := by
        have hnn : 0 ≤ ior * s := mul_nonneg hior.le hs0
        nlinarith
      apply fresnel_of_sint_ge
      rw [hsint]
      simpa using h3.le
  refine ⟨refract_of_refractK_neg G I N (Flt.fin ior) ?_, hf, ?_⟩
  · rw [refractK_of_dot I N d ior hdot hior]
    simpa using hk
  · intro col hcol
    obtain ⟨x, y, z, rfl⟩ := Vector3f.exists_ofRat_of_isFinite hcol
    rw [hf, Flt.fin_sub_fin, sub_self, Vector3f.ofRat_scale]
    simp [Vector3f.zero, Vector3f.ofRat]

end Whitted

namespace Whitted

theorem ratSqrt_pos (x : ℚ) (hx : 0 < x) : 0 < ratSqrt x := by
  unfold ratSqrt
  have hn : 0 < x.num := Rat.num_pos.mpr hx
  have h1 : 0 < x.num.toNat := by
    rw [Int.lt_toNat]; exact_mod_cast hn
  have h2 : 0 < Nat.sqrt (x.num.toNat * x.den) := Nat.sqrt_pos.mpr (Nat.mul_pos h1 x.den_pos)
  have h3 : (0 : ℚ) < (x.den : ℚ) := by exact_mod_cast x.den_pos
  have h4 : (0 : ℚ) < (Nat.sqrt (x.num.toNat * x.den) : ℚ) := by exact_mod_cast h2
  exact div_pos h4 h3

theorem exampleGlobals_sqrtPositive : exampleGlobals.SqrtPositive := by
  intro x hx
  exact ⟨ratSqrt x, ratSqrt_pos x hx, by simp [exampleGlobals, hx.le]⟩

/-- Example for `fresnel_one_of_total_internal_reflection`: the grazing direction
`I = (1,0,0)` on the normal `(0,0,1)` with
`ior = 5/3`: `refract` takes the total-internal-reflection branch and `fresnel` returns 1. -/
theorem fresnel_one_of_total_internal_reflection_witness :
    refract exampleGlobals (Vector3f.ofRat 1 0 0) (Vector3f.ofRat 0 0 1) (Flt.fin (5 / 3)) =
        Vector3f.zero ∧
      fresnel exampleGlobals (Vector3f.ofRat 1 0 0) (Vector3f.ofRat 0 0 1) (Flt.fin (5 / 3)) =
        Flt.fin 1 :=
  have h := fresnel_one_of_total_internal_reflection exampleGlobals (Vector3f.ofRat 1 0 0)
    (Vector3f.ofRat 0 0 1) (5 / 3) 1 (by rfl) (by rfl) (by norm_num)
    (by
      rw [dotProduct_ofRat, clamp_fin]
      refine ⟨zero_le_one, ?_, ?_⟩
      · norm_num [Flt.stdMax_fin]
      · norm_num [Flt.stdMax_fin, exampleGlobals_sqrtf_one])
    exampleGlobals_sqrtPositive
    (by
      rw [refractK_of_dot _ _ 0 _ (by rw [dotProduct_ofRat]; norm_num) (by norm_num)]
      norm_num)
  ⟨h.1, h.2.1⟩

theorem refract_of_dot (G : Globals) (a b c e f g ior : ℚ) (hior : 0 < ior)
    (hd1 : -1 ≤ a * e + b * f + c * g) (hd2 : a * e + b * f + c * g ≤ 1) :
    refract G (Vector3f.ofRat a b c) (Vector3f.ofRat e f g) (Flt.fin ior) =
      if Flt.lt (refractK (Vector3f.ofRat a b c) (Vector3f.ofRat e f g) (Flt.fin ior))
          (Flt.fin 0) then Vector3f.zero
      else if a * e + b * f + c * g < 0 then
        (Vector3f.ofRat a b c).scale (Flt.fin (1 / ior)) +
          (Vector3f.ofRat e f g).scale (Flt.fin (1 / ior * -(a * e + b * f + c * g)) -
            G.sqrtf (refractK (Vector3f.ofRat a b c) (Vector3f.ofRat e f g) (Flt.fin ior)))
      else
        (Vector3f.ofRat a b c).scale (Flt.fin ior) +
          (Vector3f.ofRat (-e) (-f) (-g)).scale (Flt.fin (ior * (a * e + b * f + c * g)) -
            G.sqrtf (refractK (Vector3f.ofRat a b c) (Vector3f.ofRat e f g) (Flt.fin ior))) := by
  have hi0 : ior ≠ 0 := hior.ne'
  have hcl : clamp (Flt.fin (-1)) (Flt.fin 1)
      (dotProduct (Vector3f.ofRat a b c) (Vector3f.ofRat e f g)) =
      Flt.fin (a * e + b * f + c * g) := by
    rw [dotProduct_ofRat, clamp_fin, min_eq_right hd2, max_eq_right hd1]
  have hneg : (Vector3f.ofRat e f g).neg = Vector3f.ofRat (-e) (-f) (-g) := by
    simp [Vector3f.neg, Vector3f.ofRat]
  simp only [refract, refractK, hcl, Flt.lt_fin, decide_eq_true_eq, hneg]
  by_cases h : a * e + b * f + c * g < 0
  · simp only [h, if_true, Flt.fin_div_fin _ _ hi0, Flt.neg_fin, Flt.fin_mul_fin]
  · simp only [h, if_false, Flt.fin_div_fin _ _ one_ne_zero, Flt.fin_mul_fin, div_one]

end Whitted

namespace Whitted

theorem unit_dot_bounds {a b c e f g : ℚ} (hI : a * a + b * b + c * c = 1)
    (hN : e * e + f * f + g * g = 1) :
    -1 ≤ a * e + b * f + c * g ∧ a * e + b * f + c * g ≤ 1 := by
  have key : (a * e + b * f + c * g) * (a * e + b * f + c * g) ≤ 1 := by
    nlinarith [sq_nonneg (a * f - b * e), sq_nonneg (a * g - c * e), sq_nonneg (b * g - c * f)]
  constructor <;> nlinarith

/-- In exact arithmetic (no rounding): for finite unit vectors `I` and `N` and `ior > 0`,
when `sqrtf` returns the exact
root `s` of `k = 1 − eta²·(1 − cosi²)` (so that `k ≥ 0` and `refract` does not take the
total-internal-reflection branch), the vector `T = refract(I, N, ior)` has unit length and
its component perpendicular to `N` is `eta` times that of `I`:
`T − (T·N)·N = eta·(I − (I·N)·N)`, with `eta = 1/ior` when `I·N < 0` and `eta = ior`
otherwise. -/
theorem refract_unit_and_snell (G : Globals) (I N : Vector3f) (ior s : ℚ)
    (hI : I.isFinite = true) (hN : N.isFinite = true)
    (hIu : dotProduct I I = Flt.fin 1) (hNu : dotProduct N N = Flt.fin 1) (hior : 0 < ior)
    (hs : G.SqrtExactAt (refractK I N (Flt.fin ior)) s) :
    Flt.lt (refractK I N (Flt.fin ior)) (Flt.fin 0) = false ∧
    dotProduct (refract G I N (Flt.fin ior)) (refract G I N (Flt.fin ior)) = Flt.fin 1 ∧
    refract G I N (Flt.fin ior) - N.scale (dotProduct (refract G I N (Flt.fin ior)) N) =
      (I - N.scale (dotProduct I N)).scale
        (if Flt.lt (dotProduct I N) (Flt.fin 0) then Flt.fin 1 / Flt.fin ior
          else Flt.fin ior) := by
  obtain ⟨a, b, c, rfl⟩ := Vector3f.exists_ofRat_of_isFinite hI
  obtain ⟨e, f, g, rfl⟩ := Vector3f.exists_ofRat_of_isFinite hN
  rw [dotProduct_ofRat, Flt.fin_inj] at hIu hNu
  obtain ⟨hd1, hd2⟩ := unit_dot_bounds hIu hNu
  have hi0 : ior ≠ 0 := hior.ne'
  obtain ⟨hs0, hsx, hsq⟩ := hs
  have hk : Flt.lt (refractK (Vector3f.ofRat a b c) (Vector3f.ofRat e f g) (Flt.fin ior))
      (Flt.fin 0) = false := by
    rw [hsx]
    simp [mul_self_nonneg]
  have hT := refract_of_dot G a b c e f g ior hior hd1 hd2
  rw [hk, hsq] at hT
  simp only [Bool.false_eq_true, if_false] at hT
  have hK := refractK_of_dot (Vector3f.ofRat a b c) (Vector3f.ofRat e f g)
    (a * e + b * f + c * g) ior (dotProduct_ofRat a b c e f g) hior
  rw [hsx, min_eq_right hd2, max_eq_right hd1, Flt.fin_inj] at hK
  refine ⟨hk, ?_, ?_⟩
  · rw [hT]
    by_cases h : a * e + b * f + c * g < 0
    · rw [if_pos h] at hK
      simp only [h, if_true, Vector3f.ofRat_scale, Flt.fin_sub_fin, Vector3f.ofRat_add,
        dotProduct_ofRat, Flt.fin_inj]
      linear_combination (1 / ior * (1 / ior)) * hIu +
        ((1 / ior * -(a * e + b * f + c * g) - s) *
          (1 / ior * -(a * e + b * f + c * g) - s)) * hNu + hK
    · rw [if_neg h] at hK
      simp only [h, if_false, Vector3f.ofRat_scale, Flt.fin_sub_fin, Vector3f.ofRat_add,
        dotProduct_ofRat, Flt.fin_inj]
      linear_combination (ior * ior) * hIu +
        ((ior * (a * e + b * f + c * g) - s) * (ior * (a * e + b * f + c * g) - s)) * hNu + hK
  · rw [hT]
    by_cases h : a * e + b * f + c * g < 0
    · simp only [h, if_true, Vector3f.ofRat_scale, Flt.fin_sub_fin, Vector3f.ofRat_add,
        dotProduct_ofRat, Vector3f.ofRat_sub, Flt.lt_fin, decide_True,
        Flt.fin_div_fin _ _ hi0, Vector3f.ofRat_inj]
      refine ⟨?_, ?_, ?_⟩
      · linear_combination (-(e * (1 / ior * -(a * e + b * f + c * g) - s))) * hNu
      · linear_combination (-(f * (1 / ior * -(a * e + b * f + c * g) - s))) * hNu
      · linear_combination (-(g * (1 / ior * -(a * e + b * f + c * g) - s))) * hNu
    · simp only [h, if_false, Vector3f.ofRat_scale, Flt.fin_sub_fin, Vector3f.ofRat_add,
        dotProduct_ofRat, Vector3f.ofRat_sub, Flt.lt_fin, decide_False, Bool.false_eq_true,
        Vector3f.ofRat_inj]
      refine ⟨?_, ?_, ?_⟩
      · linear_combination (e * (ior * (a * e + b * f + c * g) - s)) * hNu
      · linear_combination (f * (ior * (a * e + b * f + c * g) - s)) * hNu
      · linear_combination (g * (ior * (a * e + b * f + c * g) - s)) * hNu

end Whitted

namespace Whitted

/-- Example for `refract_unit_and_snell`: the unit direction `(3/5, 0, -4/5)` entering a
medium of
`ior = 39/25` through the normal `(0,0,1)`; here `k = (12/13)²`. -/
theorem refract_unit_and_snell_witness :
    dotProduct
      (refract exampleGlobals (Vector3f.ofRat (3 / 5) 0 (-4 / 5)) (Vector3f.ofRat 0 0 1)
        (Flt.fin (39 / 25)))
      (refract exampleGlobals (Vector3f.ofRat (3 / 5) 0 (-4 / 5)) (Vector3f.ofRat 0 0 1)
        (Flt.fin (39 / 25))) = Flt.fin 1 :=
  have hK : refractK (Vector3f.ofRat (3 / 5) 0 (-4 / 5)) (Vector3f.ofRat 0 0 1)
      (Flt.fin (39 / 25)) = Flt.fin (12 / 13 * (12 / 13)) := by
    rw [refractK_of_dot _ _ (-4 / 5) _ (by rw [dotProduct_ofRat]; norm_num) (by norm_num)]
    norm_num
  (refract_unit_and_snell exampleGlobals (Vector3f.ofRat (3 / 5) 0 (-4 / 5))
    (Vector3f.ofRat 0 0 1) (39 / 25) (12 / 13) (by rfl) (by rfl)
    (by rw [dotProduct_ofRat]; norm_num) (by rw [dotProduct_ofRat]; norm_num) (by norm_num)
    ⟨by norm_num, hK, by rw [hK]; exact exampleGlobals_sqrtf_sq (12 / 13) (by norm_num)⟩).2.1

/-! ## Termination of the recursive integrator -/

theorem castRayMeasure_succ (scene : Scene) (depth : Int) (h : ¬ depth > scene.maxDepth) :
    castRayMeasure scene (depth + 1) + 1 = castRayMeasure scene depth := by
  unfold castRayMeasure
  have h' : depth ≤ scene.maxDepth := not_lt.mp h
  omega

theorem castRayFuel_reflection {G : Globals} {scene : Scene} (fuel : Nat)
    {orig dir : Vector3f} {depth : Int} {payload : hit_payload}
    (hd : ¬ depth > scene.maxDepth) (hhit : trace G orig dir scene.objects = some payload)
    (hmat : payload.hit_obj.materialType = MaterialType.REFLECTION) :
    castRayFuel G scene (fuel + 1) orig dir depth =
      (castRayFuel G scene fuel
        (if Flt.lt (dotProduct (reflect dir (payload.hit_obj.getSurfaceProperties (orig + dir.scale payload.tNear) dir
          payload.index payload.uv).1) (payload.hit_obj.getSurfaceProperties (orig + dir.scale payload.tNear) dir
          payload.index payload.uv).1) (Flt.fin 0)
        then (orig + dir.scale payload.tNear) + (payload.hit_obj.getSurfaceProperties (orig + dir.scale payload.tNear) dir
          payload.index payload.uv).1.scale scene.epsilon
        else (orig + dir.scale payload.tNear) - (payload.hit_obj.getSurfaceProperties (orig + dir.scale payload.tNear) dir
          payload.index payload.uv).1.scale scene.epsilon)
        (reflect dir (payload.hit_obj.getSurfaceProperties (orig + dir.scale payload.tNear) dir
          payload.index payload.uv).1) (depth + 1)).map
        (fun c => c.scale (fresnel G dir (payload.hit_obj.getSurfaceProperties (orig + dir.scale payload.tNear) dir
          payload.index payload.uv).1 payload.hit_obj.ior)) := by
  rw [castRayFuel]
  simp only [hd, hhit, hmat, if_false]
  cases castRayFuel G scene fuel _ _ (depth + 1) <;> rfl

theorem castRayFuel_refraction {G : Globals} {scene : Scene} (fuel : Nat)
    {orig dir : Vector3f} {depth : Int} {payload : hit_payload}
    (hd : ¬ depth > scene.maxDepth) (hhit : trace G orig dir scene.objects = some payload)
    (hmat : payload.hit_obj.materialType = MaterialType.REFLECTION_AND_REFRACTION) :
    castRayFuel G scene (fuel + 1) orig dir depth =
      (castRayFuel G scene fuel
        (if Flt.lt (dotProduct (normalizeG G (reflect dir (payload.hit_obj.getSurfaceProperties (orig + dir.scale payload.tNear) dir
          payload.index payload.uv).1)) (payload.hit_obj.getSurfaceProperties (orig + dir.scale payload.tNear) dir
          payload.index payload.uv).1) (Flt.fin 0)
        then (orig + dir.scale payload.tNear) - (payload.hit_obj.getSurfaceProperties (orig + dir.scale payload.tNear) dir
          payload.index payload.uv).1.scale scene.epsilon
        else (orig + dir.scale payload.tNear) + (payload.hit_obj.getSurfaceProperties (orig + dir.scale payload.tNear) dir
          payload.index payload.uv).1.scale scene.epsilon)
        (normalizeG G (reflect dir (payload.hit_obj.getSurfaceProperties (orig + dir.scale payload.tNear) dir
          payload.index payload.uv).1)) (depth + 1)).bind
        (fun reflectionColor =>
          (castRayFuel G scene fuel
            (if Flt.lt (dotProduct (normalizeG G (refract G dir (payload.hit_obj.getSurfaceProperties (orig + dir.scale payload.tNear) dir
          payload.index payload.uv).1 payload.hit_obj.ior)) (payload.hit_obj.getSurfaceProperties (orig + dir.scale payload.tNear) dir
          payload.index payload.uv).1) (Flt.fin 0)
        then (orig + dir.scale payload.tNear) - (payload.hit_obj.getSurfaceProperties (orig + dir.scale payload.tNear) dir
          payload.index payload.uv).1.scale scene.epsilon
        else (orig + dir.scale payload.tNear) + (payload.hit_obj.getSurfaceProperties (orig + dir.scale payload.tNear) dir
          payload.index payload.uv).1.scale scene.epsilon)
            (normalizeG G (refract G dir (payload.hit_obj.getSurfaceProperties (orig + dir.scale payload.tNear) dir
          payload.index payload.uv).1 payload.hit_obj.ior)) (depth + 1)).map
            (fun refractionColor =>
              reflectionColor.scale (fresnel G dir (payload.hit_obj.getSurfaceProperties (orig + dir.scale payload.tNear) dir
          payload.index payload.uv).1 payload.hit_obj.ior) +
                refractionColor.scale (Flt.fin 1 - (fresnel G dir (payload.hit_obj.getSurfaceProperties (orig + dir.scale payload.tNear) dir
          payload.index payload.uv).1 payload.hit_obj.ior)))) := by
  rw [castRayFuel]
  simp only [hd, hhit, hmat, if_false]
  cases castRayFuel G scene fuel
      (if Flt.lt (dotProduct (normalizeG G (reflect dir (payload.hit_obj.getSurfaceProperties (orig + dir.scale payload.tNear) dir
          payload.index payload.uv).1)) (payload.hit_obj.getSurfaceProperties (orig + dir.scale payload.tNear) dir
          payload.index payload.uv).1) (Flt.fin 0)
        then (orig + dir.scale payload.tNear) - (payload.hit_obj.getSurfaceProperties (orig + dir.scale payload.tNear) dir
          payload.index payload.uv).1.scale scene.epsilon
        else (orig + dir.scale payload.tNear) + (payload.hit_obj.getSurfaceProperties (orig + dir.scale payload.tNear) dir
          payload.index payload.uv).1.scale scene.epsilon)
      (normalizeG G (reflect dir (payload.hit_obj.getSurfaceProperties (orig + dir.scale payload.tNear) dir
          payload.index payload.uv).1)) (depth + 1) <;>
    cases castRayFuel G scene fuel
      (if Flt.lt (dotProduct (normalizeG G (refract G dir (payload.hit_obj.getSurfaceProperties (orig + dir.scale payload.tNear) dir
          payload.index payload.uv).1 payload.hit_obj.ior)) (payload.hit_obj.getSurfaceProperties (orig + dir.scale payload.tNear) dir
          payload.index payload.uv).1) (Flt.fin 0)
        then (orig + dir.scale payload.tNear) - (payload.hit_obj.getSurfaceProperties (orig + dir.scale payload.tNear) dir
          payload.index payload.uv).1.scale scene.epsilon
        else (orig + dir.scale payload.tNear) + (payload.hit_obj.getSurfaceProperties (orig + dir.scale payload.tNear) dir
          payload.index payload.uv).1.scale scene.epsilon)
      (normalizeG G (refract G dir (payload.hit_obj.getSurfaceProperties (orig + dir.scale payload.tNear) dir
          payload.index payload.uv).1 payload.hit_obj.ior)) (depth + 1) <;> rfl

theorem castRayFuel_stable (G : Globals) (scene : Scene) :
    ∀ (fuel : Nat) (orig dir : Vector3f) (depth : Int), castRayMeasure scene depth < fuel →
      castRayFuel G scene (fuel + 1) orig dir depth = castRayFuel G scene fuel orig dir depth ∧
        (castRayFuel G scene fuel orig dir depth).isSome = true := by
  intro fuel
  induction fuel with
  | zero => intro orig dir depth h; exact absurd h (Nat.not_lt_zero _)
  | succ n ih =>
    intro orig dir depth hm
    by_cases hd : depth > scene.maxDepth
    · simp [castRayFuel, hd]
    · have hrec : castRayMeasure scene (depth + 1) < n := by
        have := castRayMeasure_succ scene depth hd
        omega
      have key : ∀ o d : Vector3f,
          castRayFuel G scene (n + 1) o d (depth + 1) = castRayFuel G scene n o d (depth + 1) ∧
            (castRayFuel G scene n o d (depth + 1)).isSome = true :=
        fun o d => ih o d (depth + 1) hrec
      cases ht : trace G orig dir scene.objects with
      | none => simp [castRayFuel, hd, ht]
      | some payload =>
        cases hmat : payload.hit_obj.materialType with
        | DIFFUSE_AND_GLOSSY => simp [castRayFuel, hd, ht, hmat]
        | REFLECTION =>
          rw [castRayFuel_reflection (n + 1) hd ht hmat, castRayFuel_reflection n hd ht hmat,
            (key _ _).1]
          refine ⟨rfl, ?_⟩
          obtain ⟨c, hc⟩ := Option.isSome_iff_exists.mp (key _ _).2
          rw [hc]
          rfl
        | REFLECTION_AND_REFRACTION =>
          rw [castRayFuel_refraction (n + 1) hd ht hmat, castRayFuel_refraction n hd ht hmat,
            (key _ _).1, (key _ _).1]
          refine ⟨rfl, ?_⟩
          obtain ⟨x, hx⟩ := Option.isSome_iff_exists.mp (key _ _).2
          rw [hx]
          obtain ⟨y, hy⟩ := Option.isSome_iff_exists.mp (key _ _).2
          rw [Option.some_bind, hy]
          rfl

theorem castRayFuel_enough (G : Globals) (scene : Scene) (orig dir : Vector3f) (depth : Int) :
    ∀ k : Nat, castRayFuel G scene (castRayMeasure scene depth + 1 + k) orig dir depth =
      castRayFuel G scene (castRayMeasure scene depth + 1) orig dir depth := by
  intro k
  induction k with
  | zero => rfl
  | succ k ih =>
    rw [← ih]
    exact (castRayFuel_stable G scene (castRayMeasure scene depth + 1 + k) orig dir depth
      (by omega)).1

/-- C18: `castRay` terminates for every scene, ray and depth: with any amount of fuel above
the measure `maxDepth + 1 − depth` the bounded evaluation returns a result, the same for
every such amount, namely the value of the total function `castRay`; a call with
`depth > maxDepth` returns without recursing, and the recursive calls, made with
`depth + 1`, have a strictly smaller measure. -/
theorem castRay_terminates (G : Globals) (scene : Scene) (orig dir : Vector3f) (depth : Int) :
    (∀ fuel : Nat, castRayMeasure scene depth < fuel →
      castRayFuel G scene fuel orig dir depth = some (castRay G scene orig dir depth)) ∧
    (depth > scene.maxDepth → castRayFuel G scene 1 orig dir depth = some Vector3f.zero) ∧
    (depth ≤ scene.maxDepth →
      castRayMeasure scene (depth + 1) < castRayMeasure scene depth) := by
  refine ⟨?_, ?_, ?_⟩
  · intro fuel hf
    obtain ⟨k, rfl⟩ : ∃ k, fuel = castRayMeasure scene depth + 1 + k :=
      ⟨fuel - (castRayMeasure scene depth + 1), by omega⟩
    rw [castRayFuel_enough]
    have hs := (castRayFuel_stable G scene (castRayMeasure scene depth + 1) orig dir depth
      (by omega)).2
    obtain ⟨c, hc⟩ := Option.isSome_iff_exists.mp hs
    simp [castRay, hc]
  · intro h
    exact castRayFuel_beyond 0 orig dir h
  · intro h
    have := castRayMeasure_succ scene depth (not_lt.mpr h)
    omega

/-- Witness for C18: in `shadowScene` (`maxDepth = 5`) ten units of fuel evaluate the call
at depth 0. -/
theorem castRay_terminates_witness :
    castRayFuel exampleGlobals shadowScene 10 Vector3f.zero (Vector3f.ofRat 0 0 (-1)) 0 =
      some (castRay exampleGlobals shadowScene Vector3f.zero (Vector3f.ofRat 0 0 (-1)) 0) :=
  (castRay_terminates exampleGlobals shadowScene Vector3f.zero (Vector3f.ofRat 0 0 (-1)) 0).1 10
    (by simp [castRayMeasure, shadowScene])

end Whitted

/-! ## The band renderer -/

theorem length_rowLoop {α : Type} (pixel : Nat → Nat → α) (j : Nat) :
    ∀ n i : Nat, (rowLoop pixel j n i).length = n := by
  intro n
  induction n with
  | zero => intro i; rfl
  | succ n ih => intro i; simp [rowLoop, ih]

theorem length_bandLoop {α : Type} (pixel : Nat → Nat → α) (width : Nat) :
    ∀ n j : Nat, (bandLoop pixel width n j).length = width * n := by
  intro n
  induction n with
  | zero => intro j; rfl
  | succ n ih =>
    intro j
    simp only [bandLoop, List.length_append, length_rowLoop, ih]
    ring

theorem bandLoop_add {α : Type} (pixel : Nat → Nat → α) (width : Nat) :
    ∀ m n j : Nat,
      bandLoop pixel width (m + n) j = bandLoop pixel width m j ++ bandLoop pixel width n (j + m) := by
  intro m
  induction m with
  | zero => intro n j; simp [bandLoop]
  | succ m ih =>
    intro n j
    have h : m + 1 + n = (m + n) + 1 := by omega
    rw [h]
    simp only [bandLoop, ih, List.append_assoc]
    have h2 : j + 1 + m = j + (m + 1) := by omega
    rw [h2]

theorem gatherLoop_bands {α : Type} (pixel : Nat → Nat → α) (width n_row : Nat) :
    ∀ k t : Nat,
      gatherLoop (fun t => bandLoop pixel width n_row (n_row * t)) k t =
        bandLoop pixel width (n_row * k) (n_row * t) := by
  intro k
  induction k with
  | zero => intro t; rfl
  | succ k ih =>
    intro t
    simp only [gatherLoop, ih]
    have h : n_row * (k + 1) = n_row + n_row * k := by ring
    rw [h, bandLoop_add]
    have h2 : n_row * (t + 1) = n_row * t + n_row := by ring
    rw [h2]

theorem rowLoop_getElem {α : Type} (pixel : Nat → Nat → α) (j : Nat) :
    ∀ n i k : Nat, k < n → (rowLoop pixel j n i)[k]? = some (pixel (i + k) j) := by
  intro n
  induction n with
  | zero => intro i k h; exact absurd h (Nat.not_lt_zero _)
  | succ n ih =>
    intro i k h
    cases k with
    | zero => simp [rowLoop]
    | succ k =>
      simp only [rowLoop, List.getElem?_cons_succ]
      rw [ih (i + 1) k (by omega)]
      congr 2
      omega

theorem bandLoop_getElem {α : Type} (pixel : Nat → Nat → α) (width : Nat) :
    ∀ n j r i : Nat, i < width → r < n →
      (bandLoop pixel width n j)[r * width + i]? = some (pixel i (j + r)) := by
  intro n
  induction n with
  | zero => intro j r i _ h; exact absurd h (Nat.not_lt_zero _)
  | succ n ih =>
    intro j r i hi hr
    simp only [bandLoop]
    cases r with
    | zero =>
      rw [List.getElem?_append_left (by rw [length_rowLoop]; omega)]
      rw [Nat.zero_mul, Nat.zero_add, rowLoop_getElem pixel j width 0 i hi]
      simp
    | succ r =>
      have hge : (rowLoop pixel j width 0).length ≤ (r + 1) * width + i := by
        rw [length_rowLoop]; nlinarith
      rw [List.getElem?_append_right hge, length_rowLoop]
      have hsub : (r + 1) * width + i - width = r * width + i := by
        have : (r + 1) * width = r * width + width := by ring
        omega
      rw [hsub, ih (j + 1) r i hi (by omega)]
      congr 2
      omega

theorem RenderBands_eq {α : Type} (pixel : Nat → Nat → α) (width height n_thrd : Nat) :
    RenderBands pixel width height n_thrd =
      bandLoop pixel width (height / n_thrd * n_thrd) 0 := by
  unfold RenderBands assembleFramebuffer
  rw [gatherLoop_bands, Nat.mul_zero]

/-- C19: the framebuffer assembled by `Renderer::Render` has
`width · (height / n_thrd) · n_thrd` entries; with the 15 workers of `hw6` and a scene of
width 4 and height 16 it has 60 entries and no entry at index 60, although the
serialisation loop reads the indices below `width · height = 64`; likewise with the 16
workers of `hw7` and height 17. -/
theorem RenderBands_misses_rows (pixel : Nat → Nat → Vector3f) :
    (∀ width height n_thrd : Nat,
      (RenderBands pixel width height n_thrd).length = width * (height / n_thrd * n_thrd)) ∧
    (RenderBands pixel 4 16 n_thrd_hw6).length = 60 ∧
    (RenderBands pixel 4 16 n_thrd_hw6)[60]? = none ∧
    (RenderBands pixel 4 17 n_thrd_hw7).length = 64 ∧
    (RenderBands pixel 4 17 n_thrd_hw7)[64]? = none := by
  have hlen : ∀ width height n_thrd : Nat,
      (RenderBands pixel width height n_thrd).length = width * (height / n_thrd * n_thrd) := by
    intro width height n_thrd
    rw [RenderBands_eq, length_bandLoop]
  have h6 : (RenderBands pixel 4 16 n_thrd_hw6).length = 60 := by
    rw [hlen]; simp [n_thrd_hw6]
  have h7 : (RenderBands pixel 4 17 n_thrd_hw7).length = 64 := by
    rw [hlen]; simp [n_thrd_hw7]
  refine ⟨hlen, h6, ?_, h7, ?_⟩
  · exact List.getElem?_eq_none (by rw [h6])
  · exact List.getElem?_eq_none (by rw [h7])

namespace Whitted

/-- C20: for every scene and every worker count `n_thrd` dividing `scene.height`,
concatenating `RenderKernel(scene, eye, n_row, n_row·t, t)` for `t = 0 .. n_thrd−1` in band
order equals the single-band render `RenderKernel(scene, eye, height, 0, 0)`, and entry
`j·width + i` of the merged framebuffer is `castRay` for the primary ray through pixel
`(i, j)`. -/
theorem Render_eq_single_band (G : Globals) (scene : Scene) (eye_pos : Vector3f)
    (n_thrd : Nat) (hdvd : n_thrd ∣ scene.height) :
    assembleFramebuffer (RenderKernel G scene eye_pos) scene.height n_thrd =
      RenderKernel G scene eye_pos scene.height 0 0 ∧
    Render G scene n_thrd = RenderKernel G scene Vector3f.zero scene.height 0 0 ∧
    (∀ i j : Nat, i < scene.width → j < scene.height →
      (assembleFramebuffer (RenderKernel G scene eye_pos) scene.height n_thrd)[
          j * scene.width + i]? =
        some (castRay G scene eye_pos (primaryDir G scene i j) 0)) := by
  have hrows : scene.height / n_thrd * n_thrd = scene.height := Nat.div_mul_cancel hdvd
  have key : ∀ eye : Vector3f,
      assembleFramebuffer (RenderKernel G scene eye) scene.height n_thrd =
        RenderKernel G scene eye scene.height 0 0 := by
    intro eye
    unfold assembleFramebuffer RenderKernel
    rw [gatherLoop_bands, Nat.mul_zero, hrows]
  refine ⟨key eye_pos, key Vector3f.zero, ?_⟩
  intro i j hi hj
  rw [key eye_pos]
  unfold RenderKernel
  rw [bandLoop_getElem _ _ _ 0 j i hi hj, Nat.zero_add]

/-- Witness for C20: the white scene of height 2 rendered by two workers. -/
theorem Render_eq_single_band_witness :
    Render exampleGlobals whiteScene 2 =
      RenderKernel exampleGlobals whiteScene Vector3f.zero whiteScene.height 0 0 :=
  (Render_eq_single_band exampleGlobals whiteScene Vector3f.zero 2
    (by simp [whiteScene])).2.1

end Whitted

/-! ## Bounding-box utilities: `maxExtent`, constructors, `getBounds`, `Intersect` -/

/-- Claim C26: for a box whose diagonal has no `NaN` component, `maxExtent` returns an axis
index in `{0, 1, 2}` and the diagonal component on that axis is at least the component on
each of the three axes, ties included. -/
theorem maxExtent_is_largest_axis (b : Bounds3) (h : b.Diagonal.isNum = true) :
    (b.maxExtent = 0 ∨ b.maxExtent = 1 ∨ b.maxExtent = 2) ∧
    Flt.ge (b.Diagonal.component b.maxExtent) b.Diagonal.x = true ∧
    Flt.ge (b.Diagonal.component b.maxExtent) b.Diagonal.y = true ∧
    Flt.ge (b.Diagonal.component b.maxExtent) b.Diagonal.z = true := by
  unfold Bounds3.maxExtent
  generalize b.Diagonal = d at h ⊢
  obtain ⟨x, y, z⟩ := d
  simp only [Vector3f.isNum, Bool.and_eq_true] at h
  obtain ⟨⟨hx, hy⟩, hz⟩ := h
  rcases x with x | _ | _ | _ <;> rcases y with y | _ | _ | _ <;>
    rcases z with z | _ | _ | _ <;>
    first
    | (by_cases h1 : y < x <;> by_cases h2 : z < x <;> by_cases h3 : z < y <;>
        simp [Flt.gt, Flt.ge, Flt.lt, Flt.le, Vector3f.component, h1, h2, h3] <;>
        (try constructor) <;> linarith)
    | (simp_all [Flt.isNum, Flt.gt, Flt.ge, Flt.lt, Flt.le, Vector3f.component] <;>
        (try split_ifs) <;> simp_all [Vector3f.component] <;> linarith)

/-- Witness for `maxExtent_is_largest_axis` on the box `[0,1] × [0,2] × [0,2]`. -/
theorem maxExtent_is_largest_axis_witness :
    (Bounds3.mk (Vector3f.ofRat 0 0 0) (Vector3f.ofRat 1 2 2)).Diagonal.isNum = true ∧
    ((Bounds3.mk (Vector3f.ofRat 0 0 0) (Vector3f.ofRat 1 2 2)).maxExtent = 0 ∨
     (Bounds3.mk (Vector3f.ofRat 0 0 0) (Vector3f.ofRat 1 2 2)).maxExtent = 1 ∨
     (Bounds3.mk (Vector3f.ofRat 0 0 0) (Vector3f.ofRat 1 2 2)).maxExtent = 2) :=
  ⟨by simp only [Bounds3.Diagonal, Vector3f.ofRat_sub]; simp [Vector3f.ofRat, Vector3f.isNum,
        Flt.isNum],
   (maxExtent_is_largest_axis _
     (by simp only [Bounds3.Diagonal, Vector3f.ofRat_sub]; simp [Vector3f.ofRat,
        Vector3f.isNum, Flt.isNum])).1⟩


namespace Flt

theorem isNum_of_le_left {a b : Flt} (h : le a b = true) : a.isNum = true := by
  cases a <;> cases b <;> simp_all [le, isNum]

theorem isNum_of_le_right {a b : Flt} (h : le a b = true) : b.isNum = true := by
  cases a <;> cases b <;> simp_all [le, isNum]

theorem le_refl_of_isNum {a : Flt} (h : a.isNum = true) : le a a = true := by
  cases a <;> simp_all [le, isNum]

theorem fmin_le_fmax {a b : Flt} (ha : a.isNum = true) (hb : b.isNum = true) :
    le (fmin a b) (fmax a b) = true := by
  cases a <;> cases b <;> simp_all [le, lt, isNum, fmin, fmax]
  split_ifs <;> simp_all [le]

theorem stdMin_le_stdMax_point {l h : Flt} (q : Flt) (hlh : le l h = true) :
    le (stdMin l q) (stdMax h q) = true := by
  cases l <;> cases h <;> cases q <;> simp_all [le, lt, stdMin, stdMax] <;>
    split_ifs <;> simp_all [le]

theorem stdMin_le_stdMax_empty {q : Flt} (hq : q.isNum = true) :
    le (stdMin pinf q) (stdMax ninf q) = true := by
  cases q <;> simp_all [le, lt, stdMin, stdMax, isNum]

theorem fmin_fin (a b : ℚ) : fmin (fin a) (fin b) = fin (min a b) := by
  simp only [fmin, lt]
  by_cases h : b < a
  · simp [h, min_eq_right h.le]
  · simp [h, min_eq_left (not_lt.mp h)]

theorem fmax_fin (a b : ℚ) : fmax (fin a) (fin b) = fin (max a b) := by
  simp only [fmax, lt]
  by_cases h : a < b
  · simp [h, max_eq_right h.le]
  · simp [h, max_eq_left (not_lt.mp h)]

end Flt

/-- Claim C27: componentwise `pMin ≤ pMax` holds for `Bounds3(p)` and `Bounds3(p1, p2)` built
from points without `NaN`, is preserved by `Union(box, box)` and by `Union(box, point)` (for
any point), and holds for `Union(Bounds3(), p)`. -/
theorem WellFormed_constructed_and_preserved (p p1 p2 q : Vector3f) (b1 b2 : Bounds3)
    (hp : p.isNum = true) (hp1 : p1.isNum = true) (hp2 : p2.isNum = true)
    (hb1 : b1.WellFormed = true) (hb2 : b2.WellFormed = true) :
    (Bounds3.ofPoint p).WellFormed = true ∧
    (Bounds3.ofPoints p1 p2).WellFormed = true ∧
    (Union b1 b2).WellFormed = true ∧
    (UnionPoint b1 q).WellFormed = true ∧
    (UnionPoint Bounds3.empty p).WellFormed = true := by
  simp only [Vector3f.isNum, Bounds3.WellFormed, Bool.and_eq_true] at hp hp1 hp2 hb1 hb2
  obtain ⟨⟨hpx, hpy⟩, hpz⟩ := hp
  obtain ⟨⟨h1x, h1y⟩, h1z⟩ := hp1
  obtain ⟨⟨h2x, h2y⟩, h2z⟩ := hp2
  obtain ⟨⟨b1x, b1y⟩, b1z⟩ := hb1
  obtain ⟨⟨b2x, b2y⟩, b2z⟩ := hb2
  have key : ∀ {l1 h1 l2 h2 : Flt}, Flt.le l1 h1 = true → Flt.le l2 h2 = true →
      Flt.le (Flt.stdMin l1 l2) (Flt.stdMax h1 h2) = true := by
    intro l1 h1 l2 h2 e1 e2
    exact Flt.le_trans'
      (Flt.le_trans'
        (Flt.stdMin_le_left (Flt.isNum_of_le_left e1) (Flt.isNum_of_le_left e2)) e1)
      (Flt.le_stdMax_left (Flt.isNum_of_le_right e1) (Flt.isNum_of_le_right e2))
  refine ⟨?_, ?_, ?_, ?_, ?_⟩
  · simp [Bounds3.WellFormed, Bounds3.ofPoint, Flt.le_refl_of_isNum, hpx, hpy, hpz]
  · simp [Bounds3.WellFormed, Bounds3.ofPoints, Flt.fmin_le_fmax, h1x, h1y, h1z, h2x, h2y, h2z]
  · simp [Bounds3.WellFormed, Union, Vector3f.Min, Vector3f.Max, key, b1x, b1y, b1z, b2x, b2y,
      b2z]
  · simp [Bounds3.WellFormed, UnionPoint, Vector3f.Min, Vector3f.Max,
      Flt.stdMin_le_stdMax_point, b1x, b1y, b1z]
  · simp [Bounds3.WellFormed, UnionPoint, Vector3f.Min, Vector3f.Max, Bounds3.empty,
      Flt.stdMin_le_stdMax_empty, hpx, hpy, hpz]

/-- Witness for `WellFormed_constructed_and_preserved` on the points `(0,0,0)`, `(1,2,3)` and
the unit box. -/
theorem WellFormed_constructed_and_preserved_witness :
    (Bounds3.ofPoints (Vector3f.ofRat 1 2 3) (Vector3f.ofRat 0 0 0)).WellFormed = true ∧
    (UnionPoint Bounds3.empty (Vector3f.ofRat 0 0 0)).WellFormed = true :=
  have h := WellFormed_constructed_and_preserved (Vector3f.ofRat 0 0 0) (Vector3f.ofRat 1 2 3)
    (Vector3f.ofRat 0 0 0) (Vector3f.ofRat 5 5 5)
    ⟨Vector3f.ofRat 0 0 0, Vector3f.ofRat 1 1 1⟩ ⟨Vector3f.ofRat 0 0 0, Vector3f.ofRat 1 1 1⟩
    (by simp [Vector3f.ofRat, Vector3f.isNum, Flt.isNum])
    (by simp [Vector3f.ofRat, Vector3f.isNum, Flt.isNum])
    (by simp [Vector3f.ofRat, Vector3f.isNum, Flt.isNum])
    (by simp [Vector3f.ofRat, Bounds3.WellFormed, Flt.le])
    (by simp [Vector3f.ofRat, Bounds3.WellFormed, Flt.le])
  ⟨h.2.1, h.2.2.2.2⟩


/-- On rational vertices `getBounds` is the box of the per-axis minima and maxima. -/
theorem getBounds_ofRat (a1 a2 a3 b1 b2 b3 c1 c2 c3 : ℚ) (e1 e2 n : Vector3f)
    (m : Option Nat) :
    Triangle.getBounds ⟨Vector3f.ofRat a1 a2 a3, Vector3f.ofRat b1 b2 b3,
        Vector3f.ofRat c1 c2 c3, e1, e2, n, m⟩ =
      ⟨Vector3f.ofRat (min (min a1 b1) c1) (min (min a2 b2) c2) (min (min a3 b3) c3),
       Vector3f.ofRat (max (max a1 b1) c1) (max (max a2 b2) c2) (max (max a3 b3) c3)⟩ := by
  simp [Triangle.getBounds, UnionPoint, Bounds3.ofPoints, Vector3f.Min, Vector3f.Max,
    Vector3f.ofRat, Flt.fmin_fin, Flt.fmax_fin, Flt.stdMin_fin, Flt.stdMax_fin]

/-- A convex combination of three rationals lies between their minimum and maximum. -/
theorem convex_between (a b c u v : ℚ) (hu : 0 ≤ u) (hv : 0 ≤ v) (huv : u + v ≤ 1) :
    min (min a b) c ≤ a * (1 - u - v) + b * u + c * v ∧
    a * (1 - u - v) + b * u + c * v ≤ max (max a b) c := by
  have hw : 0 ≤ 1 - u - v := by linarith
  have la : min (min a b) c ≤ a := le_trans (min_le_left _ _) (min_le_left _ _)
  have lb : min (min a b) c ≤ b := le_trans (min_le_left _ _) (min_le_right _ _)
  have lc : min (min a b) c ≤ c := min_le_right _ _
  have ua : a ≤ max (max a b) c := le_trans (le_max_left _ _) (le_max_left _ _)
  have ub : b ≤ max (max a b) c := le_trans (le_max_right _ _) (le_max_left _ _)
  have uc : c ≤ max (max a b) c := le_max_right _ _
  constructor
  · nlinarith [mul_nonneg hw (sub_nonneg.mpr la), mul_nonneg hu (sub_nonneg.mpr lb),
      mul_nonneg hv (sub_nonneg.mpr lc)]
  · nlinarith [mul_nonneg hw (sub_nonneg.mpr ua), mul_nonneg hu (sub_nonneg.mpr ub),
      mul_nonneg hv (sub_nonneg.mpr uc)]

theorem isMinOf3_fin (a b c : ℚ) :
    Flt.isMinOf3 (Flt.fin (min (min a b) c)) (Flt.fin a) (Flt.fin b) (Flt.fin c) = true := by
  have la : min (min a b) c ≤ a := le_trans (min_le_left _ _) (min_le_left _ _)
  have lb : min (min a b) c ≤ b := le_trans (min_le_left _ _) (min_le_right _ _)
  have lc : min (min a b) c ≤ c := min_le_right _ _
  have h : min (min a b) c = a ∨ min (min a b) c = b ∨ min (min a b) c = c := by
    rcases min_choice (min a b) c with h | h
    · rcases min_choice a b with h2 | h2
      · left; rw [h, h2]
      · right; left; rw [h, h2]
    · right; right; exact h
  simp only [Flt.isMinOf3, Flt.eq, Flt.le, Bool.and_eq_true, Bool.or_eq_true, decide_eq_true_eq]
  exact ⟨⟨⟨by tauto, la⟩, lb⟩, lc⟩

theorem isMaxOf3_fin (a b c : ℚ) :
    Flt.isMaxOf3 (Flt.fin (max (max a b) c)) (Flt.fin a) (Flt.fin b) (Flt.fin c) = true := by
  have ua : a ≤ max (max a b) c := le_trans (le_max_left _ _) (le_max_left _ _)
  have ub : b ≤ max (max a b) c := le_trans (le_max_right _ _) (le_max_left _ _)
  have uc : c ≤ max (max a b) c := le_max_right _ _
  have h : max (max a b) c = a ∨ max (max a b) c = b ∨ max (max a b) c = c := by
    rcases max_choice (max a b) c with h | h
    · rcases max_choice a b with h2 | h2
      · left; rw [h, h2]
      · right; left; rw [h, h2]
    · right; right; exact h
  simp only [Flt.isMaxOf3, Flt.eq, Flt.le, Bool.and_eq_true, Bool.or_eq_true, decide_eq_true_eq]
  exact ⟨⟨⟨by tauto, ua⟩, ub⟩, uc⟩

/-- Claim C28: for a triangle with finite vertices, `getBounds` contains every point
`(1-u-v)·v0 + u·v1 + v·v2` with `u, v ≥ 0`, `u + v ≤ 1`, and on each axis its `pMin` and
`pMax` are the minimum and the maximum of the three vertex coordinates. -/
theorem getBounds_contains_triangle_and_tight (tri : Triangle)
    (h0 : tri.v0.isFinite = true) (h1 : tri.v1.isFinite = true) (h2 : tri.v2.isFinite = true) :
    (∀ u v : ℚ, 0 ≤ u → 0 ≤ v → u + v ≤ 1 →
      Bounds3.Inside
        (tri.v0.scale (Flt.fin (1 - u - v)) + tri.v1.scale (Flt.fin u) +
          tri.v2.scale (Flt.fin v)) tri.getBounds = true) ∧
    Flt.isMinOf3 tri.getBounds.pMin.x tri.v0.x tri.v1.x tri.v2.x = true ∧
    Flt.isMinOf3 tri.getBounds.pMin.y tri.v0.y tri.v1.y tri.v2.y = true ∧
    Flt.isMinOf3 tri.getBounds.pMin.z tri.v0.z tri.v1.z tri.v2.z = true ∧
    Flt.isMaxOf3 tri.getBounds.pMax.x tri.v0.x tri.v1.x tri.v2.x = true ∧
    Flt.isMaxOf3 tri.getBounds.pMax.y tri.v0.y tri.v1.y tri.v2.y = true ∧
    Flt.isMaxOf3 tri.getBounds.pMax.z tri.v0.z tri.v1.z tri.v2.z = true := by
  obtain ⟨v0, v1, v2, e1, e2, n, m⟩ := tri
  simp only at h0 h1 h2
  obtain ⟨a1, a2, a3, rfl⟩ := Vector3f.exists_ofRat_of_isFinite h0
  obtain ⟨b1, b2, b3, rfl⟩ := Vector3f.exists_ofRat_of_isFinite h1
  obtain ⟨c1, c2, c3, rfl⟩ := Vector3f.exists_ofRat_of_isFinite h2
  rw [getBounds_ofRat]
  refine ⟨?_, ?_, ?_, ?_, ?_, ?_, ?_⟩
  · intro u v hu hv huv
    simp only [Vector3f.ofRat_scale, Vector3f.ofRat_add]
    rw [Inside_ofRat]
    exact ⟨convex_between a1 b1 c1 u v hu hv huv, convex_between a2 b2 c2 u v hu hv huv,
      convex_between a3 b3 c3 u v hu hv huv⟩
  · exact isMinOf3_fin a1 b1 c1
  · exact isMinOf3_fin a2 b2 c2
  · exact isMinOf3_fin a3 b3 c3
  · exact isMaxOf3_fin a1 b1 c1
  · exact isMaxOf3_fin a2 b2 c2
  · exact isMaxOf3_fin a3 b3 c3

/-- Witness for `getBounds_contains_triangle_and_tight` on `unitTriangle`. -/
theorem getBounds_contains_triangle_and_tight_witness :
    unitTriangle.v0.isFinite = true ∧
    Flt.isMinOf3 unitTriangle.getBounds.pMin.x unitTriangle.v0.x unitTriangle.v1.x
      unitTriangle.v2.x = true :=
  ⟨by rfl, (getBounds_contains_triangle_and_tight unitTriangle (by rfl) (by rfl) (by rfl)).2.1⟩


/-- On rational corners `Intersect` re-sorts the two corner points it computed: the result
spans from the smaller to the larger of `max(lows)` and `min(highs)` on each axis. -/
theorem Intersect_ofRat (l1 l2 l3 h1 h2 h3 m1 m2 m3 k1 k2 k3 : ℚ) :
    Bounds3.Intersect ⟨Vector3f.ofRat l1 l2 l3, Vector3f.ofRat h1 h2 h3⟩
        ⟨Vector3f.ofRat m1 m2 m3, Vector3f.ofRat k1 k2 k3⟩ =
      ⟨Vector3f.ofRat (min (max l1 m1) (min h1 k1)) (min (max l2 m2) (min h2 k2))
          (min (max l3 m3) (min h3 k3)),
       Vector3f.ofRat (max (max l1 m1) (min h1 k1)) (max (max l2 m2) (min h2 k2))
          (max (max l3 m3) (min h3 k3))⟩ := by
  simp [Bounds3.Intersect, Bounds3.ofPoints, Vector3f.ofRat, Flt.fmin_fin, Flt.fmax_fin]

/-- For boxes that overlap on every axis (`max(lows) ≤ min(highs)`), a point is inside
`Intersect` exactly when it is inside both boxes. -/
theorem Intersect_inside_iff_of_overlap (l1 l2 l3 h1 h2 h3 m1 m2 m3 k1 k2 k3 p1 p2 p3 : ℚ)
    (o1 : max l1 m1 ≤ min h1 k1) (o2 : max l2 m2 ≤ min h2 k2) (o3 : max l3 m3 ≤ min h3 k3) :
    Bounds3.Inside (Vector3f.ofRat p1 p2 p3)
        (Bounds3.Intersect ⟨Vector3f.ofRat l1 l2 l3, Vector3f.ofRat h1 h2 h3⟩
          ⟨Vector3f.ofRat m1 m2 m3, Vector3f.ofRat k1 k2 k3⟩) = true ↔
      (Bounds3.Inside (Vector3f.ofRat p1 p2 p3)
          ⟨Vector3f.ofRat l1 l2 l3, Vector3f.ofRat h1 h2 h3⟩ = true ∧
        Bounds3.Inside (Vector3f.ofRat p1 p2 p3)
          ⟨Vector3f.ofRat m1 m2 m3, Vector3f.ofRat k1 k2 k3⟩ = true) := by
  rw [Intersect_ofRat, Inside_ofRat, Inside_ofRat, Inside_ofRat, min_eq_left o1, min_eq_left o2,
    min_eq_left o3, max_eq_right o1, max_eq_right o2, max_eq_right o3]
  simp only [max_le_iff, le_min_iff]
  tauto

/-- Claim C29 (divergence): for the disjoint boxes `[0,1]³` and `[2,3]³`, both with
`pMin ≤ pMax`, `Intersect` returns the box `[1,2]³` of the gap between them, which contains
the point `(3/2, 3/2, 3/2)` although that point is inside neither box. -/
theorem Intersect_of_disjoint_boxes_contains_gap :
    (Bounds3.mk (Vector3f.ofRat 0 0 0) (Vector3f.ofRat 1 1 1)).WellFormed = true ∧
    (Bounds3.mk (Vector3f.ofRat 2 2 2) (Vector3f.ofRat 3 3 3)).WellFormed = true ∧
    Bounds3.Intersect ⟨Vector3f.ofRat 0 0 0, Vector3f.ofRat 1 1 1⟩
        ⟨Vector3f.ofRat 2 2 2, Vector3f.ofRat 3 3 3⟩ =
      ⟨Vector3f.ofRat 1 1 1, Vector3f.ofRat 2 2 2⟩ ∧
    Bounds3.Inside (Vector3f.ofRat (3/2) (3/2) (3/2))
        (Bounds3.Intersect ⟨Vector3f.ofRat 0 0 0, Vector3f.ofRat 1 1 1⟩
          ⟨Vector3f.ofRat 2 2 2, Vector3f.ofRat 3 3 3⟩) = true ∧
    Bounds3.Inside (Vector3f.ofRat (3/2) (3/2) (3/2))
        ⟨Vector3f.ofRat 0 0 0, Vector3f.ofRat 1 1 1⟩ = false ∧
    Bounds3.Inside (Vector3f.ofRat (3/2) (3/2) (3/2))
        ⟨Vector3f.ofRat 2 2 2, Vector3f.ofRat 3 3 3⟩ = false := by
  refine ⟨by norm_num [Bounds3.WellFormed, Vector3f.ofRat, Flt.le],
    by norm_num [Bounds3.WellFormed, Vector3f.ofRat, Flt.le], ?_, ?_, ?_, ?_⟩
  · rw [Intersect_ofRat]; norm_num
  · rw [Intersect_ofRat, Inside_ofRat]; norm_num
  · rw [← Bool.not_eq_true, Inside_ofRat]; norm_num
  · rw [← Bool.not_eq_true, Inside_ofRat]; norm_num


namespace Whitted

/-! ## The mirror direction `reflect` -/

theorem reflect_ofRat (a b c d e f : ℚ) :
    reflect (Vector3f.ofRat a b c) (Vector3f.ofRat d e f) =
      Vector3f.ofRat (a - d * (2 * (a * d + b * e + c * f)))
        (b - e * (2 * (a * d + b * e + c * f))) (c - f * (2 * (a * d + b * e + c * f))) := by
  simp only [reflect, dotProduct_ofRat, Flt.fin_mul_fin, Vector3f.ofRat_scale,
    Vector3f.ofRat_sub]

/-- Claim C30: for a finite vector `I` and a finite unit vector `N`, `reflect` is an
involution, preserves the squared length, and negates the component along `N`. -/
theorem reflect_involution_isometry (I N : Vector3f) (hI : I.isFinite = true)
    (hN : N.isFinite = true) (hunit : dotProduct N N = Flt.fin 1) :
    reflect (reflect I N) N = I ∧
    dotProduct (reflect I N) (reflect I N) = dotProduct I I ∧
    dotProduct (reflect I N) N = -dotProduct I N := by
  obtain ⟨a, b, c, rfl⟩ := Vector3f.exists_ofRat_of_isFinite hI
  obtain ⟨d, e, f, rfl⟩ := Vector3f.exists_ofRat_of_isFinite hN
  rw [dotProduct_ofRat, Flt.fin_inj] at hunit
  simp only [reflect_ofRat, dotProduct_ofRat, Flt.neg_fin, Flt.fin_inj, Vector3f.ofRat_inj]
  refine ⟨⟨?_, ?_, ?_⟩, ?_, ?_⟩
  · linear_combination (4 * d * (a * d + b * e + c * f)) * hunit
  · linear_combination (4 * e * (a * d + b * e + c * f)) * hunit
  · linear_combination (4 * f * (a * d + b * e + c * f)) * hunit
  · linear_combination (4 * (a * d + b * e + c * f) ^ 2) * hunit
  · linear_combination (-2 * (a * d + b * e + c * f)) * hunit

/-- Witness for `reflect_involution_isometry` with `I = (1, 2, 3)` and `N = (0, 0, 1)`. -/
theorem reflect_involution_isometry_witness :
    dotProduct (Vector3f.ofRat 0 0 1) (Vector3f.ofRat 0 0 1) = Flt.fin 1 ∧
    reflect (reflect (Vector3f.ofRat 1 2 3) (Vector3f.ofRat 0 0 1)) (Vector3f.ofRat 0 0 1) =
      Vector3f.ofRat 1 2 3 :=
  ⟨by norm_num [dotProduct_ofRat],
   (reflect_involution_isometry (Vector3f.ofRat 1 2 3) (Vector3f.ofRat 0 0 1) (by rfl) (by rfl)
     (by norm_num [dotProduct_ofRat])).1⟩

end Whitted


namespace Flt

theorem lt_trans' {a b c : Flt} (h1 : lt a b = true) (h2 : lt b c = true) :
    lt a c = true := by
  cases a <;> cases b <;> cases c <;> simp_all [lt]
  linarith

theorem lt_of_le_of_lt' {a b c : Flt} (h1 : le a b = true) (h2 : lt b c = true) :
    lt a c = true := by
  cases a <;> cases b <;> cases c <;> simp_all [lt, le]
  linarith

theorem le_eq_false_of_lt {a b : Flt} (h : lt a b = true) : le b a = false := by
  cases a <;> cases b <;> simp_all [lt, le]

end Flt

namespace Whitted

/-! ## The nearest-hit search `trace` -/

/-- The loop of `trace` from a state `(tNear, payload)`: either no remaining object passes
the test and the state's payload is returned, or the payload of one object is returned whose
distance is below the starting `tNear`, strictly below that of every hitting object before
it and not above that of any hitting object after it. -/
theorem traceLoop_spec (G : Globals) (orig dir : Vector3f) (l : List Object) :
    ∀ (t : Flt) (p : Option hit_payload),
      (traceLoop G orig dir l t p = p ∧
        ∀ x ∈ l, ((x.intersect orig dir G.kInfinity).hit &&
          Flt.lt (x.intersect orig dir G.kInfinity).tNear t) = false) ∨
      ∃ pre o post, l = pre ++ o :: post ∧
        (o.intersect orig dir G.kInfinity).hit = true ∧
        Flt.lt (o.intersect orig dir G.kInfinity).tNear t = true ∧
        traceLoop G orig dir l t p = some (payloadOf G orig dir o) ∧
        (∀ x ∈ pre, (x.intersect orig dir G.kInfinity).hit = true →
          Flt.le (x.intersect orig dir G.kInfinity).tNear
            (o.intersect orig dir G.kInfinity).tNear = false) ∧
        (∀ x ∈ post, (x.intersect orig dir G.kInfinity).hit = true →
          Flt.lt (x.intersect orig dir G.kInfinity).tNear
            (o.intersect orig dir G.kInfinity).tNear = false) := by
  induction l with
  | nil => intro t p; left; simp [traceLoop]
  | cons a rest ih =>
    intro t p
    by_cases hc : ((a.intersect orig dir G.kInfinity).hit &&
        Flt.lt (a.intersect orig dir G.kInfinity).tNear t) = true
    · have hstep : traceLoop G orig dir (a :: rest) t p =
          traceLoop G orig dir rest (a.intersect orig dir G.kInfinity).tNear
            (some (payloadOf G orig dir a)) := by
        simp only [traceLoop, hc, if_true, payloadOf]
      simp only [Bool.and_eq_true] at hc
      right
      rcases ih (a.intersect orig dir G.kInfinity).tNear (some (payloadOf G orig dir a)) with
        ⟨he, hall⟩ | ⟨pre, o, post, hl, hhit, hlt, he, hpre, hpost⟩
      · refine ⟨[], a, rest, rfl, hc.1, hc.2, by rw [hstep, he], by simp, ?_⟩
        intro x hx hxhit
        have := hall x hx
        simpa [hxhit] using this
      · refine ⟨a :: pre, o, post, by simp [hl], hhit, Flt.lt_trans' hlt hc.2,
          by rw [hstep, he], ?_, hpost⟩
        intro x hx hxhit
        rcases List.mem_cons.mp hx with rfl | hx
        · exact Flt.le_eq_false_of_lt hlt
        · exact hpre x hx hxhit
    · have hc2 : ((a.intersect orig dir G.kInfinity).hit &&
          Flt.lt (a.intersect orig dir G.kInfinity).tNear t) = false := by
        simpa using hc
      have hstep : traceLoop G orig dir (a :: rest) t p = traceLoop G orig dir rest t p := by
        simp only [traceLoop, hc2, Bool.false_eq_true, if_false]
      rcases ih t p with ⟨he, hall⟩ | ⟨pre, o, post, hl, hhit, hlt, he, hpre, hpost⟩
      · left
        refine ⟨by rw [hstep, he], ?_⟩
        intro x hx
        rcases List.mem_cons.mp hx with rfl | hx
        · exact hc2
        · exact hall x hx
      · right
        refine ⟨a :: pre, o, post, by simp [hl], hhit, hlt, by rw [hstep, he], ?_, hpost⟩
        intro x hx hxhit
        rcases List.mem_cons.mp hx with rfl | hx
        · by_contra hle
          have hle2 : Flt.le (x.intersect orig dir G.kInfinity).tNear
              (o.intersect orig dir G.kInfinity).tNear = true := by simpa using hle
          have := Flt.lt_of_le_of_lt' hle2 hlt
          simp [hxhit, this] at hc2
        · exact hpre x hx hxhit

/-- Claim C24: `trace` returns no payload exactly when no object reports an intersection
with distance below `kInfinity`; otherwise the payload is the one of an object that reports
such an intersection, whose distance is strictly smaller than that of every hitting object
earlier in the list and not larger than that of any hitting object later in the list (so
it is the first object attaining the minimum), with `tNear`, `index`, `uv` and `hit_obj`
as reported by that object. -/
theorem trace_first_nearest (G : Globals) (orig dir : Vector3f) (objects : List Object) :
    (trace G orig dir objects = none ↔ ∀ x ∈ objects, reportsHit G orig dir x = false) ∧
    (∀ payload, trace G orig dir objects = some payload →
      ∃ pre o post, objects = pre ++ o :: post ∧ reportsHit G orig dir o = true ∧
        payload = payloadOf G orig dir o ∧
        (∀ x ∈ pre, (x.intersect orig dir G.kInfinity).hit = true →
          Flt.le (x.intersect orig dir G.kInfinity).tNear payload.tNear = false) ∧
        (∀ x ∈ post, (x.intersect orig dir G.kInfinity).hit = true →
          Flt.lt (x.intersect orig dir G.kInfinity).tNear payload.tNear = false)) := by
  unfold trace
  rcases traceLoop_spec G orig dir objects G.kInfinity none with
    ⟨he, hall⟩ | ⟨pre, o, post, hl, hhit, hlt, he, hpre, hpost⟩
  · refine ⟨⟨fun _ => hall, fun _ => he⟩, ?_⟩
    intro payload hp
    rw [he] at hp
    cases hp
  · have hrep : reportsHit G orig dir o = true := by simp [reportsHit, hhit, hlt]
    refine ⟨⟨?_, ?_⟩, ?_⟩
    · intro hn
      rw [he] at hn
      cases hn
    · intro hnone
      have := hnone o (by simp [hl])
      rw [hrep] at this
      cases this
    · intro payload hp
      rw [he] at hp
      cases hp
      exact ⟨pre, o, post, hl, hrep, rfl, hpre, hpost⟩

end Whitted


namespace PathTracer

/-! ## hw7: `sampleLight` and `castRay` -/

theorem castRayFuel_no_material {sqrtf : Flt → Flt} {scene : Scene} (fuel : Nat) (g : Rng)
    {ray : Ray} (depth : Int) (h : (scene.intersect ray).m = none) :
    castRayFuel sqrtf scene (fuel + 1) g ray depth = some (Vector3f.zero, g) := by
  simp only [castRayFuel, h]

theorem castRayFuel_emissive {sqrtf : Flt → Flt} {scene : Scene} (fuel : Nat) (g : Rng)
    {ray : Ray} (depth : Int) {m : Material} (h : (scene.intersect ray).m = some m)
    (he : m.hasEmission = true) :
    castRayFuel sqrtf scene (fuel + 1) g ray depth =
      if depth > 0 then some (Vector3f.zero, g) else some (m.getEmission, g) := by
  simp only [castRayFuel, h, he, if_true]

/-- Claim C23: when the nearest intersection has an emissive material, `castRay` returns the
emitted radiance at `depth = 0` and the zero vector at `depth > 0`; when the intersection
has no material it returns the zero vector.  In all three cases one call suffices (no
nested call) and the random source is returned as it was (no light is sampled). -/
theorem castRay_emissive_or_no_hit (sqrtf : Flt → Flt) (scene : Scene) (fuel : Nat) (g : Rng)
    (ray : Ray) (depth : Int) :
    (∀ m, (scene.intersect ray).m = some m → m.hasEmission = true →
      (depth = 0 → castRayFuel sqrtf scene (fuel + 1) g ray depth = some (m.getEmission, g)) ∧
      (depth > 0 → castRayFuel sqrtf scene (fuel + 1) g ray depth = some (Vector3f.zero, g))) ∧
    ((scene.intersect ray).m = none →
      castRayFuel sqrtf scene (fuel + 1) g ray depth = some (Vector3f.zero, g)) := by
  refine ⟨fun m hm he => ⟨fun hd => ?_, fun hd => ?_⟩,
    fun hn => castRayFuel_no_material fuel g depth hn⟩
  · rw [castRayFuel_emissive fuel g depth hm he, hd]; simp
  · rw [castRayFuel_emissive fuel g depth hm he, if_pos hd]

end PathTracer


theorem Flt.mul_zero_cases (a : Flt) : a * Flt.fin 0 = Flt.fin 0 ∨ a * Flt.fin 0 = Flt.nan := by
  cases a <;> simp [Flt.mul_def, Flt.mul, Flt.infOfSign]

theorem Flt.mul_zero_or_nan (a b : Flt) (hb : b = Flt.fin 0 ∨ b = Flt.nan) :
    a * b = Flt.fin 0 ∨ a * b = Flt.nan := by
  rcases hb with rfl | rfl
  · exact Flt.mul_zero_cases a
  · right; cases a <;> rfl

theorem Flt.add_zero_or_nan (a b : Flt) (ha : a = Flt.fin 0 ∨ a = Flt.nan)
    (hb : b = Flt.fin 0 ∨ b = Flt.nan) : a + b = Flt.fin 0 ∨ a + b = Flt.nan := by
  rcases ha with rfl | rfl <;> rcases hb with rfl | rfl <;>
    simp [Flt.add_def, Flt.add]

theorem dotProduct_zero_cases (v : Vector3f) :
    dotProduct v Vector3f.zero = Flt.fin 0 ∨ dotProduct v Vector3f.zero = Flt.nan := by
  simp only [dotProduct, Vector3f.zero]
  exact Flt.add_zero_or_nan _ _
    (Flt.add_zero_or_nan _ _ (Flt.mul_zero_cases _) (Flt.mul_zero_cases _))
    (Flt.mul_zero_cases _)

namespace PathTracer

theorem pickLight_of_no_emit (p : Flt) (l : List Object)
    (h : ∀ o ∈ l, o.hasEmit = false) : ∀ s, pickLight p l s = none := by
  induction l with
  | nil => intro s; rfl
  | cons a rest ih =>
    intro s
    have ha : a.hasEmit = false := h a (by simp)
    simp only [pickLight, ha, Bool.false_eq_true, if_false]
    exact ih (fun o ho => h o (by simp [ho])) s

theorem geoTerm_default_cases (sqrtf : Flt → Flt) (p : Intersection) :
    geoTerm sqrtf p Intersection.construct = Flt.fin 0 ∨
      geoTerm sqrtf p Intersection.construct = Flt.nan := by
  simp only [geoTerm, Intersection.construct]
  exact Flt.mul_zero_or_nan _ _ (dotProduct_zero_cases _)

theorem geoTerm_default_test (sqrtf : Flt → Flt) (p : Intersection) :
    Flt.gt (geoTerm sqrtf p Intersection.construct - EPSILON) (Flt.fin 0) = false := by
  rcases geoTerm_default_cases sqrtf p with h | h <;> rw [h] <;>
    norm_num [EPSILON, Flt.gt, Flt.lt, Flt.sub_def, Flt.add, Flt.neg]

/-- Claim C22: in a scene without emissive objects `sampleLight` returns `pos` and `pdf` as
they were; for the default record the geometry term of `castRay` is `0` (`NaN` when the
light direction is not finite), the test `geo_term - EPSILON > 0` fails, so the direct
term `L_dir` that `castRay` computes from the light sample is the zero vector and the
branch dividing by `pdf_light` is not taken; a non-emissive hit at which roulette stops
therefore returns the zero vector. -/
theorem no_emissive_object_direct_term_zero (sqrtf : Flt → Flt) (scene : Scene)
    (hno : ∀ o ∈ scene.objects, o.hasEmit = false) (g : Rng) (pos : Intersection) (pdf : Flt)
    (p : Intersection) (m : Material) (wo : Vector3f) :
    sampleLight scene g pos pdf = (pos, pdf, (get_random_float g).2) ∧
    (geoTerm sqrtf p Intersection.construct = Flt.fin 0 ∨
      geoTerm sqrtf p Intersection.construct = Flt.nan) ∧
    ((lightDir sqrtf p Intersection.construct).isFinite = true → p.normal.isFinite = true →
      geoTerm sqrtf p Intersection.construct = Flt.fin 0) ∧
    Flt.gt (geoTerm sqrtf p Intersection.construct - EPSILON) (Flt.fin 0) = false ∧
    directLight sqrtf scene p m wo
        (sampleLight scene g Intersection.construct (Flt.fin 0)).1
        (sampleLight scene g Intersection.construct (Flt.fin 0)).2.1 = Vector3f.zero ∧
    (∀ (fuel : Nat) (ray : Ray) (depth : Int) (m1 : Material),
      (scene.intersect ray).m = some m1 → m1.hasEmission = false →
      Flt.gt (get_random_float (get_random_float g).2).1 scene.RussianRoulette = true →
      castRayFuel sqrtf scene (fuel + 1) g ray depth =
        some (Vector3f.zero, (get_random_float (get_random_float g).2).2)) := by
  have hs : ∀ pos pdf, sampleLight scene g pos pdf = (pos, pdf, (get_random_float g).2) := by
    intro pos pdf
    simp only [sampleLight, pickLight_of_no_emit _ _ hno]
  have hd : ∀ (p : Intersection) (m : Material) (wo : Vector3f),
      directLight sqrtf scene p m wo
        (sampleLight scene g Intersection.construct (Flt.fin 0)).1
        (sampleLight scene g Intersection.construct (Flt.fin 0)).2.1 = Vector3f.zero := by
    intro p m wo
    rw [hs]
    simp only [directLight, geoTerm_default_test, Bool.false_eq_true, if_false]
  refine ⟨hs pos pdf, geoTerm_default_cases sqrtf p, ?_, geoTerm_default_test sqrtf p, hd p m wo,
    ?_⟩
  · intro hl hn
    obtain ⟨a, b, c, hw⟩ := Vector3f.exists_ofRat_of_isFinite hl
    obtain ⟨d, e, f, hN⟩ := Vector3f.exists_ofRat_of_isFinite hn
    simp only [geoTerm, hw, hN]
    norm_num [Intersection.construct, dotProduct, Vector3f.ofRat, Vector3f.neg, Vector3f.zero]
  · intro fuel ray depth m1 hm he hr
    have hd1 := hd (scene.intersect ray) m1 ray.direction.neg
    simp only [castRayFuel, hm, he, Bool.false_eq_true, if_false]
    rw [hd1]
    simp only [hs, hr, if_true]

/-- Witness for `no_emissive_object_direct_term_zero` on `darkScene`. -/
theorem no_emissive_object_direct_term_zero_witness :
    sampleLight darkScene exampleRng Intersection.construct (Flt.fin 0) =
      (Intersection.construct, Flt.fin 0, (get_random_float exampleRng).2) ∧
    directLight Whitted.exampleGlobals.sqrtf darkScene floorRecord glossyMaterial (Vector3f.ofRat 0 0 1)
        (sampleLight darkScene exampleRng Intersection.construct (Flt.fin 0)).1
        (sampleLight darkScene exampleRng Intersection.construct (Flt.fin 0)).2.1 =
      Vector3f.zero :=
  have h := no_emissive_object_direct_term_zero Whitted.exampleGlobals.sqrtf darkScene
    (by simp [darkScene, floorPatch, wallPatch]) exampleRng Intersection.construct (Flt.fin 0)
    floorRecord glossyMaterial (Vector3f.ofRat 0 0 1)
  ⟨h.1, h.2.2.2.2.1⟩

end PathTracer


namespace PathTracer

theorem emitAreaSum_cons_emit {a : Object} (l : List Object) (s : Flt)
    (h : a.hasEmit = true) : emitAreaSum (a :: l) s = emitAreaSum l (s + a.getArea) := by
  simp only [emitAreaSum, h, if_true]

theorem emitAreaSum_cons_skip {a : Object} (l : List Object) (s : Flt)
    (h : a.hasEmit = false) : emitAreaSum (a :: l) s = emitAreaSum l s := by
  simp only [emitAreaSum, h, Bool.false_eq_true, if_false]

theorem emitAreaSum_append (l1 l2 : List Object) :
    ∀ s, emitAreaSum (l1 ++ l2) s = emitAreaSum l2 (emitAreaSum l1 s) := by
  induction l1 with
  | nil => intro s; rfl
  | cons a rest ih =>
    intro s
    rw [List.cons_append]
    cases ha : a.hasEmit
    · rw [emitAreaSum_cons_skip _ _ ha, emitAreaSum_cons_skip _ _ ha, ih]
    · rw [emitAreaSum_cons_emit _ _ ha, emitAreaSum_cons_emit _ _ ha, ih]

/-- Non-emissive objects add nothing to the running sum. -/
theorem emitAreaSum_filter (l : List Object) :
    ∀ s, emitAreaSum l s = emitAreaSum (l.filter (fun o => o.hasEmit)) s := by
  induction l with
  | nil => intro s; rfl
  | cons a rest ih =>
    intro s
    cases ha : a.hasEmit
    · rw [emitAreaSum_cons_skip _ _ ha, List.filter_cons_of_neg (by simp [ha]), ih]
    · rw [emitAreaSum_cons_emit _ _ ha, List.filter_cons_of_pos (by simp [ha]),
        emitAreaSum_cons_emit _ _ ha, ih]

end PathTracer


namespace PathTracer

end PathTracer


namespace PathTracer

/-! ## hw7: the indirect term on the example scene -/

theorem sampleLight_lampScene (g : Rng) (pos : Intersection) (pdf : Flt)
    (h : g.draws g.pos = Flt.fin (1 / 2)) :
    sampleLight lampScene g pos pdf = (lampRecord, Flt.fin 1, ⟨g.draws, g.pos + 1⟩) := by
  have hsum : emitAreaSum lampScene.objects (Flt.fin 0) = Flt.fin 1 := by
    norm_num [lampScene, emitAreaSum, floorPatch, wallPatch, lampPatch]
  have hpick : pickLight (Flt.fin (1 / 2)) lampScene.objects (Flt.fin 0) = some lampPatch := by
    norm_num [lampScene, pickLight, floorPatch, wallPatch, lampPatch]
  simp only [sampleLight, get_random_float, h, hsum, Flt.fin_mul_fin, mul_one, hpick]
  rfl

theorem Flt.one_div_one : (Flt.fin 1 / Flt.fin 1 : Flt) = Flt.fin 1 := by
  rw [Flt.fin_div_fin _ _ one_ne_zero]; norm_num

theorem lightDir_floor :
    lightDir Whitted.exampleGlobals.sqrtf floorRecord lampRecord = Vector3f.ofRat 0 0 1 := by
  have hm : (Flt.fin 0 * Flt.fin 0 + Flt.fin 0 * Flt.fin 0 + Flt.fin 1 * Flt.fin 1 : Flt) =
      Flt.fin 1 := by norm_num
  simp only [lightDir, floorRecord, lampRecord, Vector3f.ofRat_sub, sub_zero]
  simp only [Vector3f.ofRat, hm, Whitted.exampleGlobals_sqrtf_one]
  norm_num [normalize, Flt.one_div_one]

theorem lightDir_wall :
    lightDir Whitted.exampleGlobals.sqrtf wallRecord lampRecord =
      Vector3f.ofRat (-24 / 25) 0 (7 / 25) := by
  have hm : (Flt.fin (0 - 24 / 25) * Flt.fin (0 - 24 / 25) + Flt.fin (0 - 0) * Flt.fin (0 - 0) +
      Flt.fin (1 - 18 / 25) * Flt.fin (1 - 18 / 25) : Flt) = Flt.fin 1 := by norm_num
  simp only [lightDir, wallRecord, lampRecord, Vector3f.ofRat_sub]
  simp only [Vector3f.ofRat, hm, Whitted.exampleGlobals_sqrtf_one]
  norm_num [normalize, Flt.one_div_one]

end PathTracer


namespace PathTracer

theorem directLight_floor (wo : Vector3f) :
    directLight Whitted.exampleGlobals.sqrtf lampScene floorRecord glossyMaterial wo lampRecord
      (Flt.fin 1) = Vector3f.ofRat 1 1 1 := by
  simp only [directLight, geoTerm, lightDir_floor]
  norm_num [floorRecord, lampRecord, lampScene, glossyMaterial, dotProduct, Vector3f.ofRat,
    Vector3f.neg, Vector3f.mul, Vector3f.scale, Vector3f.div, Vector3f.vsub_def, EPSILON,
    Flt.gt, Flt.lt, Flt.sub_def, Flt.add_def, Flt.mul_def, Flt.div_def, Flt.add, Flt.neg,
    Flt.mul, Flt.div]

theorem directLight_wall (wo : Vector3f) :
    directLight Whitted.exampleGlobals.sqrtf lampScene wallRecord matteMaterial wo lampRecord
      (Flt.fin 1) = Vector3f.ofRat (168 / 625) (168 / 625) (168 / 625) := by
  simp only [directLight, geoTerm, lightDir_wall]
  norm_num [wallRecord, lampRecord, lampScene, matteMaterial, dotProduct, Vector3f.ofRat,
    Vector3f.neg, Vector3f.mul, Vector3f.scale, Vector3f.div, Vector3f.vsub_def, EPSILON,
    Flt.gt, Flt.lt, Flt.sub_def, Flt.add_def, Flt.mul_def, Flt.div_def, Flt.add, Flt.neg,
    Flt.mul, Flt.div]

end PathTracer


namespace PathTracer

/-- A non-emissive hit at which roulette stops returns the direct term. -/
theorem castRayFuel_roulette_stop {sqrtf : Flt → Flt} {scene : Scene} (fuel : Nat) (g : Rng)
    {ray : Ray} (depth : Int) {m : Material} (hm : (scene.intersect ray).m = some m)
    (he : m.hasEmission = false)
    (hr : Flt.gt (get_random_float (sampleLight scene g Intersection.construct (Flt.fin 0)).2.2).1
      scene.RussianRoulette = true) :
    castRayFuel sqrtf scene (fuel + 1) g ray depth =
      some (directLight sqrtf scene (scene.intersect ray) m ray.direction.neg
          (sampleLight scene g Intersection.construct (Flt.fin 0)).1
          (sampleLight scene g Intersection.construct (Flt.fin 0)).2.1,
        (get_random_float (sampleLight scene g Intersection.construct (Flt.fin 0)).2.2).2) := by
  simp only [castRayFuel, hm, he, Bool.false_eq_true, if_false, hr, if_true]

/-- A non-emissive hit at which roulette continues with a non-zero scattering density: the
nested result is multiplied by `eval(ws, wo, N)`, `ws` being the direction to the light
sample, then by `dot(wi, N)`, divided by the density and by `RussianRoulette`, and the
direct term is added. -/
theorem castRayFuel_roulette_continue {sqrtf : Flt → Flt} {scene : Scene} (fuel : Nat)
    (g : Rng) {ray : Ray} (depth : Int) {m : Material} {radiance : Vector3f} {g1 : Rng}
    (hm : (scene.intersect ray).m = some m) (he : m.hasEmission = false)
    (hr : Flt.gt (get_random_float (sampleLight scene g Intersection.construct (Flt.fin 0)).2.2).1
      scene.RussianRoulette = false)
    (hpdf : Flt.eq (m.pdf ray.direction.neg
      (m.sample (get_random_float (sampleLight scene g Intersection.construct (Flt.fin 0)).2.2).2
        ray.direction.neg (scene.intersect ray).normal).1 (scene.intersect ray).normal)
      (Flt.fin 0) = false)
    (hrec : castRayFuel sqrtf scene fuel
      (m.sample (get_random_float (sampleLight scene g Intersection.construct (Flt.fin 0)).2.2).2
        ray.direction.neg (scene.intersect ray).normal).2
      ⟨(scene.intersect ray).coords,
        (m.sample (get_random_float (sampleLight scene g Intersection.construct (Flt.fin 0)).2.2).2
          ray.direction.neg (scene.intersect ray).normal).1⟩ (depth + 1) = some (radiance, g1)) :
    castRayFuel sqrtf scene (fuel + 1) g ray depth =
      some
        ((((radiance.mul
            (m.eval
              (lightDir sqrtf (scene.intersect ray)
                (sampleLight scene g Intersection.construct (Flt.fin 0)).1)
              ray.direction.neg (scene.intersect ray).normal)).scale
            (dotProduct
              (m.sample
                (get_random_float
                  (sampleLight scene g Intersection.construct (Flt.fin 0)).2.2).2
                ray.direction.neg (scene.intersect ray).normal).1
              (scene.intersect ray).normal)).div
            (m.pdf ray.direction.neg
              (m.sample
                (get_random_float
                  (sampleLight scene g Intersection.construct (Flt.fin 0)).2.2).2
                ray.direction.neg (scene.intersect ray).normal).1
              (scene.intersect ray).normal)).div scene.RussianRoulette +
          directLight sqrtf scene (scene.intersect ray) m ray.direction.neg
            (sampleLight scene g Intersection.construct (Flt.fin 0)).1
            (sampleLight scene g Intersection.construct (Flt.fin 0)).2.1, g1) := by
  rw [castRayFuel]
  simp only [hm, he, Bool.false_eq_true, if_false, hr, hpdf, hrec]

end PathTracer


namespace PathTracer

theorem lampScene_intersect_down (o : Vector3f) :
    lampScene.intersect ⟨o, Vector3f.ofRat 0 0 (-1)⟩ = floorRecord := by
  simp [lampScene]

theorem lampScene_intersect_scattered (o : Vector3f) :
    lampScene.intersect ⟨o, Vector3f.ofRat (4 / 5) 0 (3 / 5)⟩ = wallRecord := by
  norm_num [lampScene, Vector3f.ofRat_inj]

/-- The nested call of the example: the scattered ray hits the wall, the lamp is sampled,
roulette stops (fourth draw `9/10 > 4/5`) and the direct term `168/625` is returned. -/
theorem castRayFuel_wall :
    castRayFuel Whitted.exampleGlobals.sqrtf lampScene 1 ⟨exampleRng.draws, 2⟩
        ⟨Vector3f.ofRat 0 0 0, Vector3f.ofRat (4 / 5) 0 (3 / 5)⟩ 1 =
      some (Vector3f.ofRat (168 / 625) (168 / 625) (168 / 625), ⟨exampleRng.draws, 4⟩) := by
  have hs : sampleLight lampScene ⟨exampleRng.draws, 2⟩ Intersection.construct (Flt.fin 0) =
      (lampRecord, Flt.fin 1, ⟨exampleRng.draws, 3⟩) :=
    sampleLight_lampScene ⟨exampleRng.draws, 2⟩ _ _ (by norm_num [exampleRng])
  rw [castRayFuel_roulette_stop 0 ⟨exampleRng.draws, 2⟩ 1
    (by rw [lampScene_intersect_scattered]; rfl) (by rfl)
    (by rw [hs]; norm_num [get_random_float, exampleRng, lampScene, Flt.gt, Flt.lt])]
  rw [hs, lampScene_intersect_scattered]
  simp only [directLight_wall, get_random_float]

end PathTracer


namespace PathTracer

/-- Claim C25 (divergence): on the example scene the camera ray hits the floor, whose BRDF
depends on its first argument; the light sample gives `ws = (0, 0, 1)` and the material
scatters into `wi = (4/5, 0, 3/5)`.  `castRay` weights the nested radiance `168/625` with
`eval(ws, wo, N) = 1` and returns `126/625 + 1 = 751/625` per channel, whereas the weight
`eval(wi, wo, N) = 3/5` of the claim gives `378/3125 + 1 = 3503/3125`. -/
theorem castRay_indirect_term_evaluates_brdf_at_light_direction :
    castRayFuel Whitted.exampleGlobals.sqrtf lampScene 2 exampleRng
        ⟨Vector3f.ofRat 0 0 (1 / 2), Vector3f.ofRat 0 0 (-1)⟩ 0 =
      some (Vector3f.ofRat (751 / 625) (751 / 625) (751 / 625), ⟨exampleRng.draws, 4⟩) ∧
    lightDir Whitted.exampleGlobals.sqrtf floorRecord lampRecord = Vector3f.ofRat 0 0 1 ∧
    (glossyMaterial.sample ⟨exampleRng.draws, 2⟩ (Vector3f.ofRat 0 0 1) floorRecord.normal).1 =
      Vector3f.ofRat (4 / 5) 0 (3 / 5) ∧
    ((((Vector3f.ofRat (168 / 625) (168 / 625) (168 / 625)).mul
          (glossyMaterial.eval (Vector3f.ofRat (4 / 5) 0 (3 / 5)) (Vector3f.ofRat 0 0 1)
            floorRecord.normal)).scale
          (dotProduct (Vector3f.ofRat (4 / 5) 0 (3 / 5)) floorRecord.normal)).div
          (glossyMaterial.pdf (Vector3f.ofRat 0 0 1) (Vector3f.ofRat (4 / 5) 0 (3 / 5))
            floorRecord.normal)).div lampScene.RussianRoulette +
        directLight Whitted.exampleGlobals.sqrtf lampScene floorRecord glossyMaterial
          (Vector3f.ofRat 0 0 1) lampRecord (Flt.fin 1) =
      Vector3f.ofRat (3503 / 3125) (3503 / 3125) (3503 / 3125) := by
  have hs : sampleLight lampScene exampleRng Intersection.construct (Flt.fin 0) =
      (lampRecord, Flt.fin 1, ⟨exampleRng.draws, 1⟩) :=
    sampleLight_lampScene exampleRng _ _ (by norm_num [exampleRng])
  have hI : lampScene.intersect ⟨Vector3f.ofRat 0 0 (1 / 2), Vector3f.ofRat 0 0 (-1)⟩ =
      floorRecord := lampScene_intersect_down _
  have key := @castRayFuel_roulette_continue Whitted.exampleGlobals.sqrtf lampScene 1
    exampleRng ⟨Vector3f.ofRat 0 0 (1 / 2), Vector3f.ofRat 0 0 (-1)⟩ 0 glossyMaterial
    (Vector3f.ofRat (168 / 625) (168 / 625) (168 / 625)) ⟨exampleRng.draws, 4⟩
    (by rw [hI]; rfl) rfl
    (by rw [hs]; norm_num [get_random_float, exampleRng, lampScene, Flt.gt, Flt.lt])
    (by rw [hs, hI]; norm_num [glossyMaterial, Flt.eq])
    (by rw [hs, hI]; exact castRayFuel_wall)
  refine ⟨?_, lightDir_floor, rfl, ?_⟩
  · rw [key, hs, hI]
    simp only [lightDir_floor, directLight_floor]
    norm_num [glossyMaterial, floorRecord, lampScene, dotProduct, Vector3f.ofRat,
      Vector3f.mul, Vector3f.scale, Vector3f.div, Vector3f.vadd_def, Flt.add_def, Flt.mul_def,
      Flt.div_def, Flt.add, Flt.mul, Flt.div]
  · rw [directLight_floor]
    norm_num [glossyMaterial, floorRecord, lampScene, dotProduct, Vector3f.ofRat,
      Vector3f.mul, Vector3f.scale, Vector3f.div, Vector3f.vadd_def, Flt.add_def, Flt.mul_def,
      Flt.div_def, Flt.add, Flt.mul, Flt.div]

end PathTracer


namespace Whitted

/-- Witness for `trace_first_nearest`: with the single object `wallObject`, hit by every ray
at distance 1, `trace` returns a payload and that payload is the one of an object of the
list that reports a hit. -/
theorem trace_first_nearest_witness :
    trace exampleGlobals Vector3f.zero (Vector3f.ofRat 0 0 (-1)) [wallObject] =
      some wallPayload ∧
    ∃ pre o post, [wallObject] = pre ++ o :: post ∧
      reportsHit exampleGlobals Vector3f.zero (Vector3f.ofRat 0 0 (-1)) o = true ∧
      wallPayload = payloadOf exampleGlobals Vector3f.zero (Vector3f.ofRat 0 0 (-1)) o :=
  have h := (trace_first_nearest exampleGlobals Vector3f.zero (Vector3f.ofRat 0 0 (-1))
    [wallObject]).2 wallPayload (trace_wallObject _ _)
  ⟨trace_wallObject _ _,
    h.elim fun pre h1 => h1.elim fun o h2 => h2.elim fun post h3 =>
      ⟨pre, o, post, h3.1, h3.2.1, h3.2.2.1⟩⟩

end Whitted

namespace PathTracer

/-- Witness for `castRay_emissive_or_no_hit`: in `lampScene` the ray going up hits the lamp;
at depth 0 one call returns the emitted radiance `(1, 1, 1)` and the random source is
untouched. -/
theorem castRay_emissive_or_no_hit_witness :
    castRayFuel Whitted.exampleGlobals.sqrtf lampScene 1 exampleRng
        ⟨Vector3f.ofRat 0 0 0, Vector3f.ofRat 0 0 1⟩ 0 =
      some (Vector3f.ofRat 1 1 1, exampleRng) :=
  ((castRay_emissive_or_no_hit Whitted.exampleGlobals.sqrtf lampScene 0 exampleRng
    ⟨Vector3f.ofRat 0 0 0, Vector3f.ofRat 0 0 1⟩ 0).1 lampMaterial
    (by norm_num [lampScene, Vector3f.ofRat_inj, lampRecord]) rfl).1 rfl

end PathTracer


namespace Whitted

/-! ## The range of `fresnel` -/

/-- The function `fresnel` in terms of its sub-expressions `sint`, `Rs` and `Rp`. -/
theorem fresnel_eq_ratios (G : Globals) (I N : Vector3f) (ior : Flt) :
    fresnel G I N ior =
      if Flt.ge (fresnelSint G I N ior) (Flt.fin 1) then Flt.fin 1
      else
        (fresnelRsNum G I N ior / fresnelRsDen G I N ior *
              (fresnelRsNum G I N ior / fresnelRsDen G I N ior) +
            fresnelRpNum G I N ior / fresnelRpDen G I N ior *
              (fresnelRpNum G I N ior / fresnelRpDen G I N ior)) /
          Flt.fin 2 := rfl

/-- The value `clamp(-1, 1, v)` is a finite number in `[-1, 1]` for every `v`, the special
values included. -/
theorem clamp_unit (v : Flt) :
    ∃ c : ℚ, clamp (Flt.fin (-1)) (Flt.fin 1) v = Flt.fin c ∧ -1 ≤ c ∧ c ≤ 1 := by
  cases v with
  | fin q => exact ⟨max (-1) (min 1 q), clamp_fin _ _ _, le_max_left _ _,
      max_le (by norm_num) (min_le_left _ _)⟩
  | pinf => exact ⟨1, by norm_num [clamp, Flt.stdMax, Flt.stdMin, Flt.lt], by norm_num, le_rfl⟩
  | ninf =>
    exact ⟨-1, by norm_num [clamp, Flt.stdMax, Flt.stdMin, Flt.lt], le_rfl, by norm_num⟩
  | nan => exact ⟨1, by norm_num [clamp, Flt.stdMax, Flt.stdMin, Flt.lt], by norm_num, le_rfl⟩

theorem exampleGlobals_sqrtNonneg : exampleGlobals.SqrtNonneg := by
  intro x hx
  refine ⟨ratSqrt x, ?_, by simp [exampleGlobals, hx]⟩
  unfold ratSqrt
  positivity

/-- For `a ≥ 0` and `b > 0` the square of `(a - b) / (a + b)` is at most 1. -/
theorem ratio_sq_le_one (a b : ℚ) (ha : 0 ≤ a) (hb : 0 < b) :
    (a - b) / (a + b) * ((a - b) / (a + b)) ≤ 1 := by
  have hd : 0 < a + b := by linarith
  rw [div_mul_div_comm, div_le_one (mul_pos hd hd)]
  nlinarith [mul_nonneg ha hb.le]

end Whitted


namespace Whitted

/-- The value `sint` from the clamped cosine `c`, the two indices and the value of the first
square root. -/
theorem fresnelSint_of_clamp (G : Globals) (I N : Vector3f) (ior : Flt) (c ei et s1 : ℚ)
    (hcl : clamp (Flt.fin (-1)) (Flt.fin 1) (dotProduct I N) = Flt.fin c)
    (hei : (if Flt.gt (Flt.fin c) (Flt.fin 0) then ior else Flt.fin 1) = Flt.fin ei)
    (het : (if Flt.gt (Flt.fin c) (Flt.fin 0) then Flt.fin 1 else ior) = Flt.fin et)
    (het0 : et ≠ 0)
    (hs1 : G.sqrtf (Flt.fin (max 0 (1 - c * c))) = Flt.fin s1) :
    fresnelSint G I N ior = Flt.fin (ei / et * s1) := by
  unfold fresnelSint
  simp only []
  rw [hcl, hei, het, Flt.fin_mul_fin, Flt.fin_sub_fin, Flt.stdMax_fin, hs1,
    Flt.fin_div_fin _ _ het0, Flt.fin_mul_fin]

/-- The numerators and denominators of `Rs` and `Rp` from the clamped cosine `c`, the two
indices, `sint = q` and the value `r` of the second square root. -/
theorem fresnel_ratios_of_clamp (G : Globals) (I N : Vector3f) (ior : Flt) (c ei et q r : ℚ)
    (hcl : clamp (Flt.fin (-1)) (Flt.fin 1) (dotProduct I N) = Flt.fin c)
    (hei : (if Flt.gt (Flt.fin c) (Flt.fin 0) then ior else Flt.fin 1) = Flt.fin ei)
    (het : (if Flt.gt (Flt.fin c) (Flt.fin 0) then Flt.fin 1 else ior) = Flt.fin et)
    (hsint : fresnelSint G I N ior = Flt.fin q)
    (hr : G.sqrtf (Flt.fin (max 0 (1 - q * q))) = Flt.fin r) :
    fresnelRsNum G I N ior = Flt.fin (et * |c| - ei * r) ∧
    fresnelRsDen G I N ior = Flt.fin (et * |c| + ei * r) ∧
    fresnelRpNum G I N ior = Flt.fin (ei * |c| - et * r) ∧
    fresnelRpDen G I N ior = Flt.fin (ei * |c| + et * r) := by
  have hcost : fresnelCost G I N ior = Flt.fin r := by
    unfold fresnelCost
    rw [hsint, Flt.fin_mul_fin, Flt.fin_sub_fin, Flt.stdMax_fin, hr]
  refine ⟨?_, ?_, ?_, ?_⟩
  · unfold fresnelRsNum
    simp only []
    rw [hcl, hei, het, hcost, Flt.fabs_fin, Flt.fin_mul_fin, Flt.fin_mul_fin, Flt.fin_sub_fin]
  · unfold fresnelRsDen
    simp only []
    rw [hcl, hei, het, hcost, Flt.fabs_fin, Flt.fin_mul_fin, Flt.fin_mul_fin, Flt.fin_add_fin]
  · unfold fresnelRpNum
    simp only []
    rw [hcl, hei, het, hcost, Flt.fabs_fin, Flt.fin_mul_fin, Flt.fin_mul_fin, Flt.fin_sub_fin]
  · unfold fresnelRpDen
    simp only []
    rw [hcl, hei, het, hcost, Flt.fabs_fin, Flt.fin_mul_fin, Flt.fin_mul_fin, Flt.fin_add_fin]

end Whitted


namespace Whitted

/-- Claim C31: for all vectors `I` and `N` (special values included) and every `ior > 0`,
with `sqrtf` mapping non-negative numbers to non-negative numbers and positive numbers to
positive numbers, `fresnel(I, N, ior)` is a finite number `kr` with `0 ≤ kr ≤ 1`, so the
weights `kr` and `1 - kr` of `castRay` are both in `[0, 1]`; on the branch `sint < 1` the
denominators of `Rs` and `Rp` are positive, so no division by zero occurs. -/
theorem fresnel_in_unit_interval (G : Globals) (I N : Vector3f) (ior : ℚ) (hior : 0 < ior)
    (hnn : G.SqrtNonneg) (hpos : G.SqrtPositive) :
    (∃ kr : ℚ, fresnel G I N (Flt.fin ior) = Flt.fin kr ∧ 0 ≤ kr ∧ kr ≤ 1 ∧
      Flt.fin 1 - fresnel G I N (Flt.fin ior) = Flt.fin (1 - kr) ∧
      0 ≤ 1 - kr ∧ 1 - kr ≤ 1) ∧
    (Flt.ge (fresnelSint G I N (Flt.fin ior)) (Flt.fin 1) = false →
      ∃ ds dp : ℚ, fresnelRsDen G I N (Flt.fin ior) = Flt.fin ds ∧ 0 < ds ∧
        fresnelRpDen G I N (Flt.fin ior) = Flt.fin dp ∧ 0 < dp) := by
  obtain ⟨c, hcl, -, -⟩ := clamp_unit (dotProduct I N)
  obtain ⟨s1, hs10, hs1⟩ := hnn (max 0 (1 - c * c)) (le_max_left _ _)
  obtain ⟨ei, et, hei, het, hei0, het0⟩ : ∃ ei et : ℚ,
      (if Flt.gt (Flt.fin c) (Flt.fin 0) then Flt.fin ior else Flt.fin 1) = Flt.fin ei ∧
      (if Flt.gt (Flt.fin c) (Flt.fin 0) then Flt.fin 1 else Flt.fin ior) = Flt.fin et ∧
      0 < ei ∧ 0 < et := by
    by_cases h0 : 0 < c
    · exact ⟨ior, 1, by simp [h0], by simp [h0], hior, one_pos⟩
    · exact ⟨1, ior, by simp [h0], by simp [h0], one_pos, hior⟩
  have hsint := fresnelSint_of_clamp G I N (Flt.fin ior) c ei et s1 hcl hei het het0.ne' hs1
  have hq0 : 0 ≤ ei / et * s1 := mul_nonneg (div_pos hei0 het0).le hs10
  by_cases hq : 1 ≤ ei / et * s1
  · have hge : Flt.ge (fresnelSint G I N (Flt.fin ior)) (Flt.fin 1) = true := by
      rw [hsint, Flt.ge_fin]; simpa using hq
    have hf := fresnel_of_sint_ge G I N (Flt.fin ior) hge
    refine ⟨⟨1, hf, by norm_num, le_rfl, by rw [hf, Flt.fin_sub_fin], by norm_num,
      by norm_num⟩, ?_⟩
    intro h
    rw [hge] at h
    cases h
  · have hq1 : ei / et * s1 < 1 := not_le.mp hq
    have hge : Flt.ge (fresnelSint G I N (Flt.fin ior)) (Flt.fin 1) = false := by
      rw [hsint, Flt.ge_fin]; simpa using hq1
    have hB : 0 < max 0 (1 - ei / et * s1 * (ei / et * s1)) := by
      apply lt_max_of_lt_right
      nlinarith
    obtain ⟨r, hr0, hr⟩ := hpos _ hB
    obtain ⟨hsn, hsd, hpn, hpd⟩ :=
      fresnel_ratios_of_clamp G I N (Flt.fin ior) c ei et _ r hcl hei het hsint hr
    have hds : 0 < et * |c| + ei * r :=
      add_pos_of_nonneg_of_pos (mul_nonneg het0.le (abs_nonneg c)) (mul_pos hei0 hr0)
    have hdp : 0 < ei * |c| + et * r :=
      add_pos_of_nonneg_of_pos (mul_nonneg hei0.le (abs_nonneg c)) (mul_pos het0 hr0)
    have hx := ratio_sq_le_one (et * |c|) (ei * r) (mul_nonneg het0.le (abs_nonneg c))
      (mul_pos hei0 hr0)
    have hy := ratio_sq_le_one (ei * |c|) (et * r) (mul_nonneg hei0.le (abs_nonneg c))
      (mul_pos het0 hr0)
    have hx0 := mul_self_nonneg ((et * |c| - ei * r) / (et * |c| + ei * r))
    have hy0 := mul_self_nonneg ((ei * |c| - et * r) / (ei * |c| + et * r))
    have hf : fresnel G I N (Flt.fin ior) =
        Flt.fin (((et * |c| - ei * r) / (et * |c| + ei * r) *
            ((et * |c| - ei * r) / (et * |c| + ei * r)) +
          (ei * |c| - et * r) / (ei * |c| + et * r) *
            ((ei * |c| - et * r) / (ei * |c| + et * r))) / 2) := by
      rw [fresnel_eq_ratios, hge, hsn, hsd, hpn, hpd]
      simp only [Bool.false_eq_true, if_false]
      rw [Flt.fin_div_fin _ _ hds.ne', Flt.fin_div_fin _ _ hdp.ne', Flt.fin_mul_fin,
        Flt.fin_mul_fin, Flt.fin_add_fin, Flt.fin_div_fin _ _ two_ne_zero]
    refine ⟨⟨_, hf, by linarith, by linarith, by rw [hf, Flt.fin_sub_fin], by linarith,
      by linarith⟩, ?_⟩
    intro _
    exact ⟨_, _, hsd, hds, hpd, hdp⟩

/-- Witness for `fresnel_in_unit_interval`: normal incidence on `(0, 0, 1)` with
`ior = 3/2`. -/
theorem fresnel_in_unit_interval_witness :
    exampleGlobals.SqrtNonneg ∧ exampleGlobals.SqrtPositive ∧
    ∃ kr : ℚ, fresnel exampleGlobals (Vector3f.ofRat 0 0 (-1)) (Vector3f.ofRat 0 0 1)
        (Flt.fin (3 / 2)) = Flt.fin kr ∧ 0 ≤ kr ∧ kr ≤ 1 :=
  have h := (fresnel_in_unit_interval exampleGlobals (Vector3f.ofRat 0 0 (-1))
    (Vector3f.ofRat 0 0 1) (3 / 2) (by norm_num) exampleGlobals_sqrtNonneg
    exampleGlobals_sqrtPositive).1
  ⟨exampleGlobals_sqrtNonneg, exampleGlobals_sqrtPositive,
    h.elim fun kr hk => ⟨kr, hk.1, hk.2.1, hk.2.2.1⟩⟩

end Whitted

/-! ## The recursive integrator: direct Phong shading -/

namespace Flt

theorem mul_comm' (a b : Flt) : a * b = b * a := by
  cases a <;> cases b <;> simp [mul_def, mul, mul_comm]

end Flt

theorem dotProduct_comm (a b : Vector3f) : dotProduct a b = dotProduct b a := by
  simp only [dotProduct, Flt.mul_comm' a.x, Flt.mul_comm' a.y, Flt.mul_comm' a.z]

namespace Whitted

/-- The diffuse term of the light loop is zero for an occluded light and
`intensity · max(0, N·L)` otherwise. -/
theorem diffuseTerm_eq_spec (G : Globals) (scene : Scene) (hitPoint N shadowPointOrig : Vector3f)
    (light : Light) :
    diffuseTerm G scene hitPoint N shadowPointOrig light =
      if specOccluded G scene.objects hitPoint shadowPointOrig light then Vector3f.zero
      else light.intensity.scale (specDiffuseWeight G N hitPoint light) := by
  have h1 : inShadow G scene hitPoint shadowPointOrig light =
      specOccluded G scene.objects hitPoint shadowPointOrig light := rfl
  simp only [diffuseTerm, h1, specDiffuseWeight, specLightDir, Flt.stdMax,
    dotProduct_comm N]

/-- The specular term of the light loop is `intensity · max(0, −R·dir)^specularExponent`. -/
theorem specularTerm_eq_spec (G : Globals) (dir hitPoint N : Vector3f) (specularExponent : Flt)
    (light : Light) :
    specularTerm G dir hitPoint N specularExponent light =
      light.intensity.scale (specSpecularWeight G dir N hitPoint specularExponent light) := by
  simp only [specularTerm, specSpecularWeight, specLightDir, Flt.stdMax]

theorem phongColor_eq_spec (G : Globals) (scene : Scene) (dir hitPoint N : Vector3f)
    (st : Vector2f) (obj : Object) :
    phongColor G scene dir hitPoint N st obj =
      specPhong G scene dir hitPoint N
        (if Flt.lt (dotProduct dir N) (Flt.fin 0) then hitPoint + N.scale scene.epsilon
          else hitPoint - N.scale scene.epsilon)
        (obj.evalDiffuseColor st) obj.Kd obj.Ks obj.specularExponent := by
  have hd : ∀ sp, diffuseTerm G scene hitPoint N sp = fun light =>
      if specOccluded G scene.objects hitPoint sp light then Vector3f.zero
      else light.intensity.scale (specDiffuseWeight G N hitPoint light) :=
    fun sp => funext fun light => diffuseTerm_eq_spec _ _ _ _ _ _
  have hs : specularTerm G dir hitPoint N obj.specularExponent = fun light =>
      light.intensity.scale (specSpecularWeight G dir N hitPoint obj.specularExponent light) :=
    funext fun light => specularTerm_eq_spec _ _ _ _ _ _
  rw [phongColor_eq_sums, specPhong, hd, hs]

end Whitted

namespace Whitted

/-- Claim C13: when the nearest hit has a material other than `REFLECTION_AND_REFRACTION`
and `REFLECTION` and `depth ≤ maxDepth`, `castRay` makes no recursive call (one unit of fuel
is enough) and returns `lightAmt·evalDiffuseColor(st)·Kd + specularColor·Ks`, where `lightAmt`
is the sum over the lights of the scene of `intensity·max(0, N·L)` (zero for an occluded
light) and `specularColor` the sum of `intensity·max(0, −R·dir)^specularExponent`, as
written out in `specPhong`; the result is the same for every `maxDepth ≥ depth`. -/
theorem castRay_diffuse_is_direct_phong (G : Globals) (scene : Scene) (orig dir : Vector3f)
    (depth : Int) (payload : hit_payload) (hd : depth ≤ scene.maxDepth)
    (hhit : trace G orig dir scene.objects = some payload)
    (h1 : payload.hit_obj.materialType ≠ MaterialType.REFLECTION_AND_REFRACTION)
    (h2 : payload.hit_obj.materialType ≠ MaterialType.REFLECTION) :
    castRayFuel G scene 1 orig dir depth = some (castRay G scene orig dir depth) ∧
    castRay G scene orig dir depth =
      specPhong G scene dir (orig + dir.scale payload.tNear)
        (payload.hit_obj.getSurfaceProperties (orig + dir.scale payload.tNear) dir
          payload.index payload.uv).1
        (if Flt.lt (dotProduct dir (payload.hit_obj.getSurfaceProperties
            (orig + dir.scale payload.tNear) dir payload.index payload.uv).1) (Flt.fin 0)
          then (orig + dir.scale payload.tNear) +
            (payload.hit_obj.getSurfaceProperties (orig + dir.scale payload.tNear) dir
              payload.index payload.uv).1.scale scene.epsilon
          else (orig + dir.scale payload.tNear) -
            (payload.hit_obj.getSurfaceProperties (orig + dir.scale payload.tNear) dir
              payload.index payload.uv).1.scale scene.epsilon)
        (payload.hit_obj.evalDiffuseColor
          (payload.hit_obj.getSurfaceProperties (orig + dir.scale payload.tNear) dir
            payload.index payload.uv).2)
        payload.hit_obj.Kd payload.hit_obj.Ks payload.hit_obj.specularExponent ∧
    (∀ m : Int, depth ≤ m →
      castRay G { scene with maxDepth := m } orig dir depth = castRay G scene orig dir depth) := by
  have hmat : payload.hit_obj.materialType = MaterialType.DIFFUSE_AND_GLOSSY := by
    cases hm : payload.hit_obj.materialType
    · rfl
    · exact absurd hm h1
    · exact absurd hm h2
  have hc : castRay G scene orig dir depth =
      phongColor G scene dir (orig + dir.scale payload.tNear)
        (payload.hit_obj.getSurfaceProperties (orig + dir.scale payload.tNear) dir
          payload.index payload.uv).1
        (payload.hit_obj.getSurfaceProperties (orig + dir.scale payload.tNear) dir
          payload.index payload.uv).2 payload.hit_obj := by
    simp [castRay, castRayFuel_diffuse _ hd hhit hmat]
  refine ⟨?_, ?_, ?_⟩
  · rw [hc]; exact castRayFuel_diffuse 0 hd hhit hmat
  · rw [hc, phongColor_eq_spec]
  · intro m hm
    rw [hc]
    have hhit' : trace G orig dir ({ scene with maxDepth := m } : Scene).objects =
        some payload := hhit
    have hd' : depth ≤ ({ scene with maxDepth := m } : Scene).maxDepth := hm
    simp only [castRay, castRayFuel_diffuse _ hd' hhit' hmat, Option.getD_some]
    exact phongColor_maxDepth G scene m _ _ _ _ _

theorem trace_floorObject_down (orig : Vector3f) :
    trace exampleGlobals orig (Vector3f.ofRat 0 0 (-1)) [floorObject] =
      some ⟨Flt.fin 1, 0, ⟨Flt.fin 0, Flt.fin 0⟩, floorObject⟩ := by
  simp [trace, traceLoop, floorObject, exampleGlobals]

theorem trace_floorObject_up (orig : Vector3f) :
    trace exampleGlobals orig (Vector3f.ofRat 0 0 1) [floorObject] = none := by
  have hne : ¬ (Vector3f.ofRat 0 0 1 = Vector3f.ofRat 0 0 (-1)) := by
    rw [Vector3f.ofRat_inj]; norm_num
  simp [trace, traceLoop, floorObject, hne]

/-- The Phong colour of the example: the light at `(0,0,1)` is not occluded, `N·L = 1` and
`−R·dir = 1`, so the colour is `1·1·(1/2) + 1·(1/4) = 3/4` per channel. -/
theorem specPhong_litScene :
    specPhong exampleGlobals litScene (Vector3f.ofRat 0 0 (-1)) (Vector3f.ofRat 0 0 (-1))
        (Vector3f.ofRat 0 0 1)
        (Vector3f.ofRat 0 0 (-1) + (Vector3f.ofRat 0 0 1).scale litScene.epsilon)
        (Vector3f.ofRat 1 1 1) (Flt.fin (1 / 2)) (Flt.fin (1 / 4)) (Flt.fin 1) =
      Vector3f.ofRat (3 / 4) (3 / 4) (3 / 4) := by
  have hL : specLightDir exampleGlobals (Vector3f.ofRat 0 0 (-1))
      ⟨Vector3f.ofRat 0 0 1, Vector3f.ofRat 1 1 1⟩ = Vector3f.ofRat 0 0 1 :=
    normalizeG_example_light
  have hocc : specOccluded exampleGlobals litScene.objects (Vector3f.ofRat 0 0 (-1))
      (Vector3f.ofRat 0 0 (-1) + (Vector3f.ofRat 0 0 1).scale litScene.epsilon)
      ⟨Vector3f.ofRat 0 0 1, Vector3f.ofRat 1 1 1⟩ = false := by
    simp only [specOccluded, hL, litScene, trace_floorObject_up]
  have hdw : specDiffuseWeight exampleGlobals (Vector3f.ofRat 0 0 1) (Vector3f.ofRat 0 0 (-1))
      ⟨Vector3f.ofRat 0 0 1, Vector3f.ofRat 1 1 1⟩ = Flt.fin 1 := by
    simp only [specDiffuseWeight, hL, dotProduct_ofRat]
    norm_num
  have hsw : specSpecularWeight exampleGlobals (Vector3f.ofRat 0 0 (-1)) (Vector3f.ofRat 0 0 1)
      (Vector3f.ofRat 0 0 (-1)) (Flt.fin 1) ⟨Vector3f.ofRat 0 0 1, Vector3f.ofRat 1 1 1⟩ =
      Flt.fin 1 := by
    have hrefl : reflect (Vector3f.ofRat 0 0 1).neg (Vector3f.ofRat 0 0 1) =
        Vector3f.ofRat 0 0 1 := by
      norm_num [reflect, Vector3f.neg, Vector3f.ofRat, dotProduct, Vector3f.scale,
        Vector3f.vsub_def]
    simp only [specSpecularWeight, hL, hrefl, dotProduct_ofRat]
    norm_num [exampleGlobals_powf_one]
  have hlights : litScene.lights = [⟨Vector3f.ofRat 0 0 1, Vector3f.ofRat 1 1 1⟩] := rfl
  simp only [specPhong, hlights, List.map_cons, List.map_nil, hocc, hdw, hsw]
  norm_num [sumVec, Vector3f.zero, Vector3f.ofRat, Vector3f.scale, Vector3f.mul,
    Vector3f.vadd_def]

/-- Witness for `castRay_diffuse_is_direct_phong`: in `litScene` the ray from `(0,0,0)` along
`(0,0,-1)` hits the diffuse `floorObject`, whose only light is not occluded; one unit of fuel
computes the colour `3/4` per channel. -/
theorem castRay_diffuse_is_direct_phong_witness :
    castRayFuel exampleGlobals litScene 1 Vector3f.zero (Vector3f.ofRat 0 0 (-1)) 0 =
      some (Vector3f.ofRat (3 / 4) (3 / 4) (3 / 4)) := by
  have h := castRay_diffuse_is_direct_phong exampleGlobals litScene Vector3f.zero
    (Vector3f.ofRat 0 0 (-1)) 0 ⟨Flt.fin 1, 0, ⟨Flt.fin 0, Flt.fin 0⟩, floorObject⟩
    (by simp [litScene]) (trace_floorObject_down _) (by simp [floorObject])
    (by simp [floorObject])
  have hp : Vector3f.zero + (Vector3f.ofRat 0 0 (-1)).scale (Flt.fin 1) =
      Vector3f.ofRat 0 0 (-1) := by
    norm_num [Vector3f.zero, Vector3f.ofRat, Vector3f.scale, Vector3f.vadd_def]
  have hlt : Flt.lt (dotProduct (Vector3f.ofRat 0 0 (-1)) (Vector3f.ofRat 0 0 1)) (Flt.fin 0) =
      true := by
    rw [dotProduct_ofRat]; norm_num
  rw [h.1, h.2.1]
  simp only [hp, floorObject, hlt, if_true]
  rw [specPhong_litScene]

end Whitted

/-! ## Ray-box intersection in `float` arithmetic -/

/-- The axis-parallel ray of `IntersectP_axis_ray_missed` is missed by the `float` method
too: every operation on this input is exact. -/
theorem IntersectP32_axis_ray_missed :
    Bounds3.IntersectP32 ⟨Vector3f.ofRat 0 0 0, Vector3f.ofRat 1 1 1⟩
        ⟨Vector3f.ofRat (-5) (1/2) (1/2), Vector3f.ofRat 1 0 0⟩
        (invDirOf32 (Vector3f.ofRat 1 0 0)) (dirIsNegOf (Vector3f.ofRat 1 0 0)) = false ∧
      invDirOf32 (Vector3f.ofRat 1 0 0) = ⟨Flt.fin 1, Flt.pinf, Flt.pinf⟩ := by
  refine ⟨by decide!, by decide!⟩

/-- When the ray origin is inside the box, the `float` method returns true as well: the
test precedes all arithmetic. -/
theorem IntersectP32_of_origin_inside (b : Bounds3) (ray : Ray) (invDir : Vector3f)
    (dirIsNeg : DirFlags) (h : Bounds3.Inside ray.origin b = true) :
    b.IntersectP32 ray invDir dirIsNeg = true := by
  unfold Bounds3.IntersectP32
  rw [if_pos h]

/-- The hit behind the origin of `getIntersection_hit_behind_origin` is reported by the
method with the arithmetic of the source too, with the same distance `-1`. -/
theorem getIntersection32_hit_behind_origin :
    ((Triangle.construct32 (Vector3f.ofRat 0 0 0) (Vector3f.ofRat 1 0 0) (Vector3f.ofRat 0 1 0)
        none).getIntersection32
        ⟨Vector3f.ofRat (1/4) (1/4) (-1), Vector3f.ofRat 0 0 (-1)⟩ noHit).happened = true ∧
    ((Triangle.construct32 (Vector3f.ofRat 0 0 0) (Vector3f.ofRat 1 0 0) (Vector3f.ofRat 0 1 0)
        none).getIntersection32
        ⟨Vector3f.ofRat (1/4) (1/4) (-1), Vector3f.ofRat 0 0 (-1)⟩ noHit).distance =
      Flt.fin (-1) ∧
    (rayTriangleIntersect32 (Vector3f.ofRat 0 0 0) (Vector3f.ofRat 1 0 0) (Vector3f.ofRat 0 1 0)
        (Vector3f.ofRat (1/4) (1/4) (-1)) (Vector3f.ofRat 0 0 (-1))
        (Flt.fin 0) (Flt.fin 0) (Flt.fin 0)).1 = false := by
  refine ⟨by decide!, by decide!, by decide!⟩

/-! ## Total internal reflection in `float` arithmetic -/

namespace Whitted

/-- Claim C16, the claim as stated fails in `float` arithmetic.  For
`I = (0, 0, 900963·2^-20)`, `N = (0, 0, 1)` and `ior = 16396893·2^-23` (the `float` values
`0.8592253` and `1.954662`) `refract` computes `k = -2^-23 < 0` and returns the zero vector,
while `fresnel` computes `sint = 1 - 2^-24 < 1` and returns `kr = 8372003·2^-23 < 1`, so
that the factor `1 - kr` of the refraction colour is `16605·2^-23`, not `0`. -/
theorem refract32_tir_without_fresnel32_one :
    refractK32 (Vector3f.ofRat 0 0 (900963 / 1048576)) (Vector3f.ofRat 0 0 1)
        (Flt.fin (16396893 / 8388608)) = Flt.fin (-1 / 8388608) ∧
    refract32 (Vector3f.ofRat 0 0 (900963 / 1048576)) (Vector3f.ofRat 0 0 1)
        (Flt.fin (16396893 / 8388608)) = Vector3f.zero ∧
    fresnelSint32 (Vector3f.ofRat 0 0 (900963 / 1048576)) (Vector3f.ofRat 0 0 1)
        (Flt.fin (16396893 / 8388608)) = Flt.fin (16777215 / 16777216) ∧
    fresnel32 (Vector3f.ofRat 0 0 (900963 / 1048576)) (Vector3f.ofRat 0 0 1)
        (Flt.fin (16396893 / 8388608)) = Flt.fin (8372003 / 8388608) ∧
    Flt.sub32 (Flt.fin 1) (fresnel32 (Vector3f.ofRat 0 0 (900963 / 1048576))
        (Vector3f.ofRat 0 0 1) (Flt.fin (16396893 / 8388608))) = Flt.fin (16605 / 8388608) := by
  refine ⟨by decide!, by decide!, by decide!, by decide!, by decide!⟩

end Whitted

/-! ## Rounding error of binary32 -/

namespace Flt

/-- Rounding commutes with negation. -/
theorem roundBinary_neg (p : Nat) (emin emax : Int) (q : ℚ) :
    roundBinary p emin emax (-q) = neg (roundBinary p emin emax q) := by
  unfold roundBinary
  rcases lt_trichotomy q 0 with h | h | h
  · have h1 : ¬ (0 ≤ q) := not_le.mpr h
    have h2 : (0 : ℚ) ≤ -q := by linarith
    have h3 : ¬ (0 < q) := not_lt.mpr h.le
    have h4 : (0 : ℚ) < -q := by linarith
    have h5 : q ≠ 0 := h.ne
    have h6 : -q ≠ 0 := by linarith
    simp only [h1, h2, h3, h4, h5, h6, if_true, if_false]
    split_ifs <;> simp [neg]
  · subst h
    simp [neg]
  · have h1 : (0 : ℚ) ≤ q := h.le
    have h2 : ¬ ((0 : ℚ) ≤ -q) := by linarith
    have h3 : (0 : ℚ) < q := h
    have h4 : ¬ ((0 : ℚ) < -q) := by linarith
    have h5 : q ≠ 0 := h.ne'
    have h6 : -q ≠ 0 := by linarith
    simp only [h1, h2, h3, h4, h5, h6, if_true, if_false, neg_neg]
    split_ifs <;> simp [neg]

theorem round32_neg (x : Flt) : round32 (neg x) = neg (round32 x) := by
  cases x with
  | fin q => exact roundBinary_neg 24 (-126) 127 q
  | pinf => rfl
  | ninf => rfl
  | nan => rfl

/-- With a zero first operand and a finite non-zero rounded sum `0 + a`, the rounded
quotient `(0 - a) / (0 + a)` is `-1`. -/
theorem div32_sub32_add32_zero (a : Flt) (h : (add32 (fin 0) a).isFinite = true)
    (h0 : eq (add32 (fin 0) a) (fin 0) = false) :
    div32 (sub32 (fin 0) a) (add32 (fin 0) a) = fin (-1) := by
  have hs : sub32 (fin 0) a = neg (add32 (fin 0) a) := by
    cases a with
    | fin x =>
      show round32 (fin 0 - fin x) = neg (round32 (fin 0 + fin x))
      rw [fin_sub_fin, fin_add_fin, zero_sub, zero_add]
      exact round32_neg (fin x)
    | pinf => rfl
    | ninf => rfl
    | nan => rfl
  rw [hs]
  cases hy : add32 (fin 0) a with
  | fin y =>
    rw [hy] at h0
    have hy0 : y ≠ 0 := by simpa using h0
    show round32 (fin (-y) / fin y) = fin (-1)
    rw [fin_div_fin _ _ hy0, neg_div, div_self hy0]
    decide!
  | pinf => rw [hy] at h; simp [isFinite] at h
  | ninf => rw [hy] at h; simp [isFinite] at h
  | nan => rw [hy] at h; simp [isFinite] at h

end Flt

namespace Flt

theorem pow2_eq_zpow (k : Int) : pow2 k = (2 : ℚ) ^ k := by
  unfold pow2
  split_ifs with h
  · lift k to ℕ using h
    simp
  · have hk : k = -(((-k).toNat : ℕ) : ℤ) := by omega
    generalize (-k).toNat = n at hk
    subst hk
    simp

theorem pow2_pos (k : Int) : 0 < pow2 k := by
  rw [pow2_eq_zpow]; positivity

theorem pow2_add (a b : Int) : pow2 (a + b) = pow2 a * pow2 b := by
  simp only [pow2_eq_zpow]
  exact zpow_add₀ (by norm_num) a b

theorem pow2_le_pow2 {a b : Int} (h : a ≤ b) : pow2 a ≤ pow2 b := by
  simp only [pow2_eq_zpow]
  exact zpow_le_zpow_right₀ (by norm_num) h

theorem log2Aux_spec (fuel : Nat) : ∀ n : Nat, n ≤ fuel → 0 < n →
    2 ^ log2Aux fuel n ≤ n ∧ n < 2 ^ (log2Aux fuel n + 1) := by
  induction fuel with
  | zero => intro n h1 h2; omega
  | succ fuel ih =>
    intro n h1 h2
    unfold log2Aux
    split_ifs with h
    · have : n = 1 := by omega
      subst this; simp
    · have hdiv : n / 2 ≤ fuel := by omega
      have hpos : 0 < n / 2 := by omega
      obtain ⟨i1, i2⟩ := ih (n / 2) hdiv hpos
      constructor
      · rw [pow_succ]; omega
      · rw [pow_succ]; omega

theorem natLog2_spec (n : Nat) (h : 0 < n) :
    2 ^ natLog2 n ≤ n ∧ n < 2 ^ (natLog2 n + 1) := log2Aux_spec n n le_rfl h

/-- The binary exponent brackets the number: `2^e ≤ a < 2^(e+1)`. -/
theorem ilog2_spec (a : ℚ) (ha : 0 < a) : pow2 (ilog2 a) ≤ a ∧ a < pow2 (ilog2 a + 1) := by
  have hnum : 0 < a.num := Rat.num_pos.mpr ha
  have hn : 0 < a.num.natAbs := Int.natAbs_pos.mpr hnum.ne'
  have hd : 0 < a.den := a.den_pos
  obtain ⟨n1, n2⟩ := natLog2_spec _ hn
  obtain ⟨d1, d2⟩ := natLog2_spec _ hd
  have h2 : ((a.num.natAbs : ℕ) : ℚ) = (a.num : ℚ) := by
    rw [Nat.cast_natAbs, Int.cast_abs, abs_of_nonneg (by exact_mod_cast hnum.le)]
  have hA : a * (a.den : ℚ) = (a.num.natAbs : ℚ) := by
    rw [h2]; exact Rat.mul_den_eq_num a
  have hdq : (0 : ℚ) < (a.den : ℚ) := by exact_mod_cast hd
  have N1 : ((2 : ℚ) ^ natLog2 a.num.natAbs) ≤ (a.num.natAbs : ℚ) := by exact_mod_cast n1
  have N2 : (a.num.natAbs : ℚ) < (2 : ℚ) ^ (natLog2 a.num.natAbs + 1) := by exact_mod_cast n2
  have D1 : ((2 : ℚ) ^ natLog2 a.den) ≤ (a.den : ℚ) := by exact_mod_cast d1
  have D2 : (a.den : ℚ) < (2 : ℚ) ^ (natLog2 a.den + 1) := by exact_mod_cast d2
  -- bounds with integer exponents
  have lo : pow2 ((natLog2 a.num.natAbs : ℤ) - (natLog2 a.den : ℤ) - 1) < a := by
    rw [pow2_eq_zpow]
    refine (mul_lt_mul_right hdq).mp ?_
    rw [hA]
    have e : (2 : ℚ) ^ ((natLog2 a.num.natAbs : ℤ) - (natLog2 a.den : ℤ) - 1) *
        (2 : ℚ) ^ (natLog2 a.den + 1) = (2 : ℚ) ^ natLog2 a.num.natAbs := by
      rw [← zpow_natCast, ← zpow_natCast, ← zpow_add₀ (by norm_num)]
      congr 1
      push_cast
      ring
    have p : (0 : ℚ) < (2 : ℚ) ^ ((natLog2 a.num.natAbs : ℤ) - (natLog2 a.den : ℤ) - 1) := by
      positivity
    calc (2 : ℚ) ^ ((natLog2 a.num.natAbs : ℤ) - (natLog2 a.den : ℤ) - 1) * (a.den : ℚ)
        < (2 : ℚ) ^ ((natLog2 a.num.natAbs : ℤ) - (natLog2 a.den : ℤ) - 1) *
          (2 : ℚ) ^ (natLog2 a.den + 1) := by
          exact mul_lt_mul_of_pos_left D2 p
      _ = (2 : ℚ) ^ natLog2 a.num.natAbs := e
      _ ≤ (a.num.natAbs : ℚ) := N1
  have hi : a < pow2 ((natLog2 a.num.natAbs : ℤ) - (natLog2 a.den : ℤ) + 1) := by
    rw [pow2_eq_zpow]
    refine (mul_lt_mul_right hdq).mp ?_
    rw [hA]
    have e : (2 : ℚ) ^ ((natLog2 a.num.natAbs : ℤ) - (natLog2 a.den : ℤ) + 1) *
        (2 : ℚ) ^ (natLog2 a.den) = (2 : ℚ) ^ (natLog2 a.num.natAbs + 1) := by
      rw [← zpow_natCast, ← zpow_natCast, ← zpow_add₀ (by norm_num)]
      congr 1
      push_cast
      ring
    have p : (0 : ℚ) < (2 : ℚ) ^ ((natLog2 a.num.natAbs : ℤ) - (natLog2 a.den : ℤ) + 1) := by
      positivity
    calc (a.num.natAbs : ℚ) < (2 : ℚ) ^ (natLog2 a.num.natAbs + 1) := N2
      _ = (2 : ℚ) ^ ((natLog2 a.num.natAbs : ℤ) - (natLog2 a.den : ℤ) + 1) *
          (2 : ℚ) ^ (natLog2 a.den) := e.symm
      _ ≤ (2 : ℚ) ^ ((natLog2 a.num.natAbs : ℤ) - (natLog2 a.den : ℤ) + 1) * (a.den : ℚ) :=
          mul_le_mul_of_nonneg_left D1 p.le
  unfold ilog2
  simp only
  split_ifs with h
  · exact ⟨h, hi⟩
  · refine ⟨lo.le, ?_⟩
    have : (natLog2 a.num.natAbs : ℤ) - (natLog2 a.den : ℤ) - 1 + 1 =
        (natLog2 a.num.natAbs : ℤ) - (natLog2 a.den : ℤ) := by ring
    rw [this]
    exact not_le.mp h

/-- Rounding to the nearest integer moves a non-negative number by at most `1/2` and does not
go below its integer part. -/
theorem roundHalfEven_spec (x : ℚ) (hx : 0 ≤ x) :
    |(roundHalfEven x : ℚ) - x| ≤ 1 / 2 ∧ ⌊x⌋₊ ≤ roundHalfEven x := by
  have hnum : 0 ≤ x.num := Rat.num_nonneg.mpr hx
  have h2 : ((x.num.natAbs : ℕ) : ℚ) = (x.num : ℚ) := by
    rw [Nat.cast_natAbs, Int.cast_abs, abs_of_nonneg (by exact_mod_cast hnum)]
  have hq : ((x.num.natAbs : ℕ) : ℚ) / ((x.den : ℕ) : ℚ) = x := by
    rw [h2]
    exact Rat.num_div_den x
  have hf : ⌊x⌋₊ = x.num.natAbs / x.den := by
    have h3 : ⌊((x.num.natAbs : ℕ) : ℚ) / ((x.den : ℕ) : ℚ)⌋₊ = x.num.natAbs / x.den :=
      Nat.floor_div_eq_div _ _
    rw [hq] at h3
    exact h3
  have f1 : ((x.num.natAbs / x.den : ℕ) : ℚ) ≤ x := by
    rw [← hf]; exact Nat.floor_le hx
  have f2 : x < ((x.num.natAbs / x.den : ℕ) : ℚ) + 1 := by
    rw [← hf]; exact Nat.lt_floor_add_one x
  rw [hf]
  unfold roundHalfEven
  simp only
  split_ifs with h1 h2 h3
  · refine ⟨?_, le_rfl⟩
    rw [abs_le]; constructor <;> linarith
  · refine ⟨?_, Nat.le_succ _⟩
    push_cast
    rw [abs_le]; constructor <;> linarith
  · refine ⟨?_, le_rfl⟩
    rw [abs_le]; constructor <;> linarith
  · refine ⟨?_, Nat.le_succ _⟩
    push_cast
    rw [abs_le]; constructor <;> linarith

end Flt

namespace Flt

theorem pow2_neg23 : pow2 (-23) = 1 / 8388608 := by
  rw [pow2_eq_zpow]; norm_num [zpow_neg]

theorem pow2_neg149 : pow2 (-149) = 1 / 713623846352979940529142984724747568191373312 := by
  rw [pow2_eq_zpow]; norm_num [zpow_neg]

theorem pow2_zero : pow2 0 = 1 := by
  rw [pow2_eq_zpow]; norm_num

/-- The spacing of binary32 around a positive number `a` is at most `a · 2^-23`, or the
subnormal spacing `2^-149`. -/
theorem quantum32_le (a : ℚ) (ha : 0 < a) :
    pow2 (max (ilog2 a) (-126) - 23) ≤
      a / 8388608 + 1 / 713623846352979940529142984724747568191373312 := by
  rcases le_total (ilog2 a) (-126) with h | h
  · rw [max_eq_right h]
    have : (-126 : ℤ) - 23 = -149 := by norm_num
    rw [this, pow2_neg149]
    have : 0 ≤ a / 8388608 := by positivity
    linarith
  · rw [max_eq_left h]
    have e : ilog2 a - 23 = ilog2 a + (-23) := by ring
    rw [e, pow2_add, pow2_neg23]
    have h1 := (ilog2_spec a ha).1
    have : pow2 (ilog2 a) * (1 / 8388608) ≤ a / 8388608 := by
      rw [mul_one_div]
      exact div_le_div_of_nonneg_right h1 (by norm_num)
    linarith

/-- The value of a finite binary32 rounding of a positive number. -/
theorem round32_fin_pos (a y : ℚ) (ha : 0 < a) (h : round32 (fin a) = fin y) :
    y = (roundHalfEven (a / pow2 (max (ilog2 a) (-126) - 23)) : ℚ) *
      pow2 (max (ilog2 a) (-126) - 23) := by
  have h0 : a ≠ 0 := ha.ne'
  have h1 : (0 : ℚ) ≤ a := ha.le
  simp only [round32, roundBinary, h0, h1, ha, if_true, if_false, Nat.cast_ofNat] at h
  have e : ((24 : ℤ) - 1) = 23 := by norm_num
  rw [e] at h
  split_ifs at h
  exact (fin.inj h).symm

/-- The error of a finite binary32 rounding of a non-negative number `a` is at most
`a · 2^-24 + 2^-150`. -/
theorem round32_error (a y : ℚ) (ha : 0 ≤ a) (h : round32 (fin a) = fin y) :
    |y - a| ≤ a / 16777216 + 1 / 1427247692705959881058285969449495136382746624 := by
  rcases ha.eq_or_lt with h0 | hpos
  · subst h0
    have : round32 (fin 0) = fin 0 := by decide!
    rw [this] at h
    have hy : y = 0 := (fin.inj h).symm
    subst hy
    norm_num
  · have hy := round32_fin_pos a y hpos h
    have hq := quantum32_le a hpos
    have hqp := pow2_pos (max (ilog2 a) (-126) - 23)
    set Q := pow2 (max (ilog2 a) (-126) - 23) with hQ
    have hz : 0 ≤ a / Q := by positivity
    obtain ⟨hr, _⟩ := roundHalfEven_spec (a / Q) hz
    have key : y - a = ((roundHalfEven (a / Q) : ℚ) - a / Q) * Q := by
      rw [hy]; field_simp
    rw [key, abs_mul, abs_of_pos hqp]
    have : |(roundHalfEven (a / Q) : ℚ) - a / Q| * Q ≤ 1 / 2 * Q :=
      mul_le_mul_of_nonneg_right hr hqp.le
    linarith

/-- Rounding to binary32 does not take a number `≥ 1` below `1`. -/
theorem round32_ge_one (a : ℚ) (ha : 1 ≤ a) : ge (round32 (fin a)) (fin 1) = true := by
  have hpos : 0 < a := by linarith
  cases hr : round32 (fin a) with
  | fin y =>
    have hy := round32_fin_pos a y hpos hr
    obtain ⟨s1, s2⟩ := ilog2_spec a hpos
    have he : 0 ≤ ilog2 a := by
      by_contra hneg
      have : ilog2 a + 1 ≤ 0 := by omega
      have := pow2_le_pow2 this
      rw [pow2_zero] at this
      linarith
    have hmax : max (ilog2 a) (-126) = ilog2 a := max_eq_left (by omega)
    rw [hmax] at hy
    have hqp := pow2_pos (ilog2 a - 23)
    have hsplit : pow2 (ilog2 a) = 8388608 * pow2 (ilog2 a - 23) := by
      have e : ilog2 a = (ilog2 a - 23) + 23 := by ring
      conv_lhs => rw [e, pow2_add]
      have : pow2 23 = 8388608 := by rw [pow2_eq_zpow]; norm_num
      rw [this]; ring
    have hz : (8388608 : ℚ) ≤ a / pow2 (ilog2 a - 23) := by
      rw [le_div_iff₀ hqp, ← hsplit]; exact s1
    have hz0 : 0 ≤ a / pow2 (ilog2 a - 23) := by positivity
    obtain ⟨_, hfl⟩ := roundHalfEven_spec (a / pow2 (ilog2 a - 23)) hz0
    have hfl2 : (8388608 : ℕ) ≤ ⌊a / pow2 (ilog2 a - 23)⌋₊ := by
      apply Nat.le_floor
      exact_mod_cast hz
    have hm : (8388608 : ℚ) ≤ (roundHalfEven (a / pow2 (ilog2 a - 23)) : ℚ) := by
      exact_mod_cast le_trans hfl2 hfl
    have h1 : (1 : ℚ) ≤ pow2 (ilog2 a) := by
      have := pow2_le_pow2 he
      rwa [pow2_zero] at this
    have : (1 : ℚ) ≤ y := by
      rw [hy]
      calc (1 : ℚ) ≤ pow2 (ilog2 a) := h1
        _ = 8388608 * pow2 (ilog2 a - 23) := hsplit
        _ ≤ _ := mul_le_mul_of_nonneg_right hm hqp.le
    simp [this]
  | pinf => rfl
  | ninf =>
    exfalso
    have h0 : a ≠ 0 := hpos.ne'
    simp only [round32, roundBinary, h0, hpos.le, hpos, if_true, if_false] at hr
    split_ifs at hr
  | nan =>
    exfalso
    have h0 : a ≠ 0 := hpos.ne'
    simp only [round32, roundBinary, h0, hpos.le, hpos, if_true, if_false] at hr
    split_ifs at hr

end Flt

namespace Flt

theorem isqrtAux_spec (n : Nat) : ∀ k r : Nat, n < (r + 2 ^ k) * (r + 2 ^ k) →
    n < (isqrtAux n k r + 1) * (isqrtAux n k r + 1) := by
  intro k
  induction k with
  | zero => intro r h; simpa [isqrtAux] using h
  | succ k ih =>
    intro r h
    unfold isqrtAux
    split_ifs with hc
    · apply ih
      have : r + 2 ^ k + 2 ^ k = r + 2 ^ (k + 1) := by rw [pow_succ]; ring
      rw [this]; exact h
    · exact ih r (not_le.mp hc)

/-- The binary32 square root of a positive number `A` is a non-negative number `R` with
`A ≤ (R · (1 + 2^-24))²`. -/
theorem sqrt32_lower (A : ℚ) (hA : 0 < A) :
    ∃ R : ℚ, 0 ≤ R ∧ sqrt32 (fin A) = fin R ∧
      A ≤ (R * (1 + 1 / 16777216)) * (R * (1 + 1 / 16777216)) := by
  obtain ⟨s1, s2⟩ := ilog2_spec A hA
  set e := ilog2 A / 2 with he
  have he1 : 2 * e ≤ ilog2 A := by omega
  have he2 : ilog2 A + 1 ≤ 2 * e + 2 := by omega
  set Q := pow2 (e - 23) with hQ
  have hQp : 0 < Q := pow2_pos _
  have hQQ : Q * Q = pow2 (2 * e - 46) := by
    rw [hQ, ← pow2_add]; congr 1; ring
  set s := A / (Q * Q) with hs
  have hs0 : 0 ≤ s := by positivity
  have hAs : A = s * (Q * Q) := by rw [hs]; field_simp
  have p46 : pow2 46 = 70368744177664 := by rw [pow2_eq_zpow]; norm_num
  have p48 : pow2 48 = 281474976710656 := by rw [pow2_eq_zpow]; norm_num
  -- 2^46 ≤ s < 2^48
  have hlo : (70368744177664 : ℚ) ≤ s := by
    rw [hs, le_div_iff₀ (by positivity), hQQ, ← p46, ← pow2_add]
    have : (46 : ℤ) + (2 * e - 46) = 2 * e := by ring
    rw [this]
    exact le_trans (pow2_le_pow2 he1) s1
  have hhi : s < (281474976710656 : ℚ) := by
    rw [hs, div_lt_iff₀ (by positivity), hQQ, ← p48, ← pow2_add]
    have : (48 : ℤ) + (2 * e - 46) = 2 * e + 2 := by ring
    rw [this]
    exact lt_of_lt_of_le s2 (pow2_le_pow2 he2)
  -- the integer part of s
  have hnum : 0 ≤ s.num := Rat.num_nonneg.mpr hs0
  have h2 : ((s.num.natAbs : ℕ) : ℚ) = (s.num : ℚ) := by
    rw [Nat.cast_natAbs, Int.cast_abs, abs_of_nonneg (by exact_mod_cast hnum)]
  have hq : ((s.num.natAbs : ℕ) : ℚ) / ((s.den : ℕ) : ℚ) = s := by
    rw [h2]; exact Rat.num_div_den s
  have hf : ⌊s⌋₊ = s.num.natAbs / s.den := by
    have h3 : ⌊((s.num.natAbs : ℕ) : ℚ) / ((s.den : ℕ) : ℚ)⌋₊ = s.num.natAbs / s.den :=
      Nat.floor_div_eq_div _ _
    rw [hq] at h3
    exact h3
  set n := s.num.natAbs / s.den with hn
  have hn1 : (70368744177664 : ℕ) ≤ n := by
    rw [← hf]; apply Nat.le_floor; exact_mod_cast hlo
  have hn2 : n < 281474976710656 := by
    rw [← hf]; apply (Nat.floor_lt hs0).mpr; exact_mod_cast hhi
  set f := isqrtAux n 24 0 with hfdef
  have hup : n < (f + 1) * (f + 1) := by
    apply isqrtAux_spec
    norm_num
    exact hn2
  have hf23 : 8388608 ≤ f := by
    by_contra hlt
    have hlt' : f + 1 ≤ 8388608 := by omega
    have : (f + 1) * (f + 1) ≤ 8388608 * 8388608 := Nat.mul_le_mul hlt' hlt'
    omega
  have hsup : s < ((f : ℚ) + 1) * ((f : ℚ) + 1) := by
    have h1 : s < (n : ℚ) + 1 := by
      rw [← hf]; exact Nat.lt_floor_add_one s
    have h2 : (n : ℚ) + 1 ≤ ((f : ℚ) + 1) * ((f : ℚ) + 1) := by
      have : n + 1 ≤ (f + 1) * (f + 1) := hup
      exact_mod_cast this
    linarith
  have hfq : (8388608 : ℚ) ≤ (f : ℚ) := by exact_mod_cast hf23
  -- the rounded mantissa
  have hval : ∃ m : ℕ, f ≤ m ∧ s ≤ ((m : ℚ) + 1 / 2) * ((m : ℚ) + 1 / 2) ∧
      sqrt32 (fin A) = fin ((m : ℚ) * Q) := by
    have hu : sqrt32 (fin A) = fin (((if s < ((f : ℚ) + 1 / 2) * ((f : ℚ) + 1 / 2) then f
        else if ((f : ℚ) + 1 / 2) * ((f : ℚ) + 1 / 2) < s then f + 1
        else if f % 2 = 0 then f else f + 1 : ℕ) : ℚ) * Q) := by
      have hneg : ¬ A < 0 := not_lt.mpr hA.le
      have hne : A ≠ 0 := hA.ne'
      simp only [sqrt32, hneg, hne, if_false, sqrtBinary, Nat.cast_ofNat]
      have e23 : ((24 : ℤ) - 1) = 23 := by norm_num
      rw [e23]
    rw [hu]
    split_ifs with c1 c2 c3
    · exact ⟨f, le_rfl, c1.le, rfl⟩
    · refine ⟨f + 1, Nat.le_succ _, ?_, rfl⟩
      push_cast
      nlinarith
    · exact ⟨f, le_rfl, not_lt.mp c2, rfl⟩
    · refine ⟨f + 1, Nat.le_succ _, ?_, rfl⟩
      push_cast
      nlinarith
  obtain ⟨m, hm1, hm2, hm3⟩ := hval
  have hmq : (8388608 : ℚ) ≤ (m : ℚ) := by
    have : (f : ℚ) ≤ (m : ℚ) := by exact_mod_cast hm1
    linarith
  refine ⟨(m : ℚ) * Q, by positivity, hm3, ?_⟩
  have hstep : (m : ℚ) + 1 / 2 ≤ (m : ℚ) * (1 + 1 / 16777216) := by linarith
  have hm0 : (0 : ℚ) ≤ (m : ℚ) + 1 / 2 := by positivity
  have hsq : ((m : ℚ) + 1 / 2) * ((m : ℚ) + 1 / 2) ≤
      ((m : ℚ) * (1 + 1 / 16777216)) * ((m : ℚ) * (1 + 1 / 16777216)) :=
    mul_le_mul hstep hstep hm0 (le_trans hm0 hstep)
  calc A = s * (Q * Q) := hAs
    _ ≤ (((m : ℚ) * (1 + 1 / 16777216)) * ((m : ℚ) * (1 + 1 / 16777216))) * (Q * Q) :=
        mul_le_mul_of_nonneg_right (le_trans hm2 hsq) (by positivity)
    _ = _ := by ring

end Flt

namespace Flt

theorem round32_zero : round32 (fin 0) = fin 0 := by decide!

/-- Rounding keeps the sign: a non-negative number is rounded to a non-negative number. -/
theorem round32_nonneg (x y : ℚ) (hx : 0 ≤ x) (h : round32 (fin x) = fin y) : 0 ≤ y := by
  rcases hx.eq_or_lt with h0 | hpos
  · subst h0
    rw [round32_zero] at h
    rw [← fin.inj h]
  · rw [round32_fin_pos x y hpos h]
    have := pow2_pos (max (ilog2 x) (-126) - 23)
    positivity

/-- Rounding keeps the sign: a non-positive number is rounded to a non-positive number. -/
theorem round32_nonpos (x y : ℚ) (hx : x ≤ 0) (h : round32 (fin x) = fin y) : y ≤ 0 := by
  have h1 : round32 (neg (fin x)) = neg (fin y) := by rw [round32_neg, h]
  have h2 : round32 (fin (-x)) = fin (-y) := h1
  have := round32_nonneg (-x) (-y) (by linarith) h2
  linarith

/-- The error bound of `round32_error` for a number of either sign. -/
theorem round32_error_abs (x y : ℚ) (h : round32 (fin x) = fin y) :
    |y - x| ≤ |x| / 16777216 + 1 / 1427247692705959881058285969449495136382746624 := by
  rcases le_total 0 x with hx | hx
  · rw [abs_of_nonneg hx]
    exact round32_error x y hx h
  · have h1 : round32 (neg (fin x)) = neg (fin y) := by rw [round32_neg, h]
    have h2 : round32 (fin (-x)) = fin (-y) := h1
    have := round32_error (-x) (-y) (by linarith) h2
    rw [abs_of_nonpos hx]
    have e : -y - -x = -(y - x) := by ring
    rw [e, abs_neg] at this
    exact this

theorem round32_eq_fin_inv {x : Flt} {y : ℚ} (h : round32 x = fin y) : ∃ q, x = fin q := by
  cases x with
  | fin q => exact ⟨q, rfl⟩
  | pinf => simp [round32] at h
  | ninf => simp [round32] at h
  | nan => simp [round32] at h

theorem mul_eq_fin_inv {a b : Flt} {y : ℚ} (h : a * b = fin y) :
    ∃ p q, a = fin p ∧ b = fin q := by
  cases a <;> cases b <;>
    first
    | exact ⟨_, _, rfl, rfl⟩
    | (exfalso
       simp only [mul_def, mul, infOfSign] at h
       first
       | cases h
       | (split_ifs at h))

theorem one_sub_eq_fin_inv {b : Flt} {y : ℚ} (h : fin 1 - b = fin y) : ∃ q, b = fin q := by
  cases b with
  | fin q => exact ⟨q, rfl⟩
  | pinf => simp [sub_def, add, neg] at h
  | ninf => simp [sub_def, add, neg] at h
  | nan => simp [sub_def, add, neg] at h

/-- The two tests for total internal reflection, on the common `float` values `eta` and
`A = 1 - cosi²`: when `1 - eta·eta·A`, as computed, is a finite number `≤ -2^-20`, the
computed `eta · sqrtf(max(0, A))` is at least 1. -/
theorem sint_ge_one_of_k_le (ETA A : Flt) (kq : ℚ)
    (hη : ∀ η, ETA = fin η → 0 ≤ η) (hA : ∀ a, A = fin a → a ≤ 2)
    (hk : sub32 (fin 1) (mul32 (mul32 ETA ETA) A) = fin kq) (hkq : kq ≤ -1 / 1048576) :
    ge (mul32 ETA (sqrt32 (stdMax (fin 0) A))) (fin 1) = true := by
  -- all intermediate values are finite
  obtain ⟨d, hd⟩ := round32_eq_fin_inv hk
  obtain ⟨p, hp⟩ := one_sub_eq_fin_inv hd
  obtain ⟨x, hx⟩ := round32_eq_fin_inv hp
  obtain ⟨e', a, he', ha⟩ := mul_eq_fin_inv hx
  obtain ⟨w, hw⟩ := round32_eq_fin_inv he'
  obtain ⟨η, _, hη1, _⟩ := mul_eq_fin_inv hw
  have hη0 : 0 ≤ η := hη η hη1
  have ha2 : a ≤ 2 := hA a ha
  -- unfold to rationals
  have Ew : round32 (fin (η * η)) = fin e' := by
    have : mul32 ETA ETA = round32 (ETA * ETA) := rfl
    rw [this, hη1, fin_mul_fin] at he'; exact he'
  have Px : round32 (fin (e' * a)) = fin p := by
    have : mul32 (mul32 ETA ETA) A = round32 (mul32 ETA ETA * A) := rfl
    rw [this, he', ha, fin_mul_fin] at hp; exact hp
  have Kd : round32 (fin (1 - p)) = fin kq := by
    have : sub32 (fin 1) (mul32 (mul32 ETA ETA) A) =
        round32 (fin 1 - mul32 (mul32 ETA ETA) A) := rfl
    rw [this, hp, fin_sub_fin] at hk; exact hk
  -- the margin survives the three roundings
  have e0 : 0 ≤ e' := round32_nonneg _ _ (mul_self_nonneg η) Ew
  have hp1 : 1 + 15 / 16777216 ≤ p := by
    by_contra hlt
    push_neg at hlt
    rcases le_total (1 - p) 0 with hneg | hpos
    · have := round32_error_abs (1 - p) kq Kd
      rw [abs_of_nonpos hneg, abs_le] at this
      linarith [this.1, this.2]
    · have := round32_nonneg _ _ hpos Kd
      linarith
  have hx1 : 1 + 13 / 16777216 ≤ e' * a := by
    by_contra hlt
    push_neg at hlt
    rcases le_total (e' * a) 0 with hneg | hpos
    · have := round32_nonpos _ _ hneg Px
      linarith
    · have := round32_error (e' * a) p hpos Px
      rw [abs_le] at this
      linarith [this.1, this.2]
  have a0 : 0 < a := by
    by_contra hle
    push_neg at hle
    have : e' * a ≤ 0 := mul_nonpos_of_nonneg_of_nonpos e0 hle
    linarith
  have hw1 : 1 + 11 / 16777216 ≤ η * η * a := by
    have herr := round32_error (η * η) e' (mul_self_nonneg η) Ew
    rw [abs_le] at herr
    have h1 : e' ≤ η * η + η * η / 16777216 +
        1 / 1427247692705959881058285969449495136382746624 := by linarith [herr.2]
    have h2 : e' * a ≤ (η * η + η * η / 16777216 +
        1 / 1427247692705959881058285969449495136382746624) * a :=
      mul_le_mul_of_nonneg_right h1 a0.le
    have h3 : (1 / 1427247692705959881058285969449495136382746624 : ℚ) * a ≤
        2 / 1427247692705959881058285969449495136382746624 := by
      have : (0 : ℚ) ≤ 1 / 1427247692705959881058285969449495136382746624 := by norm_num
      nlinarith
    nlinarith
  -- the square root
  have hmax : stdMax (fin 0) A = fin a := by
    rw [ha, stdMax_fin, max_eq_right a0.le]
  obtain ⟨R, hR0, hR, hRa⟩ := sqrt32_lower a a0
  have hprod : 1 ≤ η * R := by
    by_contra hlt
    push_neg at hlt
    have hnn : 0 ≤ η * R := mul_nonneg hη0 hR0
    have hsq : (η * R) * (η * R) < 1 := by nlinarith
    have hup : η * η * a ≤ (η * η) * ((R * (1 + 1 / 16777216)) * (R * (1 + 1 / 16777216))) :=
      mul_le_mul_of_nonneg_left hRa (mul_self_nonneg η)
    have hring : (η * η) * ((R * (1 + 1 / 16777216)) * (R * (1 + 1 / 16777216))) =
        ((η * R) * (η * R)) * ((1 + 1 / 16777216) * (1 + 1 / 16777216)) := by ring
    have hc : ((η * R) * (η * R)) * ((1 + 1 / 16777216 : ℚ) * (1 + 1 / 16777216)) <
        1 * ((1 + 1 / 16777216) * (1 + 1 / 16777216)) :=
      mul_lt_mul_of_pos_right hsq (by norm_num)
    have hnum : (1 : ℚ) * ((1 + 1 / 16777216) * (1 + 1 / 16777216)) < 1 + 11 / 16777216 := by
      norm_num
    linarith
  have : mul32 ETA (sqrt32 (stdMax (fin 0) A)) = round32 (fin (η * R)) := by
    show round32 (ETA * sqrt32 (stdMax (fin 0) A)) = _
    rw [hmax, hR, hη1, fin_mul_fin]
  rw [this]
  exact round32_ge_one _ hprod

end Flt

namespace Flt

/-- The computed `1 - c²` is at most 2 (it is `1` up to two roundings). -/
theorem one_sub_sq32_le (c a : ℚ) (h : sub32 (fin 1) (mul32 (fin c) (fin c)) = fin a) :
    a ≤ 2 := by
  have h1 : round32 (fin 1 - mul32 (fin c) (fin c)) = fin a := h
  obtain ⟨d, hd⟩ := round32_eq_fin_inv h1
  obtain ⟨c2, hc2⟩ := one_sub_eq_fin_inv hd
  have hc2' : round32 (fin (c * c)) = fin c2 := hc2
  have c20 : 0 ≤ c2 := round32_nonneg _ _ (mul_self_nonneg c) hc2'
  rw [hc2, fin_sub_fin] at h1
  rcases le_total (1 - c2) 0 with hneg | hpos
  · have := round32_nonpos _ _ hneg h1
    linarith
  · have := round32_error _ _ hpos h1
    rw [abs_le] at this
    linarith [this.2]

end Flt

namespace Whitted

theorem refract32_of_refractK32_neg (I N : Vector3f) (ior : Flt)
    (h : Flt.lt (refractK32 I N ior) (Flt.fin 0) = true) :
    refract32 I N ior = Vector3f.zero := by
  unfold refractK32 at h
  simp only [refract32, h, if_true]

/-- Total internal reflection with a margin: when the computed `cosi` is finite and not
zero, `ior > 0`, and the `k` computed by `refract` is a finite number `≤ -2^-20`, the `sint`
computed by `fresnel` is at least 1. -/
theorem fresnelSint32_ge_one_of_refractK32_le (I N : Vector3f) (ior : ℚ) (hior : 0 < ior)
    (hc : finiteNonzero (clamp (Flt.fin (-1)) (Flt.fin 1) (dotProduct32 I N)) = true)
    (hfin : (refractK32 I N (Flt.fin ior)).isFinite = true)
    (hk : Flt.le (refractK32 I N (Flt.fin ior)) (Flt.fin (-1 / 1048576)) = true) :
    Flt.ge (fresnelSint32 I N (Flt.fin ior)) (Flt.fin 1) = true := by
  simp only [finiteNonzero, Bool.and_eq_true, Bool.not_eq_true'] at hc
  obtain ⟨c0, hc0⟩ := Flt.exists_of_isFinite hc.1
  obtain ⟨kq, hkq⟩ := Flt.exists_of_isFinite hfin
  have hne : c0 ≠ 0 := by
    have := hc.2
    rw [hc0] at this
    simpa using this
  rw [hkq] at hk
  have hkle : kq ≤ -1 / 1048576 := by simpa using hk
  have hi0 : ior ≠ 0 := hior.ne'
  unfold refractK32 at hkq
  unfold fresnelSint32
  simp only [hc0, Flt.lt_fin, Flt.gt_fin, Flt.neg_fin] at hkq ⊢
  have hsq : Flt.mul32 (Flt.fin (-c0)) (Flt.fin (-c0)) = Flt.mul32 (Flt.fin c0) (Flt.fin c0) := by
    show Flt.round32 (Flt.fin (-c0) * Flt.fin (-c0)) = Flt.round32 (Flt.fin c0 * Flt.fin c0)
    rw [Flt.fin_mul_fin, Flt.fin_mul_fin, neg_mul_neg]
  rcases lt_or_gt_of_ne hne with hneg | hpos
  · have h1 : ¬ (0 < c0) := not_lt.mpr hneg.le
    simp only [hneg, h1, decide_True, decide_False, if_true, Bool.false_eq_true, if_false,
      hsq] at hkq ⊢
    refine Flt.sint_ge_one_of_k_le _ _ kq ?_ (fun a ha => Flt.one_sub_sq32_le c0 a ha) hkq hkle
    intro η hη
    have : Flt.round32 (Flt.fin (1 / ior)) = Flt.fin η := by
      have e : Flt.div32 (Flt.fin 1) (Flt.fin ior) = Flt.round32 (Flt.fin 1 / Flt.fin ior) := rfl
      rw [e, Flt.fin_div_fin _ _ hi0] at hη
      exact hη
    exact Flt.round32_nonneg _ _ (by positivity) this
  · have h1 : ¬ (c0 < 0) := not_lt.mpr hpos.le
    simp only [hpos, h1, decide_True, decide_False, if_true, Bool.false_eq_true, if_false]
      at hkq ⊢
    refine Flt.sint_ge_one_of_k_le _ _ kq ?_ (fun a ha => Flt.one_sub_sq32_le c0 a ha) hkq hkle
    intro η hη
    have : Flt.round32 (Flt.fin (ior / 1)) = Flt.fin η := by
      have e : Flt.div32 (Flt.fin ior) (Flt.fin 1) = Flt.round32 (Flt.fin ior / Flt.fin 1) := rfl
      rw [e, Flt.fin_div_fin _ _ one_ne_zero] at hη
      exact hη
    exact Flt.round32_nonneg _ _ (by positivity) this

end Whitted

namespace Whitted

theorem fresnel32_of_sint_ge (I N : Vector3f) (ior : Flt)
    (h : Flt.ge (fresnelSint32 I N ior) (Flt.fin 1) = true) : fresnel32 I N ior = Flt.fin 1 := by
  unfold fresnelSint32 at h
  simp only [fresnel32, h, if_true]

/-- At a computed `cosi = 0`, when the two denominators are finite and not zero, both
polarisation terms are computed as `-1` and `fresnel` returns 1. -/
theorem fresnel32_grazing (I N : Vector3f) (ior : ℚ)
    (hc : clamp (Flt.fin (-1)) (Flt.fin 1) (dotProduct32 I N) = Flt.fin 0)
    (h1 : finiteNonzero (fresnelRsDen32 I N (Flt.fin ior)) = true)
    (h2 : finiteNonzero (fresnelRpDen32 I N (Flt.fin ior)) = true) :
    fresnel32 I N (Flt.fin ior) = Flt.fin 1 := by
  have hr0 : Flt.round32 (Flt.fin 0) = Flt.fin 0 := by decide!
  have hz1 : Flt.mul32 (Flt.fin ior) (Flt.fabs (Flt.fin 0)) = Flt.fin 0 := by
    show Flt.round32 (Flt.fin ior * Flt.fin |0|) = Flt.fin 0
    rw [Flt.fin_mul_fin, abs_zero, mul_zero, hr0]
  have hz2 : Flt.mul32 (Flt.fin 1) (Flt.fabs (Flt.fin 0)) = Flt.fin 0 := by decide!
  have hgt : Flt.gt (Flt.fin 0) (Flt.fin 0) = false := by decide!
  by_cases hs : Flt.ge (fresnelSint32 I N (Flt.fin ior)) (Flt.fin 1) = true
  · exact fresnel32_of_sint_ge I N (Flt.fin ior) hs
  · simp only [finiteNonzero, Bool.and_eq_true, Bool.not_eq_true', fresnelRsDen32,
      fresnelRpDen32, hc, hgt, Bool.false_eq_true, if_false, hz1, hz2] at h1 h2
    have e1 := Flt.div32_sub32_add32_zero _ h1.1 h1.2
    have e2 := Flt.div32_sub32_add32_zero _ h2.1 h2.2
    unfold fresnelCost32 fresnelSint32 at e1 e2
    unfold fresnelSint32 at hs
    simp only [hc, hgt, Bool.false_eq_true, if_false] at e1 e2 hs
    unfold fresnel32
    simp only [hc, hgt, Bool.false_eq_true, if_false, hz1, hz2, hs, e1, e2]
    decide!

/-- Claim C16 (amended): `refract` returns the zero vector whenever it takes its
total-internal-reflection branch (`k < 0`), and `fresnel` returns `kr = 1`, so that the
factor `1 − kr` is `0` and the refraction term `refractionColor * (1 − kr)` of the blend is
the zero vector for every finite `refractionColor`, in each of three cases: `refract` takes
that branch with a margin (`ior > 0`, the computed `cosi` is finite and not zero, the
computed `k` is a finite number `≤ -2^-20`); the test `sint ≥ 1` of `fresnel` succeeds on
the `sint` it computed; the computed `cosi` is `0` (where `refract` swaps the indices and
`fresnel` does not) and the two denominators of `Rs` and `Rp` are finite and not zero. -/
theorem fresnel32_one_of_total_internal_reflection (I N : Vector3f) (ior : ℚ)
    (h : (0 < ior ∧
        finiteNonzero (clamp (Flt.fin (-1)) (Flt.fin 1) (dotProduct32 I N)) = true ∧
        (refractK32 I N (Flt.fin ior)).isFinite = true ∧
        Flt.le (refractK32 I N (Flt.fin ior)) (Flt.fin (-1 / 1048576)) = true) ∨
      Flt.ge (fresnelSint32 I N (Flt.fin ior)) (Flt.fin 1) = true ∨
      (clamp (Flt.fin (-1)) (Flt.fin 1) (dotProduct32 I N) = Flt.fin 0 ∧
        finiteNonzero (fresnelRsDen32 I N (Flt.fin ior)) = true ∧
        finiteNonzero (fresnelRpDen32 I N (Flt.fin ior)) = true)) :
    (Flt.lt (refractK32 I N (Flt.fin ior)) (Flt.fin 0) = true →
      refract32 I N (Flt.fin ior) = Vector3f.zero) ∧
    fresnel32 I N (Flt.fin ior) = Flt.fin 1 ∧
    (∀ refractionColor : Vector3f, refractionColor.isFinite = true →
      refractionColor.scale32 (Flt.sub32 (Flt.fin 1) (fresnel32 I N (Flt.fin ior))) =
        Vector3f.zero) := by
  have hf : fresnel32 I N (Flt.fin ior) = Flt.fin 1 := by
    rcases h with ⟨hior, hc, hfin, hk⟩ | h | ⟨hc, h1, h2⟩
    · exact fresnel32_of_sint_ge I N (Flt.fin ior)
        (fresnelSint32_ge_one_of_refractK32_le I N ior hior hc hfin hk)
    · exact fresnel32_of_sint_ge I N (Flt.fin ior) h
    · exact fresnel32_grazing I N ior hc h1 h2
  refine ⟨refract32_of_refractK32_neg I N (Flt.fin ior), hf, ?_⟩
  intro col hcol
  obtain ⟨x, y, z, rfl⟩ := Vector3f.exists_ofRat_of_isFinite hcol
  have hr0 : Flt.round32 (Flt.fin 0) = Flt.fin 0 := by decide!
  have h10 : Flt.sub32 (Flt.fin 1) (Flt.fin 1) = Flt.fin 0 := by decide!
  have hm : ∀ a : ℚ, Flt.mul32 (Flt.fin a) (Flt.fin 0) = Flt.fin 0 := by
    intro a
    show Flt.round32 (Flt.fin a * Flt.fin 0) = Flt.fin 0
    rw [Flt.fin_mul_fin, mul_zero, hr0]
  rw [hf, h10]
  simp only [Vector3f.scale32, Vector3f.ofRat, hm, Vector3f.zero]

/-- Example for C16 (amended), with `N = (0,0,1)`: the direction `(1,0,1/2)` with `ior = 2`
(`cosi = 1/2`, `k = -2`: the margin case), the direction `(1,0,-1/2)` with `ior = 1/2`
(`sint ≥ 1`) and the grazing direction `(1,0,0)` with `ior = 2` (`cosi = 0`, `sint = 1/2`).
In all three cases `refract` returns the zero vector and `fresnel` returns 1. -/
theorem fresnel32_one_of_total_internal_reflection_witness :
    (refractK32 (Vector3f.ofRat 1 0 (1 / 2)) (Vector3f.ofRat 0 0 1) (Flt.fin 2) = Flt.fin (-2) ∧
      refract32 (Vector3f.ofRat 1 0 (1 / 2)) (Vector3f.ofRat 0 0 1) (Flt.fin 2) =
        Vector3f.zero ∧
      fresnel32 (Vector3f.ofRat 1 0 (1 / 2)) (Vector3f.ofRat 0 0 1) (Flt.fin 2) = Flt.fin 1) ∧
    (refract32 (Vector3f.ofRat 1 0 (-1 / 2)) (Vector3f.ofRat 0 0 1) (Flt.fin (1 / 2)) =
        Vector3f.zero ∧
      fresnel32 (Vector3f.ofRat 1 0 (-1 / 2)) (Vector3f.ofRat 0 0 1) (Flt.fin (1 / 2)) =
        Flt.fin 1) ∧
    (refract32 (Vector3f.ofRat 1 0 0) (Vector3f.ofRat 0 0 1) (Flt.fin 2) = Vector3f.zero ∧
      fresnelSint32 (Vector3f.ofRat 1 0 0) (Vector3f.ofRat 0 0 1) (Flt.fin 2) =
        Flt.fin (1 / 2) ∧
      fresnel32 (Vector3f.ofRat 1 0 0) (Vector3f.ofRat 0 0 1) (Flt.fin 2) = Flt.fin 1) :=
  have a := fresnel32_one_of_total_internal_reflection (Vector3f.ofRat 1 0 (1 / 2))
    (Vector3f.ofRat 0 0 1) 2 (Or.inl ⟨by norm_num, by decide!, by decide!, by decide!⟩)
  have b := fresnel32_one_of_total_internal_reflection (Vector3f.ofRat 1 0 (-1 / 2))
    (Vector3f.ofRat 0 0 1) (1 / 2) (Or.inr (Or.inl (by decide!)))
  have c := fresnel32_one_of_total_internal_reflection (Vector3f.ofRat 1 0 0)
    (Vector3f.ofRat 0 0 1) 2 (Or.inr (Or.inr ⟨by decide!, by decide!, by decide!⟩))
  ⟨⟨by decide!, a.1 (by decide!), a.2.1⟩, ⟨b.1 (by decide!), b.2.1⟩,
    ⟨c.1 (by decide!), by decide!, c.2.1⟩⟩

end Whitted

namespace Whitted

/-! ## Refraction in `float` arithmetic -/

end Whitted

end RayTracing
